import Mathlib

/-!
# Turn orchestration of the stockmind agent runtime

A shallow embedding of `internal/agent/session.go`, `internal/agent/core.go`,
`internal/agent/openai.go`, `internal/agent/service.go`,
`internal/agent/chunking.go`, `internal/database/types.go` and of the driving
loop of `internal/server/routes.go`.

Conventions of the embedding:

* Go `string`-typed enumerations (`StopReason`, `NodeType`, `ModelProvider`)
  stay strings, so values outside the declared constants exist as in Go.
* A Go `map[string]V` is an association list read with `List.lookup`;
  a `*string` is an `Option String`.
* A Go function returning `error` returns a `Status`; a nil-pointer
  dereference is the separate status `panic`.
* The collaborators (model provider, tool servers, persistence) are the fields
  of `Collaborators`.  Every call made to one of them is recorded in a trace
  (`List Call`), and each collaborator answers as a function of the trace so
  far and of its arguments, so its answers may change from call to call.
-/

namespace Stockmind

/-! ## internal/database/types.go -/

abbrev StopReason := String

def StopReasonMaxTokens : StopReason := "max_tokens"
def StopReasonUserInput : StopReason := "user_input"
def StopReasonToolCall : StopReason := "tool_call"
def StopReasonToolResult : StopReason := "tool_result"
def StopReasonAgentDone : StopReason := "agent_done"
def StopReasonUnknown : StopReason := "unknown"
def StopReasonNil : StopReason := ""

abbrev NodeType := String
abbrev ModelProvider := String

def NodeTypeStart : NodeType := "start"
def NodeTypeAgent : NodeType := "agent"
def ModelProviderAnthropic : ModelProvider := "anthropic"
def ModelProviderOpenAI : ModelProvider := "openai"

/-- Go `database.Node`; the field `Type` is spelled `Typ`, and the output
descriptor, which the session manager never reads, is left out. -/
structure Node where
  ID : String
  Typ : NodeType
  AgentName : Option String
  Next : Option String
  deriving DecidableEq, Repr

/-- The zero value a Go map read gives for a missing key. -/
def Node.zero : Node := { ID := "", Typ := "", AgentName := none, Next := none }

/-- Go `mcp.Tool`, reduced to the fields the agent reads. -/
structure Tool where
  Name : String
  Description : String
  InputSchema : String
  deriving DecidableEq, Repr

/-- Go `database.MCPConfig`. -/
structure MCPConfig where
  Name : String
  Protocol : String
  Command : Option String
  Args : List String
  Envs : List (String × String)
  URL : Option String
  Authentication : Option String
  deriving DecidableEq, Repr

/-- Go `database.AgentConfig`. `MaxTokens` is an `int64` and `Temperature` a
`float64` in the source; both are kept as integers here, so a fractional
temperature has no value in this embedding. The two fields are only copied
into requests and no statement below depends on their value. -/
structure AgentConfig where
  Description : String
  SystemPrompt : String
  Provider : ModelProvider
  ModelID : String
  MaxTokens : Int
  Temperature : Int
  Tools : List Tool
  McpServers : List MCPConfig
  deriving DecidableEq, Repr

/-- The zero value a Go map read gives for a missing key. -/
def AgentConfig.zero : AgentConfig :=
  { Description := "", SystemPrompt := "", Provider := "", ModelID := "",
    MaxTokens := 0, Temperature := 0, Tools := [], McpServers := [] }

/-- Go `database.AgentFlowConfig`. -/
structure AgentFlowConfig where
  Agents : List (String × AgentConfig)
  Nodes : List Node
  deriving DecidableEq, Repr

/-! ## go-openai message types, as far as the agent reads or writes them -/

structure ChatMessagePart where
  Typ : String
  Text : String
  deriving DecidableEq, Repr

def ChatMessagePartTypeText : String := "text"

structure FunctionCall where
  Name : String
  Arguments : String
  deriving DecidableEq, Repr

structure ToolCall where
  ID : String
  Typ : String
  Function : FunctionCall
  deriving DecidableEq, Repr

structure ChatCompletionMessage where
  Role : String
  Content : String
  MultiContent : List ChatMessagePart
  Name : String
  ToolCalls : List ToolCall
  ToolCallID : String
  deriving DecidableEq, Repr

/-- The zero value `openai.ChatCompletionMessage{}`. -/
def ChatCompletionMessage.zero : ChatCompletionMessage :=
  { Role := "", Content := "", MultiContent := [], Name := "", ToolCalls := [], ToolCallID := "" }

def ChatMessageRoleSystem : String := "system"
def ChatMessageRoleUser : String := "user"
def ChatMessageRoleAssistant : String := "assistant"
def ChatMessageRoleTool : String := "tool"

/-- Go `database.MessageUnion`: the one provider field is a nullable pointer. -/
structure MessageUnion where
  OfOpenAI : Option ChatCompletionMessage
  deriving DecidableEq, Repr

/-- The zero value `database.MessageUnion{}`. -/
def MessageUnion.zero : MessageUnion := { OfOpenAI := none }

/-! ## Rows and parameters of the persistence collaborator -/

abbrev UUID := Nat

/-- Modelled from the spec: the `database.Session` row (its declaration is
generated code that is not part of the sources): identifier, owning user,
bound flow configuration, turn counter. -/
structure Session where
  ID : UUID
  CreatedBy : UUID
  AgentFlowID : UUID
  TurnCount : Int
  deriving DecidableEq, Repr

/-- Modelled from the spec: the `database.SessionHistory` row (generated code
that is not part of the sources): identifier, session identifier, message
payload, stop-reason tag and the flow-node identifier that produced it. -/
structure SessionHistory where
  ID : UUID
  SessionID : UUID
  Content : MessageUnion
  StopReason : StopReason
  Node : String
  deriving DecidableEq, Repr

/-- The argument record of `Queries.SessionAddChatHistory`, with the fields
`session.go` fills in. -/
structure SessionAddChatHistoryParams where
  ID : UUID
  SessionID : UUID
  Content : MessageUnion
  StopReason : StopReason
  Node : String
  deriving DecidableEq, Repr

/-- The argument record of `Queries.UpdateSessionTurnCount`. -/
structure UpdateSessionTurnCountParams where
  ID : UUID
  TurnCount : Int
  deriving DecidableEq, Repr

/-! ## Collaborators -/

/-- A live go-openai client, known by a handle. -/
abbrev ClientHandle := Nat

/-- Go `agent.LLMClientWrapper`. -/
structure LLMClientWrapper where
  OfOpenAI : Option ClientHandle
  deriving DecidableEq, Repr

/-- A connected `mcp_client.Client`, known by the configuration it was
created from. -/
structure MCPClient where
  cfg : MCPConfig
  deriving DecidableEq, Repr

/-- Go `openai.Tool` with its `openai.FunctionDefinition` inlined. -/
structure OpenAITool where
  Typ : String
  Name : String
  Description : String
  Parameters : String
  deriving DecidableEq, Repr

def ToolTypeFunction : String := "function"

/-- Go `openai.ChatCompletionRequest`, the fields `newOpenAIMessage` sets. -/
structure ChatCompletionRequest where
  Model : String
  MaxTokens : Int
  Temperature : Int
  Stream : Bool
  Tools : List OpenAITool
  Messages : List ChatCompletionMessage
  deriving DecidableEq, Repr

/-- Go `openai.ChatCompletionStreamChoice` with its delta inlined. -/
structure StreamChoice where
  DeltaContent : String
  DeltaToolCalls : List ToolCall
  FinishReason : String
  deriving DecidableEq, Repr

/-- Go `openai.ChatCompletionStreamResponse`. -/
structure ChatCompletionStreamResponse where
  Choices : List StreamChoice
  deriving DecidableEq, Repr

/-- What one `stream.Recv()` gives: a response, `io.EOF`, or another error. -/
inductive RecvResult where
  | response (r : ChatCompletionStreamResponse)
  | eof
  | error (msg : String)
  deriving DecidableEq, Repr

/-- Go `mcp.Content`: a text block, or a block of another kind. -/
inductive Content where
  | text (Text : String)
  | other
  deriving DecidableEq, Repr

/-- One call made to a collaborator, in the order of the trace. -/
inductive Call where
  | CreateChatCompletionStream (client : ClientHandle) (body : ChatCompletionRequest)
  | Recv
  | CallTool (client : MCPClient) (name arguments : String) (userID sessionID : UUID)
  | SessionAddChatHistory (arg : SessionAddChatHistoryParams)
  | UpdateSessionTurnCount (arg : UpdateSessionTurnCountParams)
  | ChatCallBack (textContent : String) (thinking endBlock : Bool)
  | NewStreamableHTTP (cfg : MCPConfig)
  | Start (cfg : MCPConfig)
  | Initialize (cfg : MCPConfig)
  | ListTools (client : MCPClient)
  | GetSessionHistoryBySessionID (sessionID : UUID)
  deriving DecidableEq, Repr

/-- The collaborators of the core.  Each answers from the trace of the calls
made before and from its arguments.  `SessionAddChatHistory` and
`UpdateSessionTurnCount` give the error of the query, if it fails; so do
`NewStreamableHTTP`, `Start` and `Initialize` for the steps of a connection to
a tool server.  `MapRange` is the order in which a Go `range` visits the
entries of the client map, which the language leaves open, and `RangeAgents`
the same for the map of agent configurations. -/
structure Collaborators where
  CreateChatCompletionStream : List Call → ClientHandle → ChatCompletionRequest → Option String
  Recv : List Call → RecvResult
  CallTool : List Call → MCPClient → String → String → Except String (List Content)
  SessionAddChatHistory : List Call → SessionAddChatHistoryParams → Option String
  UpdateSessionTurnCount : List Call → UpdateSessionTurnCountParams → Option String
  NewV7 : List Call → UUID
  NewStreamableHTTP : List Call → MCPConfig → Option String
  Start : List Call → MCPConfig → Option String
  Initialize : List Call → MCPConfig → Option String
  ListTools : List Call → MCPClient → Except String (List Tool)
  MapRange : List Call → List (String × MCPClient) → List (String × MCPClient)
  GetSessionHistoryBySessionID : List Call → UUID → Except String (List SessionHistory)
  RangeAgents : List Call → List (String × AgentConfig) → List (String × AgentConfig)

/-- Modelled from the spec: `Queries.SessionAddChatHistory`, generated code
that is not part of the sources.  It is the append of the persistence
collaborator, `appendHistory(sessionID, content, stopReason, nodeID) →
HistoryEntry`: when the query succeeds the returned row carries the values it
was given. -/
def Collaborators.addChatHistory (env : Collaborators) (tr : List Call)
    (arg : SessionAddChatHistoryParams) : Except String SessionHistory :=
  match env.SessionAddChatHistory tr arg with
  | some e => .error e
  | none => .ok { ID := arg.ID, SessionID := arg.SessionID, Content := arg.Content,
                  StopReason := arg.StopReason, Node := arg.Node }

/-- Status of a Go method that returns `error`: `ok` is a nil error, `panic`
is a run-time panic (here always a nil-pointer dereference). -/
inductive Status where
  | ok
  | error (msg : String)
  | panic (msg : String)
  deriving DecidableEq, Repr

def nilDereference : String := "invalid memory address or nil pointer dereference"

/-! ## internal/agent/core.go and internal/agent/openai.go -/

/-- Go `agent.ChatCallBack`. -/
abbrev ChatCallBack := String → Bool → Bool → Option String

/-- Go `agent.Agent`. -/
structure Agent where
  name : String
  session : Session
  config : AgentConfig
  provider : Option LLMClientWrapper
  tools : List Tool
  mcpClients : List (String × MCPClient)
  deriving DecidableEq, Repr

/-- The go-openai finish reasons `openaiToDbStopReason` names; the library
declares them as these strings. -/
def FinishReasonStop : String := "stop"
def FinishReasonLength : String := "length"
def FinishReasonToolCalls : String := "tool_calls"

/-- Go `openaiToDbStopReason`. -/
def openaiToDbStopReason (reason : String) : StopReason :=
  if reason == FinishReasonLength then StopReasonMaxTokens
  else if reason == FinishReasonToolCalls then StopReasonToolCall
  else if reason == FinishReasonStop then StopReasonAgentDone
  else StopReasonUnknown

/-- Go `Agent.newOpenAIMessage`: the request skeleton, its tools taken from
`a.config.Tools`. The source narrows the two sampling parameters on the way,
`int(a.config.MaxTokens)` and `float32(a.config.Temperature)`; the narrowing
is not embedded, the two fields are copied as they are. -/
def Agent.newOpenAIMessage (a : Agent) : ChatCompletionRequest :=
  { Model := a.config.ModelID
    MaxTokens := a.config.MaxTokens
    Temperature := a.config.Temperature
    Stream := true
    Tools := a.config.Tools.map fun tool =>
      { Typ := ToolTypeFunction, Name := tool.Name, Description := tool.Description,
        Parameters := tool.InputSchema }
    Messages := [{ ChatCompletionMessage.zero with
                   Role := ChatMessageRoleSystem, Content := a.config.SystemPrompt }] }

/-- The body of the `for _, chunk := range response.Choices` loop of
`completionOpenAI`, acting on the local `contentItem`. -/
def accumulateChunk (contentItem : ChatCompletionMessage) (chunk : StreamChoice) :
    ChatCompletionMessage :=
  if chunk.DeltaContent != "" then
    { contentItem with
      MultiContent := contentItem.MultiContent ++
        [{ Typ := ChatMessagePartTypeText, Text := chunk.DeltaContent }] }
  else if chunk.DeltaToolCalls.length > 0 then
    { contentItem with ToolCalls := chunk.DeltaToolCalls }
  else contentItem

/-- Go `Agent.completionOpenAI`.  It returns its three results on every path;
the error is `none` for nil.  The `for` loop of the source returns at the end
of its first pass, so one `Recv` is made; `contentItem` is local and is not
part of what is returned. -/
def Agent.completionOpenAI (env : Collaborators) (a : Agent) (tr : List Call)
    (messages : List MessageUnion) (_callback : Option ChatCallBack) :
    (MessageUnion × StopReason × Option String) × List Call :=
  let body := a.newOpenAIMessage
  let body := { body with Messages := body.Messages ++ messages.filterMap fun m => m.OfOpenAI }
  let result : MessageUnion :=
    { OfOpenAI := some { ChatCompletionMessage.zero with
                         Role := ChatMessageRoleAssistant, MultiContent := [], ToolCalls := [] } }
  let stopReason : StopReason := StopReasonNil
  match a.provider.bind fun p => p.OfOpenAI with
  | none => ((result, stopReason, some "openAI client is not initialized"), tr)
  | some client =>
    let tr1 := tr ++ [Call.CreateChatCompletionStream client body]
    match env.CreateChatCompletionStream tr client body with
    | some err => ((result, stopReason, some err), tr1)
    | none =>
      let contentItem := ChatCompletionMessage.zero
      let tr2 := tr1 ++ [Call.Recv]
      match env.Recv tr1 with
      | .eof => ((result, stopReason, some "EOF"), tr2)
      | .error err => ((result, stopReason, some err), tr2)
      | .response response =>
        let _contentItem := response.Choices.foldl accumulateChunk contentItem
        ((result, stopReason, none), tr2)

/-- Go `strings.SplitN(s, "--", 2)` on the characters of `s`: the text before
the first `--` and the text after it, or `none` when `s` has no `--` (the
one-element result of the Go function). -/
def cutDashDash : List Char → Option (List Char × List Char)
  | [] => none
  | c :: rest =>
    if c = '-' ∧ rest.head? = some '-' then some ([], rest.tail)
    else
      match cutDashDash rest with
      | none => none
      | some (before, after) => some (c :: before, after)

/-- Go `strings.SplitN(s, "--", 2)`. -/
def splitN2 (s : String) : List String :=
  match cutDashDash s.data with
  | none => [s]
  | some (before, after) => [String.mk before, String.mk after]

/-- The text blocks of a tool response, as message parts (the type switch in
`toolUseOpenAI` keeps `mcp.TextContent` only). -/
def textParts : List Content → List ChatMessagePart
  | [] => []
  | .text t :: rest => { Typ := ChatMessagePartTypeText, Text := t } :: textParts rest
  | .other :: rest => textParts rest

/-- The `for _, toolUse := range toolUseBlocks` loop of `toolUseOpenAI`, with
the running `toolUseMessage`; an `error` is the early return of the loop. -/
def Agent.toolUseLoop (env : Collaborators) (a : Agent) :
    List ToolCall → ChatCompletionMessage → List Call →
      Except String ChatCompletionMessage × List Call
  | [], toolUseMessage, tr => (.ok toolUseMessage, tr)
  | toolUse :: rest, toolUseMessage, tr =>
    match splitN2 toolUse.Function.Name with
    | [mcpName, toolName] =>
      match a.mcpClients.lookup mcpName with
      | none => (.error ("MCP client not found: " ++ mcpName), tr)
      | some mcpClient =>
        let tr1 := tr ++ [Call.CallTool mcpClient toolName toolUse.Function.Arguments
                            a.session.CreatedBy a.session.ID]
        match env.CallTool tr mcpClient toolName toolUse.Function.Arguments with
        | .error err =>
          (.error ("failed to call tool " ++ toolUse.Function.Name ++ ": " ++ err), tr1)
        | .ok content =>
          let toolResult : ChatCompletionMessage :=
            { ChatCompletionMessage.zero with
              Role := ChatMessageRoleTool, ToolCallID := toolUse.ID,
              MultiContent := textParts content, Name := toolUse.Function.Name }
          Agent.toolUseLoop env a rest
            { toolUseMessage with
              MultiContent := toolUseMessage.MultiContent ++ toolResult.MultiContent } tr1
    | _ => (.error "invalid tool name format, expected <mcp>--<tool_name>", tr)

/-- Go `Agent.toolUseOpenAI`. -/
def Agent.toolUseOpenAI (env : Collaborators) (a : Agent) (tr : List Call)
    (message : MessageUnion) : (MessageUnion × Option String) × List Call :=
  let result := MessageUnion.zero
  match message.OfOpenAI with
  | none => ((result, some "last message is not an Anthropic message"), tr)
  | some lastMessage =>
    let toolUseBlocks := lastMessage.ToolCalls
    if toolUseBlocks.length == 0 then
      ((result, some "no tool use blocks found in chat history"), tr)
    else
      let toolUseMessage : ChatCompletionMessage :=
        { ChatCompletionMessage.zero with Role := ChatMessageRoleUser, MultiContent := [] }
      match Agent.toolUseLoop env a toolUseBlocks toolUseMessage tr with
      | (.error err, tr1) => ((result, some err), tr1)
      | (.ok toolUseMessage, tr1) => (({ OfOpenAI := some toolUseMessage }, none), tr1)

/-- Go `Agent.Completion`. -/
def Agent.Completion (env : Collaborators) (a : Agent) (tr : List Call)
    (messages : List MessageUnion) (callback : Option ChatCallBack) :
    (MessageUnion × StopReason × Option String) × List Call :=
  if a.config.Provider == ModelProviderOpenAI then
    a.completionOpenAI env tr messages callback
  else
    ((MessageUnion.zero, StopReasonUnknown,
      some ("unsupported model provider: " ++ a.config.Provider)), tr)

/-- Go `Agent.ToolUse`. -/
def Agent.ToolUse (env : Collaborators) (a : Agent) (tr : List Call)
    (message : MessageUnion) : (MessageUnion × Option String) × List Call :=
  if a.config.Provider == ModelProviderOpenAI then
    a.toolUseOpenAI env tr message
  else
    ((MessageUnion.zero, some ("unsupported model provider: " ++ a.config.Provider)), tr)

/-! ## internal/agent/session.go -/

/-- Go `agent.SessionManager`.  The context and the service pointer are the
`Collaborators` passed to each method. -/
structure SessionManager where
  session : Session
  agentFlowCfg : AgentFlowConfig
  history : List SessionHistory
  nodes : List (String × Node)
  agents : List (String × Agent)
  chatCallback : Option ChatCallBack

/-- What a method of the session manager leaves behind: the status it returns,
the session manager after the call and the trace of collaborator calls. -/
structure Outcome where
  status : Status
  sm : SessionManager
  trace : List Call

/-- Go `m[k] = v` on a map held as an association list. -/
def mapSet {V : Type} (m : List (String × V)) (k : String) (v : V) : List (String × V) :=
  (k, v) :: m.filter fun kv => kv.1 != k

/-- The node map `Initialize` builds: `sm.nodes[node.ID] = node` for each
node of the configuration, in order. -/
def buildNodes (nodes : List Node) : List (String × Node) :=
  nodes.foldl (fun m node => mapSet m node.ID node) []

/-- Go `SessionManager.lastHistoryInfo`. -/
def SessionManager.lastHistoryInfo (sm : SessionManager) : Except String (Node × SessionHistory) :=
  match sm.history.getLast? with
  | none => .error "no history found"
  | some lastHistory =>
    let lastNodeID := lastHistory.Node
    match sm.nodes.lookup lastNodeID with
    | none => .error ("last node " ++ lastNodeID ++ " not found in agent flow config")
    | some lastNode => .ok (lastNode, lastHistory)

/-- Go `SessionManager.IsHumanTurn`. -/
def SessionManager.IsHumanTurn (sm : SessionManager) : Bool :=
  let startOfFlow := sm.history.length == 0
  if !startOfFlow then
    match sm.lastHistoryInfo with
    | .error _ => false
    | .ok (lastNode, lastHistory) =>
      let startOfFlow :=
        if lastNode.Typ == NodeTypeAgent && lastHistory.StopReason != StopReasonToolCall
            && lastHistory.StopReason != StopReasonToolResult then true
        else startOfFlow
      if lastNode.Typ == NodeTypeStart then false
      else startOfFlow
  else startOfFlow

/-- Go `newHumanMessage`. -/
def newHumanMessage (message : String) (provider : ModelProvider) : Except String MessageUnion :=
  if provider == ModelProviderOpenAI then
    .ok { OfOpenAI := some { ChatCompletionMessage.zero with
                             Role := ChatMessageRoleUser, Content := message } }
  else .error ("unsupported model provider: " ++ provider)

/-- Go `SessionManager.HumanInput`. -/
def SessionManager.HumanInput (env : Collaborators) (sm : SessionManager) (tr : List Call)
    (message : String) : Outcome :=
  let startOfFlow := sm.history.length == 0
  let check : Except String Bool :=
    if !startOfFlow then
      match sm.lastHistoryInfo with
      | .error err => .error err
      | .ok (lastNode, lastHistory) =>
        let startOfFlow :=
          if lastNode.Typ == NodeTypeAgent && lastHistory.StopReason != "tool_call" then true
          else startOfFlow
        if lastNode.Typ == NodeTypeStart then
          .error ("last node " ++ lastNode.ID ++ " is start node, but we are not at start of flow")
        else .ok startOfFlow
    else .ok startOfFlow
  match check with
  | .error err => ⟨.error err, sm, tr⟩
  | .ok startOfFlow =>
    if !startOfFlow then ⟨.error "not at start of flow, cannot accept human input", sm, tr⟩
    else
      let startNode := (sm.nodes.lookup "start").getD Node.zero
      match startNode.Next with
      | none => ⟨.error "start node has no next node", sm, tr⟩
      | some nextNodeID =>
        match sm.nodes.lookup nextNodeID with
        | none =>
          ⟨.error ("next node " ++ nextNodeID ++ " not found in agent flow config"), sm, tr⟩
        | some nextNode =>
          match nextNode.AgentName with
          | none => ⟨.panic nilDereference, sm, tr⟩
          | some agentName =>
            let provider :=
              ((sm.agentFlowCfg.Agents.lookup agentName).getD AgentConfig.zero).Provider
            match newHumanMessage message provider with
            | .error err => ⟨.error err, sm, tr⟩
            | .ok humanMsg =>
              let historyID := env.NewV7 tr
              let arg : SessionAddChatHistoryParams :=
                { ID := historyID, SessionID := sm.session.ID, Content := humanMsg,
                  StopReason := StopReasonUserInput, Node := "start" }
              let tr1 := tr ++ [Call.SessionAddChatHistory arg]
              match env.addChatHistory tr arg with
              | .error err => ⟨.error err, sm, tr1⟩
              | .ok history => ⟨.ok, { sm with history := sm.history ++ [history] }, tr1⟩

/-- The tail shared by the three `continueTurn…` helpers: store the result of
the step with `SessionAddChatHistory` and append the returned row to the
in-memory history. -/
def SessionManager.storeResult (env : Collaborators) (sm : SessionManager) (tr : List Call)
    (content : MessageUnion) (stopReason : StopReason) (node : String) : Outcome :=
  let historyID := env.NewV7 tr
  let arg : SessionAddChatHistoryParams :=
    { ID := historyID, SessionID := sm.session.ID, Content := content,
      StopReason := stopReason, Node := node }
  let tr1 := tr ++ [Call.SessionAddChatHistory arg]
  match env.addChatHistory tr arg with
  | .error err => ⟨.error ("failed to add chat history: " ++ err), sm, tr1⟩
  | .ok history => ⟨.ok, { sm with history := sm.history ++ [history] }, tr1⟩

/-- Go `SessionManager.continueTurnHumanInput`. -/
def SessionManager.continueTurnHumanInput (env : Collaborators) (sm : SessionManager)
    (tr : List Call) : Outcome :=
  match sm.lastHistoryInfo with
  | .error err => ⟨.error err, sm, tr⟩
  | .ok (lastNode, _) =>
    match lastNode.Next with
    | none =>
      ⟨.error ("last node " ++ lastNode.ID ++ " has no next node, cannot continue turn"), sm, tr⟩
    | some next =>
      let nextNode := (sm.nodes.lookup next).getD Node.zero
      if nextNode.Typ != NodeTypeAgent then
        ⟨.error ("next node " ++ nextNode.ID ++ " is not an agent node, cannot continue turn"),
          sm, tr⟩
      else
        match nextNode.AgentName with
        | none => ⟨.panic nilDereference, sm, tr⟩
        | some agentName =>
          match sm.agents.lookup agentName with
          | none => ⟨.error ("agent " ++ agentName ++ " not found in session manager"), sm, tr⟩
          | some agent =>
            let messages := sm.history.map fun h => h.Content
            match agent.Completion env tr messages sm.chatCallback with
            | ((_, _, some err), tr1) =>
              ⟨.error ("failed to complete turn with agent " ++ agentName ++ ": " ++ err), sm, tr1⟩
            | ((result, stopReason, none), tr1) =>
              sm.storeResult env tr1 result stopReason nextNode.ID

/-- Go `SessionManager.continueTurnToolCall`. -/
def SessionManager.continueTurnToolCall (env : Collaborators) (sm : SessionManager)
    (tr : List Call) : Outcome :=
  match sm.lastHistoryInfo with
  | .error err => ⟨.error err, sm, tr⟩
  | .ok (lastNode, lastHistory) =>
    if lastNode.Typ != NodeTypeAgent then
      ⟨.error ("last node " ++ lastNode.ID ++ " is not an agent node, cannot continue turn"),
        sm, tr⟩
    else
      match lastNode.AgentName with
      | none => ⟨.panic nilDereference, sm, tr⟩
      | some agentName =>
        match sm.agents.lookup agentName with
        | none => ⟨.error ("agent " ++ agentName ++ " not found in session manager"), sm, tr⟩
        | some agent =>
          match agent.ToolUse env tr lastHistory.Content with
          | ((_, some err), tr1) =>
            ⟨.error ("failed to call tool use on agent " ++ agentName ++ ": " ++ err), sm, tr1⟩
          | ((message, none), tr1) =>
            sm.storeResult env tr1 message StopReasonToolResult lastNode.ID

/-- Go `SessionManager.continueTurnToolResult`. -/
def SessionManager.continueTurnToolResult (env : Collaborators) (sm : SessionManager)
    (tr : List Call) : Outcome :=
  match sm.lastHistoryInfo with
  | .error err => ⟨.error err, sm, tr⟩
  | .ok (lastNode, _) =>
    if lastNode.Typ != NodeTypeAgent then
      ⟨.error ("last node " ++ lastNode.ID ++ " is not an agent node, cannot continue turn"),
        sm, tr⟩
    else
      match lastNode.AgentName with
      | none => ⟨.panic nilDereference, sm, tr⟩
      | some agentName =>
        match sm.agents.lookup agentName with
        | none => ⟨.error ("agent " ++ agentName ++ " not found in session manager"), sm, tr⟩
        | some agent =>
          let messages := sm.history.map fun h => h.Content
          match agent.Completion env tr messages sm.chatCallback with
          | ((_, _, some err), tr1) =>
            ⟨.error ("failed to complete turn with agent " ++ agentName ++ ": " ++ err), sm, tr1⟩
          | ((result, stopReason, none), tr1) =>
            sm.storeResult env tr1 result stopReason lastNode.ID

/-- Lines 191–204 of `ContinueTurn`, reached when the `switch` did not return:
an error of the step is returned, otherwise the turn counter is incremented
and persisted. -/
def SessionManager.finishTurn (env : Collaborators) (step : Outcome) : Outcome :=
  match step.status with
  | .ok =>
    let sm := { step.sm with
                session := { step.sm.session with TurnCount := step.sm.session.TurnCount + 1 } }
    let arg : UpdateSessionTurnCountParams :=
      { ID := sm.session.ID, TurnCount := sm.session.TurnCount }
    let tr1 := step.trace ++ [Call.UpdateSessionTurnCount arg]
    match env.UpdateSessionTurnCount step.trace arg with
    | some err => ⟨.error ("failed to update session turn count: " ++ err), sm, tr1⟩
    | none => ⟨.ok, sm, tr1⟩
  | _ => step

/-- Go `SessionManager.ContinueTurn`. -/
def SessionManager.ContinueTurn (env : Collaborators) (sm : SessionManager) (tr : List Call) :
    Outcome :=
  match sm.lastHistoryInfo with
  | .error err => ⟨.error err, sm, tr⟩
  | .ok (lastNode, lastHistory) =>
    if lastHistory.StopReason == StopReasonUserInput then
      SessionManager.finishTurn env (sm.continueTurnHumanInput env tr)
    else if lastHistory.StopReason == StopReasonToolCall then
      SessionManager.finishTurn env (sm.continueTurnToolCall env tr)
    else if lastHistory.StopReason == StopReasonToolResult then
      SessionManager.finishTurn env (sm.continueTurnToolResult env tr)
    else if lastHistory.StopReason == StopReasonAgentDone then
      match lastNode.Next with
      | none => ⟨.ok, sm, tr⟩
      | some next =>
        let nextNode := (sm.nodes.lookup next).getD Node.zero
        if nextNode.Typ != NodeTypeAgent then
          ⟨.error ("next node " ++ nextNode.ID ++ " is not an agent node, cannot continue turn"),
            sm, tr⟩
        else SessionManager.finishTurn env ⟨.ok, sm, tr⟩
    else
      ⟨.error ("cannot continue turn, last history stop reason is " ++ lastHistory.StopReason),
        sm, tr⟩

/-! ## internal/agent/core.go: construction of an agent -/

/-- What stops a Go function that returns a value and an `error`: the error it
returns, or a run-time panic. -/
inductive Fault where
  | error (msg : String)
  | panic (msg : String)
  deriving DecidableEq, Repr

/-- The end of `createMCPClient`: start the transport, create the client and
initialize it. -/
def startAndInitialize (env : Collaborators) (tr : List Call) (cfg : MCPConfig) :
    Except Fault MCPClient × List Call :=
  let tr1 := tr ++ [Call.Start cfg]
  match env.Start tr cfg with
  | some err => (.error (.error err), tr1)
  | none =>
    let tr2 := tr1 ++ [Call.Initialize cfg]
    match env.Initialize tr1 cfg with
    | some err => (.error (.error err), tr2)
    | none => (.ok { cfg := cfg }, tr2)

/-- Go `createMCPClient`.  The `stdio` case dereferences `cfg.Command`. -/
def createMCPClient (env : Collaborators) (tr : List Call) (cfg : MCPConfig) :
    Except Fault MCPClient × List Call :=
  if cfg.Protocol == "stdio" then
    match cfg.Command with
    | none => (.error (.panic nilDereference), tr)
    | some _ => startAndInitialize env tr cfg
  else if cfg.Protocol == "streamablehttp" then
    match cfg.URL with
    | none => (.error (.error "URL is required for streamablehttp protocol"), tr)
    | some _ =>
      let tr1 := tr ++ [Call.NewStreamableHTTP cfg]
      match env.NewStreamableHTTP tr cfg with
      | some err => (.error (.error err), tr1)
      | none => startAndInitialize env tr1 cfg
  else (.error (.error ("unknown protocol: " ++ cfg.Protocol)), tr)

/-- The first loop of `NewAgent`: one client per server name, a name already
in the map is skipped. -/
def connectLoop (env : Collaborators) :
    List MCPConfig → List (String × MCPClient) → List Call →
      Except Fault (List (String × MCPClient)) × List Call
  | [], mcpClients, tr => (.ok mcpClients, tr)
  | mcpCfg :: rest, mcpClients, tr =>
    if (mcpClients.lookup mcpCfg.Name).isSome then connectLoop env rest mcpClients tr
    else
      match createMCPClient env tr mcpCfg with
      | (.error (.error err), tr1) =>
        (.error (.error ("failed to create MCP client for " ++ mcpCfg.Name ++ ": " ++ err)), tr1)
      | (.error (.panic msg), tr1) => (.error (.panic msg), tr1)
      | (.ok mcpClient, tr1) => connectLoop env rest (mapSet mcpClients mcpCfg.Name mcpClient) tr1

/-- The renaming of the tools a server lists: `<mcpName>--<tool name>`. -/
def renameTools (mcpName : String) (tools : List Tool) : List Tool :=
  tools.map fun tool => { tool with Name := mcpName ++ "--" ++ tool.Name }

/-- The second loop of `NewAgent`, over the entries of the client map in the
order the `range` visits them: list the tools of each client, rename them and
append them to `a.tools`. -/
def listToolsLoop (env : Collaborators) :
    List (String × MCPClient) → List Tool → List Call → Except Fault (List Tool) × List Call
  | [], tools, tr => (.ok tools, tr)
  | (mcpName, mcpClient) :: rest, tools, tr =>
    let tr1 := tr ++ [Call.ListTools mcpClient]
    match env.ListTools tr mcpClient with
    | .error err => (.error (.error ("failed to list tools from MCP: " ++ err)), tr1)
    | .ok resTools => listToolsLoop env rest (tools ++ renameTools mcpName resTools) tr1

/-- Go `NewAgent`. -/
def NewAgent (env : Collaborators) (tr : List Call) (session : Session) (name : String)
    (config : AgentConfig) (provider : Option LLMClientWrapper) :
    Except Fault Agent × List Call :=
  match connectLoop env config.McpServers [] tr with
  | (.error fault, tr1) => (.error fault, tr1)
  | (.ok mcpClients, tr1) =>
    match listToolsLoop env (env.MapRange tr1 mcpClients) [] tr1 with
    | (.error fault, tr2) => (.error fault, tr2)
    | (.ok tools, tr2) =>
      (.ok { name := name, session := session, config := config, provider := provider,
             tools := tools, mcpClients := mcpClients }, tr2)

/-! ## internal/agent/service.go and `SessionManager.Initialize` -/

/-- Go `agent.OpenAIConfig`. -/
structure OpenAIConfig where
  AuthType : String
  APIKey : String
  BaseURL : String
  deriving DecidableEq, Repr

/-- Go `agent.AgentService`: the OpenAI part of its provider configuration,
the only part that is read, and the go-openai constructor of a client, which
gives the handle of the client it creates. -/
structure AgentService where
  config : OpenAIConfig
  NewClient : OpenAIConfig → ClientHandle

/-- Go `createOpenAIClient`. -/
def createOpenAIClient (llm : AgentService) (config : OpenAIConfig) :
    Except String LLMClientWrapper :=
  let openaiClient : Option ClientHandle :=
    if config.AuthType == "openai" then some (llm.NewClient config) else none
  if config.AuthType == "open_router" then
    if config.APIKey == "" then .error "OPENAI_API_KEY is not found"
    else .ok { OfOpenAI := some (llm.NewClient config) }
  else .ok { OfOpenAI := openaiClient }

/-- Go `AgentService.getClientByProvider`. -/
def AgentService.getClientByProvider (llm : AgentService) (provider : ModelProvider) :
    Except String LLMClientWrapper :=
  if provider == ModelProviderOpenAI then
    match createOpenAIClient llm llm.config with
    | .error err => .error ("failed to create OpenRouter client: " ++ err)
    | .ok client => .ok client
  else .error ("unsupported model provider: " ++ provider)

/-- The loop of `Initialize` over the agent configurations, in the order the
`range` visits them; the agents built so far stay in the map when the loop
stops on an error. -/
def agentsLoop (env : Collaborators) (llm : AgentService) (session : Session) :
    List (String × AgentConfig) → List (String × Agent) → List Call →
      Status × List (String × Agent) × List Call
  | [], agents, tr => (.ok, agents, tr)
  | (name, agentCfg) :: rest, agents, tr =>
    match llm.getClientByProvider agentCfg.Provider with
    | .error err =>
      (.error ("failed to get LLM client for provider " ++ agentCfg.Provider ++ ": " ++ err),
        agents, tr)
    | .ok provider =>
      match NewAgent env tr session name agentCfg (some provider) with
      | (.error (.error err), tr1) =>
        (.error ("failed to initialize agent " ++ name ++ ": " ++ err), agents, tr1)
      | (.error (.panic msg), tr1) => (.panic msg, agents, tr1)
      | (.ok agent, tr1) => agentsLoop env llm session rest (mapSet agents name agent) tr1

/-- The second half of `Initialize`: the node map and the agents. -/
def SessionManager.buildMaps (env : Collaborators) (llm : AgentService) (sm : SessionManager)
    (tr : List Call) : Outcome :=
  let sm := { sm with nodes := buildNodes sm.agentFlowCfg.Nodes }
  match agentsLoop env llm sm.session (env.RangeAgents tr sm.agentFlowCfg.Agents) [] tr with
  | (status, agents, tr1) => ⟨status, { sm with agents := agents }, tr1⟩

/-- Go `SessionManager.Initialize`. -/
def SessionManager.Initialize (env : Collaborators) (llm : AgentService) (sm : SessionManager)
    (tr : List Call) : Outcome :=
  if sm.history.length == 0 then
    let tr1 := tr ++ [Call.GetSessionHistoryBySessionID sm.session.ID]
    match env.GetSessionHistoryBySessionID tr sm.session.ID with
    | .error err => ⟨.error err, sm, tr1⟩
    | .ok msgs => SessionManager.buildMaps env llm { sm with history := msgs } tr1
  else SessionManager.buildMaps env llm sm tr

/-- The session manager `GetOrCreateSession` hands to `Initialize`. -/
def newManager (session : Session) (flow : AgentFlowConfig) : SessionManager :=
  { session := session, agentFlowCfg := flow, history := [], nodes := [], agents := [],
    chatCallback := none }

/-! ## internal/server/routes.go: the driving loop of `chatHandler` -/

/-- How the driving loop ends: `IsHumanTurn` became true, a `ContinueTurn`
returned an error or panicked, the loop counter passed the ceiling, or the
fuel of the model ran out before the loop ended. -/
inductive LoopEnd where
  | humanTurn
  | failed (err : String)
  | panicked (msg : String)
  | tooManyLoops
  | outOfFuel
  deriving DecidableEq, Repr

/-- What the driving loop leaves: how it ended, the number of `ContinueTurn`
calls it issued, and the last state of the session. -/
structure LoopResult (S : Type) where
  ending : LoopEnd
  calls : Nat
  state : S

/-- The loop `for !session.IsHumanTurn() { … }` of `chatHandler`, over any
session with the two methods; `nLoop` is the loop counter, `calls` counts the
`ContinueTurn` calls issued so far, and each pass of the loop uses one unit of
fuel. -/
def driveLoop {S : Type} (isHumanTurn : S → Bool) (continueTurn : S → Status × S) :
    Nat → Nat → Nat → S → LoopResult S
  | 0, _, calls, session => ⟨.outOfFuel, calls, session⟩
  | fuel + 1, nLoop, calls, session =>
    if !isHumanTurn session then
      match continueTurn session with
      | (.error err, session) => ⟨.failed err, calls + 1, session⟩
      | (.panic msg, session) => ⟨.panicked msg, calls + 1, session⟩
      | (.ok, session) =>
        let nLoop := nLoop + 1
        if nLoop > 10 then ⟨.tooManyLoops, calls + 1, session⟩
        else driveLoop isHumanTurn continueTurn fuel nLoop (calls + 1) session
    else ⟨.humanTurn, calls, session⟩

/-- The driving loop on a session manager, from `nLoop := 0`. -/
def chatLoop (env : Collaborators) (fuel : Nat) (sm : SessionManager) (tr : List Call) :
    LoopResult (SessionManager × List Call) :=
  driveLoop (fun session => session.1.IsHumanTurn)
    (fun session =>
      ((session.1.ContinueTurn env session.2).status,
        ((session.1.ContinueTurn env session.2).sm, (session.1.ContinueTurn env session.2).trace)))
    fuel 0 0 (sm, tr)

/-- Go `Server.chatHandler` from `session.HumanInput(body.Content)` on, for
the session the handler obtained. -/
def chatHandler (env : Collaborators) (fuel : Nat) (sm : SessionManager) (tr : List Call)
    (content : String) : LoopResult (SessionManager × List Call) :=
  match (sm.HumanInput env tr content).status with
  | .error err =>
    ⟨.failed err, 0, ((sm.HumanInput env tr content).sm, (sm.HumanInput env tr content).trace)⟩
  | .panic msg =>
    ⟨.panicked msg, 0, ((sm.HumanInput env tr content).sm, (sm.HumanInput env tr content).trace)⟩
  | .ok => chatLoop env fuel (sm.HumanInput env tr content).sm (sm.HumanInput env tr content).trace

/-- A session that is never at a human turn and whose `ContinueTurn` always
succeeds: the counter of the steps taken. -/
def busySession : (Nat → Bool) × (Nat → Status × Nat) :=
  (fun _ => false, fun n => (.ok, n + 1))

/-! ## internal/agent/chunking.go

A Go string is the list of its bytes, one `Char` for each byte; `len` is the
length of the list.  Go `int` values are integers: the sums the code forms
stay below `2 ^ 63` for strings that fit in memory. -/

/-- Go `agent.Chunking`. -/
structure Chunking where
  chunkSize : Int
  overlap : Int
  deriving DecidableEq, Repr

/-- Go `NewChunking`. -/
def NewChunking (chunkSize overlap : Int) : Except String Chunking :=
  if chunkSize ≤ 0 then .error "chunk_size must be > 0"
  else if overlap < 0 then .error "overlap must be >= 0"
  else if overlap ≥ chunkSize then .error "overlap must be < chunk_size"
  else .ok { chunkSize := chunkSize, overlap := overlap }

/-- The loop of Go `strings.Split(s, sep)` for a separator that is not empty:
`skip` counts the bytes of a separator just found that are still to pass,
`current` holds the piece being read, in reverse. -/
def splitLoop (sep : List Char) : List Char → Nat → List Char → List (List Char)
  | [], _, current => [current.reverse]
  | _ :: rest, skip + 1, current => splitLoop sep rest skip current
  | c :: rest, 0, current =>
    if sep.isPrefixOf (c :: rest) then
      current.reverse :: splitLoop sep rest (sep.length - 1) []
    else splitLoop sep rest 0 (c :: current)

/-- Go `strings.Split(s, sep)` for a separator that is not empty. -/
def Split (s sep : List Char) : List (List Char) := splitLoop sep s 0 []

/-- The closure `appendChunk` of `RecursiveChunking`, acting on `chunks`. -/
def appendChunk (chunks : List (List Char)) (s : List Char) : List (List Char) :=
  if s = [] then chunks else chunks ++ [s]

/-- The slice `w[start:end]`. -/
def slice (w : List Char) (start stop : Int) : List Char :=
  (w.drop start.toNat).take (stop - start).toNat

/-- The loop `for start := 0; start < len(w); start += c.chunkSize` of
`RecursiveChunking`, one unit of fuel for each pass; `none` when the fuel does
not reach the end of the loop. -/
def sliceLoop (chunkSize : Int) (w : List Char) :
    Nat → Int → List (List Char) → Option (List (List Char))
  | 0, start, chunks => if start < w.length then none else some chunks
  | fuel + 1, start, chunks =>
    if start < w.length then
      sliceLoop chunkSize w fuel (start + chunkSize)
        (appendChunk chunks (slice w start (min (start + chunkSize) w.length)))
    else some chunks

/-- The loop over the words in the closure `packWords`, with the running
`current`. -/
def packWordsLoop (chunkSize : Int) :
    List (List Char) → List Char → List (List Char) → Option (List Char × List (List Char))
  | [], current, chunks => some (current, chunks)
  | w :: rest, current, chunks =>
    if current = [] then
      if (w.length : Int) ≤ chunkSize then packWordsLoop chunkSize rest w chunks
      else
        match sliceLoop chunkSize w (w.length + 1) 0 chunks with
        | none => none
        | some chunks => packWordsLoop chunkSize rest [] chunks
    else if (current.length : Int) + 1 + w.length ≤ chunkSize then
      packWordsLoop chunkSize rest (current ++ ' ' :: w) chunks
    else
      if (w.length : Int) ≤ chunkSize then
        packWordsLoop chunkSize rest w (appendChunk chunks current)
      else
        match sliceLoop chunkSize w (w.length + 1) 0 (appendChunk chunks current) with
        | none => none
        | some chunks => packWordsLoop chunkSize rest [] chunks

/-- The closure `packWords` of `RecursiveChunking`. -/
def packWords (chunkSize : Int) (words : List (List Char)) (chunks : List (List Char)) :
    Option (List (List Char)) :=
  match packWordsLoop chunkSize words [] chunks with
  | none => none
  | some (current, chunks) => some (if current ≠ [] then appendChunk chunks current else chunks)

/-- The sentences of a line: the pieces of `strings.Split(line, ".")` that are
not empty, each but the last with its period, the last one too when the line
ends with a period. -/
def sentencesOf (line : List Char) : List (List Char) :=
  let raw := Split line ['.']
  raw.enum.filterMap fun (i, s) =>
    if s = [] then none
    else if i < raw.length - 1 ∨ line.getLast? = some '.' then some (s ++ ['.'])
    else some s

/-- The loop over the sentences of a line; `fields` is Go `strings.Fields`. -/
def sentencesLoop (fields : List Char → List (List Char)) (chunkSize : Int) :
    List (List Char) → List (List Char) → Option (List (List Char))
  | [], chunks => some chunks
  | s :: rest, chunks =>
    if (s.length : Int) ≤ chunkSize then
      sentencesLoop fields chunkSize rest (appendChunk chunks s)
    else if (fields s).length = 0 then
      match sliceLoop chunkSize s (s.length + 1) 0 chunks with
      | none => none
      | some chunks => sentencesLoop fields chunkSize rest chunks
    else
      match packWords chunkSize (fields s) chunks with
      | none => none
      | some chunks => sentencesLoop fields chunkSize rest chunks

/-- The loop over the lines of a paragraph. -/
def linesLoop (fields : List Char → List (List Char)) (chunkSize : Int) :
    List (List Char) → List (List Char) → Option (List (List Char))
  | [], chunks => some chunks
  | line :: rest, chunks =>
    if line = [] then linesLoop fields chunkSize rest chunks
    else if (line.length : Int) ≤ chunkSize then
      linesLoop fields chunkSize rest (appendChunk chunks line)
    else
      match sentencesLoop fields chunkSize (sentencesOf line) chunks with
      | none => none
      | some chunks => linesLoop fields chunkSize rest chunks

/-- The loop over the paragraphs of the text. -/
def paragraphsLoop (fields : List Char → List (List Char)) (chunkSize : Int) :
    List (List Char) → List (List Char) → Option (List (List Char))
  | [], chunks => some chunks
  | p :: rest, chunks =>
    if p = [] then paragraphsLoop fields chunkSize rest chunks
    else if (p.length : Int) ≤ chunkSize then
      paragraphsLoop fields chunkSize rest (appendChunk chunks p)
    else
      match linesLoop fields chunkSize (Split p ['\n']) chunks with
      | none => none
      | some chunks => paragraphsLoop fields chunkSize rest chunks

/-- The closure `addOverlapToChunks` of `RecursiveChunking`, for an overlap
that is not negative. -/
def addOverlapToChunks (overlap : Int) (chunks : List (List Char)) : List (List Char) :=
  if overlap = 0 ∨ chunks.length ≤ 1 then chunks
  else
    (List.range chunks.length).map fun i =>
      let currentChunk := chunks.getD i []
      let currentChunk :=
        if i > 0 ∧ ((chunks.getD (i - 1) []).length : Int) ≥ overlap then
          (chunks.getD (i - 1) []).drop ((chunks.getD (i - 1) []).length - overlap.toNat) ++
            ' ' :: currentChunk
        else currentChunk
      if i < chunks.length - 1 ∧ ((chunks.getD (i + 1) []).length : Int) ≥ overlap then
        currentChunk ++ ' ' :: (chunks.getD (i + 1) []).take overlap.toNat
      else currentChunk

/-- Go `Chunking.RecursiveChunking`, with `strings.Fields` as `fields`; `none`
when one of the slicing loops does not end. -/
def Chunking.RecursiveChunking (fields : List Char → List (List Char)) (c : Chunking)
    (text : List Char) : Option (List (List Char)) :=
  match paragraphsLoop fields c.chunkSize (Split text ['\n', '\n']) [] with
  | none => none
  | some chunks => some (addOverlapToChunks c.overlap chunks)

/-- The loop of `asciiFields`. -/
def asciiFieldsLoop : List Char → List Char → List (List Char)
  | [], current => if current = [] then [] else [current.reverse]
  | c :: rest, current =>
    if c = ' ' ∨ c = '\t' ∨ c = '\n' ∨ c = '\r' ∨ c = '\x0b' ∨ c = '\x0c' then
      if current = [] then asciiFieldsLoop rest []
      else current.reverse :: asciiFieldsLoop rest []
    else asciiFieldsLoop rest (c :: current)

/-- The words of a text between ASCII white space: what `strings.Fields`
gives on ASCII text. -/
def asciiFields (s : List Char) : List (List Char) := asciiFieldsLoop s []

/-! ## A sample flow, used to evaluate the definitions -/

def sampleSession : Session := { ID := 7, CreatedBy := 1, AgentFlowID := 2, TurnCount := 0 }

def sampleAgentConfig : AgentConfig :=
  { AgentConfig.zero with Provider := ModelProviderOpenAI, ModelID := "qwen/qwen3-4b:free" }

/-- The chain `start → agent1`, with `agent1` bound to the agent `assistant`. -/
def sampleFlow : AgentFlowConfig :=
  { Agents := [("assistant", sampleAgentConfig)]
    Nodes := [{ ID := "start", Typ := NodeTypeStart, AgentName := none, Next := some "agent1" },
              { ID := "agent1", Typ := NodeTypeAgent, AgentName := some "assistant",
                Next := none }] }

/-- The chain `start → agent1 → start`: the agent node hands back to the start node. -/
def loopFlow : AgentFlowConfig :=
  { Agents := [("assistant", sampleAgentConfig)]
    Nodes := [{ ID := "start", Typ := NodeTypeStart, AgentName := none, Next := some "agent1" },
              { ID := "agent1", Typ := NodeTypeAgent, AgentName := some "assistant",
                Next := some "start" }] }

/-- A flow whose `start` node has no successor. -/
def startOnlyFlow : AgentFlowConfig :=
  { Agents := []
    Nodes := [{ ID := "start", Typ := NodeTypeStart, AgentName := none, Next := none }] }

def sampleMCPClient : MCPClient :=
  { cfg := { Name := "search", Protocol := "stdio", Command := some "search-server", Args := [],
             Envs := [], URL := none, Authentication := none } }

def sampleAgent : Agent :=
  { name := "assistant", session := sampleSession, config := sampleAgentConfig,
    provider := some { OfOpenAI := some 0 }, tools := [],
    mcpClients := [("search", sampleMCPClient)] }

/-- Collaborators that never fail: the stream delivers one empty response, a
tool answers with one text block, both queries succeed. -/
def sampleEnv : Collaborators :=
  { CreateChatCompletionStream := fun _ _ _ => none
    Recv := fun _ => .response { Choices := [] }
    CallTool := fun _ _ _ _ => .ok [.text "42"]
    SessionAddChatHistory := fun _ _ => none
    UpdateSessionTurnCount := fun _ _ => none
    NewV7 := fun tr => tr.length
    NewStreamableHTTP := fun _ _ => none
    Start := fun _ _ => none
    Initialize := fun _ _ => none
    ListTools := fun _ _ => .ok [{ Name := "lookup", Description := "", InputSchema := "" }]
    MapRange := fun _ m => m
    GetSessionHistoryBySessionID := fun _ _ => .ok []
    RangeAgents := fun _ m => m }

/-- The session manager `Initialize` leaves for a flow and a loaded history,
with the sample agent bound to the name `assistant`. -/
def sampleManager (flow : AgentFlowConfig) (history : List SessionHistory) : SessionManager :=
  { session := sampleSession, agentFlowCfg := flow, history := history,
    nodes := buildNodes flow.Nodes, agents := [("assistant", sampleAgent)],
    chatCallback := none }

def userMessage (text : String) : MessageUnion :=
  { OfOpenAI := some { ChatCompletionMessage.zero with
                       Role := ChatMessageRoleUser, Content := text } }

def assistantMessage (toolCalls : List ToolCall) : MessageUnion :=
  { OfOpenAI := some { ChatCompletionMessage.zero with
                       Role := ChatMessageRoleAssistant, ToolCalls := toolCalls } }

def sampleToolCall : ToolCall :=
  { ID := "call_1", Typ := "function",
    Function := { Name := "search--lookup", Arguments := "\x7b\x7d" } }

/-- A history row on `node` with the given stop reason. -/
def entry (id : UUID) (node : String) (stopReason : StopReason) (content : MessageUnion) :
    SessionHistory :=
  { ID := id, SessionID := sampleSession.ID, Content := content, StopReason := stopReason,
    Node := node }

/-- A history that stops in the middle of a tool exchange: the agent asked
for a tool, the tool result was stored, the agent has not answered yet. -/
def midToolExchange : List SessionHistory :=
  [entry 1 "start" StopReasonUserInput (userMessage "hi"),
   entry 2 "agent1" StopReasonToolCall (assistantMessage [sampleToolCall]),
   entry 3 "agent1" StopReasonToolResult
     { OfOpenAI := some { ChatCompletionMessage.zero with
                          Role := ChatMessageRoleUser,
                          MultiContent := [{ Typ := ChatMessagePartTypeText, Text := "42" }] } }]

/-- A history whose turn is complete: the agent answered with `agent_done`. -/
def doneHistory : List SessionHistory :=
  [entry 1 "start" StopReasonUserInput (userMessage "hi"),
   entry 2 "agent1" StopReasonAgentDone (assistantMessage [])]

/-- A history waiting for the tools: the agent asked for `search--lookup`. -/
def toolCallHistory : List SessionHistory :=
  [entry 1 "start" StopReasonUserInput (userMessage "hi"),
   entry 2 "agent1" StopReasonToolCall (assistantMessage [sampleToolCall])]

/-- A history holding the first human message only. -/
def firstHistory : List SessionHistory :=
  [entry 1 "start" StopReasonUserInput (userMessage "hi")]

/-- A history whose last completion stopped at the token limit. -/
def maxTokensHistory : List SessionHistory :=
  [entry 1 "start" StopReasonUserInput (userMessage "hi"),
   entry 2 "agent1" StopReasonMaxTokens (assistantMessage [])]

/-- The sample agent configuration with the tool server `search` and an empty
`Tools` list. -/
def searchAgentConfig : AgentConfig :=
  { sampleAgentConfig with McpServers := [sampleMCPClient.cfg] }

/-- The number of `Recv` calls in a trace. -/
def recvCount (tr : List Call) : Nat := (tr.filter fun c => c == Call.Recv).length

/-- Collaborators that never fail and whose stream delivers `responses`, one
for each `Recv`, and then end-of-data. -/
def streamEnv (responses : List ChatCompletionStreamResponse) : Collaborators :=
  { sampleEnv with
    Recv := fun tr =>
      match responses.get? (recvCount tr) with
      | some response => .response response
      | none => .eof }

/-- One streamed delta carrying a text fragment and a finish reason. -/
def textDelta (text finishReason : String) : ChatCompletionStreamResponse :=
  { Choices := [{ DeltaContent := text, DeltaToolCalls := [], FinishReason := finishReason }] }

/-- The stream `Hel`, `lo` (finish reason `stop`), end-of-data. -/
def helloStream : List ChatCompletionStreamResponse :=
  [textDelta "Hel" "", textDelta "lo" FinishReasonStop]

/-- Collaborators that never fail, except that the update of the turn counter
always does. -/
def updateFailEnv : Collaborators :=
  { sampleEnv with UpdateSessionTurnCount := fun _ _ => some "connection lost" }

/-- A streaming callback that accepts every fragment. -/
def sampleCallback : ChatCallBack := fun _ _ _ => none

/-- The list `['-', '-']`, the separator of a qualified tool name. -/
def dashDash : List Char := ['-', '-']

/-- A history waiting for two tools: `search--lookup`, then `unknownsrv--lookup`
on a server the sample agent is not connected to. -/
def unknownServerHistory : List SessionHistory :=
  [entry 1 "start" StopReasonUserInput (userMessage "hi"),
   entry 2 "agent1" StopReasonToolCall
     (assistantMessage
       [sampleToolCall,
        { ID := "call_2", Typ := "function",
          Function := { Name := "unknownsrv--lookup", Arguments := "\x7b\x7d" } }])]

/-- The texts passed to the streaming callback, in the order of the trace. -/
def callbackTexts (tr : List Call) : List String :=
  tr.filterMap fun c =>
    match c with
    | .ChatCallBack textContent _ _ => some textContent
    | _ => none

/-- The session after the first human message `hello` on the sample flow. -/
def afterHello (env : Collaborators) : Outcome :=
  (sampleManager sampleFlow []).HumanInput env [] "hello"

/-- The session after `hello` and one `ContinueTurn`. -/
def afterHelloStep (env : Collaborators) : Outcome :=
  (afterHello env).sm.ContinueTurn env (afterHello env).trace

/-- The agent `NewAgent` builds from `searchAgentConfig` when the server
`search` lists the one tool `lookup`. -/
def searchAgent : Agent :=
  { sampleAgent with
    config := searchAgentConfig
    tools := [{ Name := "search--lookup", Description := "", InputSchema := "" }] }

/-- The name `NewAgent` gives a tool of the server `mcpName`:
`fmt.Sprintf("%s--%s", mcpName, name)`. -/
def qualifiedName (mcpName name : String) : String := mcpName ++ "--" ++ name

/-- A `stdio` tool-server configuration with the given name and command. -/
def stdioServer (name command : String) : MCPConfig :=
  { Name := name, Protocol := "stdio", Command := some command, Args := [], Envs := [],
    URL := none, Authentication := none }

/-- An agent configuration with the servers `a` and `b`, and a second entry
named `a` that starts another command. -/
def twoServerConfig : AgentConfig :=
  { sampleAgentConfig with
    McpServers := [stdioServer "a" "server-a", stdioServer "b" "server-b",
                   stdioServer "a" "server-a2"] }

/-- Collaborators that never fail and whose tool servers each list the one
tool `run`. -/
def runEnv : Collaborators :=
  { sampleEnv with
    ListTools := fun _ _ => .ok [{ Name := "run", Description := "", InputSchema := "" }] }

/-- The agent `NewAgent` builds from `twoServerConfig` with `runEnv`. -/
def twoServerAgent : Agent :=
  { name := "assistant", session := sampleSession, config := twoServerConfig,
    provider := some { OfOpenAI := some 0 },
    tools := [{ Name := "b--run", Description := "", InputSchema := "" },
              { Name := "a--run", Description := "", InputSchema := "" }],
    mcpClients := [("b", { cfg := stdioServer "b" "server-b" }),
                   ("a", { cfg := stdioServer "a" "server-a" })] }

/-- A service configured for OpenRouter with a key. -/
def sampleService : AgentService :=
  { config := { AuthType := "open_router", APIKey := "key",
                BaseURL := "https://openrouter.ai/api/v1" },
    NewClient := fun _ => 0 }

/-- The chain `start → agent1` in which the agent node `agent1` has no bound
agent name. -/
def namelessFlow : AgentFlowConfig :=
  { Agents := [("assistant", sampleAgentConfig)]
    Nodes := [{ ID := "start", Typ := NodeTypeStart, AgentName := none, Next := some "agent1" },
              { ID := "agent1", Typ := NodeTypeAgent, AgentName := none, Next := none }] }

/-- The chain `start → agent1 → agent2`: the agent node `agent1` hands over to
a second agent node. -/
def handOffFlow : AgentFlowConfig :=
  { Agents := [("assistant", sampleAgentConfig)]
    Nodes := [{ ID := "start", Typ := NodeTypeStart, AgentName := none, Next := some "agent1" },
              { ID := "agent1", Typ := NodeTypeAgent, AgentName := some "assistant",
                Next := some "agent2" },
              { ID := "agent2", Typ := NodeTypeAgent, AgentName := some "assistant",
                Next := none }] }

/-! ## Helper lemmas -/

theorem length_beq_zero_of_getLast? {α : Type} (l : List α) (a : α)
    (h : l.getLast? = some a) : (l.length == 0) = false := by
  cases l with
  | nil => simp at h
  | cons x xs => simp

theorem lastHistoryInfo_of_lookup (sm : SessionManager) (last : SessionHistory) (node : Node)
    (hlast : sm.history.getLast? = some last) (hnode : sm.nodes.lookup last.Node = some node) :
    sm.lastHistoryInfo = .ok (node, last) := by
  simp [SessionManager.lastHistoryInfo, hlast, hnode]

theorem lastHistoryInfo_of_lookup_none (sm : SessionManager) (last : SessionHistory)
    (hlast : sm.history.getLast? = some last) (hnode : sm.nodes.lookup last.Node = none) :
    sm.lastHistoryInfo =
      .error ("last node " ++ last.Node ++ " not found in agent flow config") := by
  simp [SessionManager.lastHistoryInfo, hlast, hnode]

theorem lastHistoryInfo_ok (sm : SessionManager) (node : Node) (last : SessionHistory)
    (h : sm.lastHistoryInfo = .ok (node, last)) :
    sm.history.getLast? = some last ∧ sm.nodes.lookup last.Node = some node := by
  unfold SessionManager.lastHistoryInfo at h
  cases hl : sm.history.getLast? with
  | none => simp [hl] at h
  | some l =>
    simp only [hl] at h
    cases hn : sm.nodes.lookup l.Node with
    | none => simp [hn] at h
    | some n =>
      simp only [hn] at h
      injection h with h
      injection h with h1 h2
      subst h1 h2
      exact ⟨rfl, hn⟩

/-! ## Claims on `IsHumanTurn` -/

/-- C1: `IsHumanTurn` is true on an empty history, and on every non-empty
history whose last entry is on an agent-type node of the node map with stop
reason `agent_done`, `max_tokens` or `unknown`. -/
theorem isHumanTurn_start_of_flow (sm : SessionManager)
    (h : sm.history = [] ∨
      ∃ last node, sm.history.getLast? = some last ∧
        sm.nodes.lookup last.Node = some node ∧ node.Typ = NodeTypeAgent ∧
        (last.StopReason = StopReasonAgentDone ∨ last.StopReason = StopReasonMaxTokens ∨
          last.StopReason = StopReasonUnknown)) :
    sm.IsHumanTurn = true := by
  rcases h with h | ⟨last, node, hlast, hnode, htyp, hsr⟩
  · simp [SessionManager.IsHumanTurn, h]
  · have hlen := length_beq_zero_of_getLast? _ _ hlast
    have hinfo := lastHistoryInfo_of_lookup sm last node hlast hnode
    have hsr1 : (last.StopReason != StopReasonToolCall) = true ∧
        (last.StopReason != StopReasonToolResult) = true := by
      rcases hsr with h | h | h <;> rw [h] <;> decide
    have hns : (node.Typ == NodeTypeStart) = false := by rw [htyp]; decide
    have hna : (node.Typ == NodeTypeAgent) = true := by rw [htyp]; decide
    simp [SessionManager.IsHumanTurn, hlen, hinfo, hsr1.1, hsr1.2, hns, hna]

/-- Witness of C1: the empty history, and a history ending with `agent_done`
on the agent node of the sample flow. -/
theorem isHumanTurn_start_of_flow_witness :
    (sampleManager sampleFlow []).IsHumanTurn = true ∧
    (sampleManager sampleFlow
      [entry 1 "start" StopReasonUserInput (userMessage "hi"),
       entry 2 "agent1" StopReasonAgentDone (assistantMessage [])]).IsHumanTurn = true :=
  ⟨isHumanTurn_start_of_flow _ (Or.inl rfl),
   isHumanTurn_start_of_flow _ (Or.inr ⟨entry 2 "agent1" StopReasonAgentDone (assistantMessage []),
     { ID := "agent1", Typ := NodeTypeAgent, AgentName := some "assistant", Next := none },
     by decide, by decide, by decide, Or.inl (by decide)⟩)⟩

/-- C2, counterexample: after an entry with stop reason `user_input` bound to
an agent node `IsHumanTurn` is true. -/
theorem isHumanTurn_user_input_on_agent_node :
    (sampleManager sampleFlow
      [entry 1 "agent1" StopReasonUserInput (userMessage "hi")]).history.getLast? =
        some (entry 1 "agent1" StopReasonUserInput (userMessage "hi")) ∧
    (buildNodes sampleFlow.Nodes).lookup "agent1" =
      some { ID := "agent1", Typ := NodeTypeAgent, AgentName := some "assistant", Next := none } ∧
    (sampleManager sampleFlow
      [entry 1 "agent1" StopReasonUserInput (userMessage "hi")]).IsHumanTurn = true := by
  decide

/-- C2, amended: after an entry with stop reason `tool_call` or `tool_result`
`IsHumanTurn` is false whatever node the entry is bound to; after an entry
with stop reason `user_input` it is false exactly when the entry is not bound
to an agent-type node of the node map (so false on the start node). -/
theorem isHumanTurn_false_after (sm : SessionManager) (last : SessionHistory)
    (hlast : sm.history.getLast? = some last) :
    ((last.StopReason = StopReasonToolCall ∨ last.StopReason = StopReasonToolResult) →
      sm.IsHumanTurn = false) ∧
    (last.StopReason = StopReasonUserInput →
      (sm.IsHumanTurn = false ↔
        ¬ ∃ node, sm.nodes.lookup last.Node = some node ∧ node.Typ = NodeTypeAgent)) := by
  have hlen := length_beq_zero_of_getLast? _ _ hlast
  cases hnode : sm.nodes.lookup last.Node with
  | none =>
    have hinfo := lastHistoryInfo_of_lookup_none sm last hlast hnode
    simp [SessionManager.IsHumanTurn, hlen, hinfo]
  | some node =>
    have hinfo := lastHistoryInfo_of_lookup sm last node hlast hnode
    refine ⟨?_, ?_⟩
    · intro hsr
      rcases hsr with h | h <;>
        simp [SessionManager.IsHumanTurn, hlen, hinfo, h]
    · intro hsr
      have h1 : (StopReasonUserInput != StopReasonToolCall) = true := by decide
      have h2 : (StopReasonUserInput != StopReasonToolResult) = true := by decide
      by_cases hta : node.Typ = NodeTypeAgent
      · have hns : (node.Typ == NodeTypeStart) = false := by rw [hta]; decide
        have hna : (node.Typ == NodeTypeAgent) = true := by rw [hta]; decide
        have hne : ¬ NodeTypeAgent = NodeTypeStart := by decide
        simp [SessionManager.IsHumanTurn, hlen, hinfo, hsr, h1, h2, hns, hna, hta, hne]
      · have hna : (node.Typ == NodeTypeAgent) = false := by simpa using hta
        simp [SessionManager.IsHumanTurn, hlen, hinfo, hsr, hna, hta]

/-- Witness of the amended C2, at a history ending with `user_input` on the
start node. -/
theorem isHumanTurn_false_after_witness :
    (sampleManager sampleFlow [entry 1 "start" StopReasonUserInput (userMessage "hi")]).IsHumanTurn
      = false :=
  ((isHumanTurn_false_after
      (sampleManager sampleFlow [entry 1 "start" StopReasonUserInput (userMessage "hi")])
      (entry 1 "start" StopReasonUserInput (userMessage "hi")) (by decide)).2 (by decide)).mpr
    (by decide)

theorem isHumanTurn_eq_true (sm : SessionManager) (h : sm.IsHumanTurn = true) :
    sm.history = [] ∨
      ∃ last node, sm.lastHistoryInfo = .ok (node, last) ∧ node.Typ = NodeTypeAgent ∧
        last.StopReason ≠ StopReasonToolCall ∧ last.StopReason ≠ StopReasonToolResult := by
  by_cases hnil : sm.history = []
  · exact Or.inl hnil
  · right
    have hlen : (sm.history.length == 0) = false := by simpa using hnil
    unfold SessionManager.IsHumanTurn at h
    simp only [hlen] at h
    cases hinfo : sm.lastHistoryInfo with
    | error e => simp [hinfo] at h
    | ok p =>
      obtain ⟨node, last⟩ := p
      refine ⟨last, node, rfl, ?_⟩
      simp only [hinfo] at h
      by_cases hs : node.Typ = NodeTypeStart
      · simp [hs] at h
      · by_cases ha : node.Typ = NodeTypeAgent
        · refine ⟨ha, ?_⟩
          by_cases h1 : last.StopReason = StopReasonToolCall
          · simp [hs, ha, h1] at h
          · by_cases h2 : last.StopReason = StopReasonToolResult
            · simp [hs, ha, h2] at h
            · exact ⟨h1, h2⟩
        · simp [hs, ha] at h

/-- Apart from a last entry with stop reason `tool_result`, `HumanInput`
rejects every state in which `IsHumanTurn` is false: it returns an error,
makes no call and leaves the session manager as it was. -/
theorem humanInput_rejects (env : Collaborators) (sm : SessionManager) (tr : List Call)
    (message : String) (hturn : sm.IsHumanTurn = false)
    (hres : ∀ last, sm.history.getLast? = some last →
      last.StopReason ≠ StopReasonToolResult) :
    (∃ msg, (sm.HumanInput env tr message).status = .error msg) ∧
    (sm.HumanInput env tr message).sm.history = sm.history ∧
    (sm.HumanInput env tr message).trace = tr := by
  cases hl : sm.history.getLast? with
  | none =>
    have hnil : sm.history = [] := List.getLast?_eq_none_iff.mp hl
    simp [SessionManager.IsHumanTurn, hnil] at hturn
  | some last =>
    have hlen := length_beq_zero_of_getLast? _ _ hl
    have hr := hres last hl
    unfold SessionManager.HumanInput
    cases hnode : sm.nodes.lookup last.Node with
    | none =>
      have hinfo := lastHistoryInfo_of_lookup_none sm last hl hnode
      simp [hlen, hinfo]
    | some node =>
      have hinfo := lastHistoryInfo_of_lookup sm last node hl hnode
      by_cases hs : node.Typ = NodeTypeStart
      · simp [hlen, hinfo, hs]
      · have hsb : (node.Typ == NodeTypeStart) = false := by simpa using hs
        by_cases ha : node.Typ = NodeTypeAgent
        · have hab : (node.Typ == NodeTypeAgent) = true := by simpa using ha
          have hne : ¬ NodeTypeAgent = NodeTypeStart := by decide
          have htc : last.StopReason = "tool_call" := by
            by_contra hc
            have hc1 : ¬ last.StopReason = StopReasonToolCall := hc
            simp [SessionManager.IsHumanTurn, hlen, hinfo, ha, hne, hc1, hr] at hturn
          simp [hlen, hinfo, hsb, hab, htc]
        · have hab : (node.Typ == NodeTypeAgent) = false := by simpa using ha
          simp [hlen, hinfo, hsb, hab]

/-! ## Claims on `HumanInput` -/

/-- C3, at the failing input: with the last entry a `tool_result` on the agent
node, `IsHumanTurn` is false, yet `HumanInput` returns no error and appends a
`start`/`user_input` entry. -/
theorem humanInput_accepts_after_tool_result :
    (sampleManager sampleFlow midToolExchange).IsHumanTurn = false ∧
    ((sampleManager sampleFlow midToolExchange).HumanInput sampleEnv [] "hello").status = .ok ∧
    ((sampleManager sampleFlow midToolExchange).HumanInput sampleEnv [] "hello").sm.history =
      midToolExchange ++ [entry 0 "start" StopReasonUserInput (userMessage "hello")] := by
  decide

/-- C4, counterexample: on an empty history (`IsHumanTurn` true) and with a
persistence collaborator that never fails, `HumanInput` returns an error when
the `start` node of the flow has no successor; nothing is appended. -/
theorem humanInput_start_without_successor :
    (sampleManager startOnlyFlow []).IsHumanTurn = true ∧
    (∀ tr arg, sampleEnv.SessionAddChatHistory tr arg = none) ∧
    ((sampleManager startOnlyFlow []).HumanInput sampleEnv [] "hello").status =
      .error "start node has no next node" ∧
    ((sampleManager startOnlyFlow []).HumanInput sampleEnv [] "hello").sm.history = [] :=
  ⟨by decide, fun _ _ => rfl, by decide, by decide⟩

/-- C4, amended: when `IsHumanTurn` is true, the `start` node has a successor
in the node map that is bound to an agent configured with the `openai`
provider, and the persistence append succeeds, `HumanInput` succeeds and the
history afterwards is the old history followed by one new entry on node
`start` with stop reason `user_input` and a user-role message carrying the
text. -/
theorem humanInput_appends_user_entry (env : Collaborators) (sm : SessionManager)
    (tr : List Call) (message : String) (startNode nextNode : Node)
    (nextNodeID agentName : String) (cfg : AgentConfig)
    (hturn : sm.IsHumanTurn = true)
    (hstart : sm.nodes.lookup "start" = some startNode)
    (hnext : startNode.Next = some nextNodeID)
    (hnode : sm.nodes.lookup nextNodeID = some nextNode)
    (hname : nextNode.AgentName = some agentName)
    (hcfg : sm.agentFlowCfg.Agents.lookup agentName = some cfg)
    (hprov : cfg.Provider = ModelProviderOpenAI)
    (hdb : ∀ arg, env.SessionAddChatHistory tr arg = none) :
    (sm.HumanInput env tr message).status = .ok ∧
    ∃ e m, (sm.HumanInput env tr message).sm.history = sm.history ++ [e] ∧
      e.Node = "start" ∧ e.StopReason = StopReasonUserInput ∧
      e.Content.OfOpenAI = some m ∧ m.Role = ChatMessageRoleUser ∧ m.Content = message := by
  have hmsg : newHumanMessage message cfg.Provider =
      .ok { OfOpenAI := some { ChatCompletionMessage.zero with
                               Role := ChatMessageRoleUser, Content := message } } := by
    simp [newHumanMessage, hprov]
  have hchk : (if (!(sm.history.length == 0)) = true then
      match sm.lastHistoryInfo with
      | .error err => (.error err : Except String Bool)
      | .ok (lastNode, lastHistory) =>
        let startOfFlow :=
          if lastNode.Typ == NodeTypeAgent && lastHistory.StopReason != "tool_call" then true
          else sm.history.length == 0
        if lastNode.Typ == NodeTypeStart then
          .error ("last node " ++ lastNode.ID ++ " is start node, but we are not at start of flow")
        else .ok startOfFlow
    else .ok (sm.history.length == 0)) = .ok true := by
    rcases isHumanTurn_eq_true sm hturn with hnil | ⟨last, node, hinfo, hta, h1, _⟩
    · simp [hnil]
    · have hlen := length_beq_zero_of_getLast? _ _ (lastHistoryInfo_ok sm node last hinfo).1
      have hne : ¬ NodeTypeAgent = NodeTypeStart := by decide
      have h1' : ¬ last.StopReason = "tool_call" := h1
      simp [hlen, hinfo, hta, hne, h1']
  unfold SessionManager.HumanInput
  simp only [hchk]
  simp [hstart, hnext, hnode, hname, hcfg, hmsg, Collaborators.addChatHistory, hdb]

/-- Witness of the amended C4: the first human message of the sample flow. -/
theorem humanInput_appends_user_entry_witness :
    ((sampleManager sampleFlow []).HumanInput sampleEnv [] "hello").status = .ok ∧
    ∃ e m, ((sampleManager sampleFlow []).HumanInput sampleEnv [] "hello").sm.history =
        (sampleManager sampleFlow []).history ++ [e] ∧
      e.Node = "start" ∧ e.StopReason = StopReasonUserInput ∧
      e.Content.OfOpenAI = some m ∧ m.Role = ChatMessageRoleUser ∧ m.Content = "hello" :=
  humanInput_appends_user_entry sampleEnv (sampleManager sampleFlow []) [] "hello"
    { ID := "start", Typ := NodeTypeStart, AgentName := none, Next := some "agent1" }
    { ID := "agent1", Typ := NodeTypeAgent, AgentName := some "assistant", Next := none }
    "agent1" "assistant" sampleAgentConfig
    (by decide) (by decide) rfl (by decide) rfl (by decide) rfl (fun _ => rfl)

/-! ## The steps of `ContinueTurn` -/

theorem storeResult_cases (env : Collaborators) (sm : SessionManager) (tr : List Call)
    (content : MessageUnion) (stopReason : StopReason) (node : String) :
    ((sm.storeResult env tr content stopReason node).status = .ok ∧
      (sm.storeResult env tr content stopReason node).sm.history =
        sm.history ++ [{ ID := env.NewV7 tr, SessionID := sm.session.ID, Content := content,
                         StopReason := stopReason, Node := node }] ∧
      (sm.storeResult env tr content stopReason node).sm.session = sm.session) ∨
    ((sm.storeResult env tr content stopReason node).status ≠ .ok ∧
      (sm.storeResult env tr content stopReason node).sm = sm) := by
  unfold SessionManager.storeResult Collaborators.addChatHistory
  cases h : env.SessionAddChatHistory tr
      { ID := env.NewV7 tr, SessionID := sm.session.ID, Content := content,
        StopReason := stopReason, Node := node } with
  | none => left; simp [h]
  | some e => right; simp [h]

theorem continueTurnToolCall_cases (env : Collaborators) (sm : SessionManager)
    (tr : List Call) :
    ((sm.continueTurnToolCall env tr).status ≠ .ok ∧ (sm.continueTurnToolCall env tr).sm = sm) ∨
    ((sm.continueTurnToolCall env tr).status = .ok ∧
      (sm.continueTurnToolCall env tr).sm.session = sm.session ∧
      ∃ lastNode last agentName agent message tr1,
        sm.lastHistoryInfo = .ok (lastNode, last) ∧ lastNode.Typ = NodeTypeAgent ∧
        lastNode.AgentName = some agentName ∧ sm.agents.lookup agentName = some agent ∧
        agent.ToolUse env tr last.Content = ((message, none), tr1) ∧
        (sm.continueTurnToolCall env tr).sm.history =
          sm.history ++ [{ ID := env.NewV7 tr1, SessionID := sm.session.ID, Content := message,
                           StopReason := StopReasonToolResult, Node := lastNode.ID }]) := by
  unfold SessionManager.continueTurnToolCall
  cases hinfo : sm.lastHistoryInfo with
  | error e => left; simp
  | ok p =>
    obtain ⟨lastNode, last⟩ := p
    simp only []
    by_cases hta : lastNode.Typ = NodeTypeAgent
    · have hna : (lastNode.Typ != NodeTypeAgent) = false := by simp [hta]
      simp only [hna]
      cases hname : lastNode.AgentName with
      | none => left; simp
      | some agentName =>
        simp only []
        cases hagent : sm.agents.lookup agentName with
        | none => left; simp
        | some agent =>
          simp only []
          rcases htu : agent.ToolUse env tr last.Content with ⟨⟨message, _ | err⟩, tr1⟩
          · simp only []
            rcases storeResult_cases env sm tr1 message StopReasonToolResult lastNode.ID with
              ⟨h1, h2, h3⟩ | ⟨h1, h2⟩
            · right
              exact ⟨h1, h3, lastNode, last, agentName, agent, message, tr1, rfl, hta, hname,
                hagent, htu, h2⟩
            · left; exact ⟨h1, h2⟩
          · left; simp
    · have hna : (lastNode.Typ != NodeTypeAgent) = true := by simp [hta]
      left; simp [hna]

theorem continueTurnToolResult_cases (env : Collaborators) (sm : SessionManager)
    (tr : List Call) :
    ((sm.continueTurnToolResult env tr).status ≠ .ok ∧
      (sm.continueTurnToolResult env tr).sm = sm) ∨
    ((sm.continueTurnToolResult env tr).status = .ok ∧
      (sm.continueTurnToolResult env tr).sm.session = sm.session ∧
      ∃ lastNode last agentName agent result stopReason tr1,
        sm.lastHistoryInfo = .ok (lastNode, last) ∧ lastNode.Typ = NodeTypeAgent ∧
        lastNode.AgentName = some agentName ∧ sm.agents.lookup agentName = some agent ∧
        agent.Completion env tr (sm.history.map fun h => h.Content) sm.chatCallback =
          ((result, stopReason, none), tr1) ∧
        (sm.continueTurnToolResult env tr).sm.history =
          sm.history ++ [{ ID := env.NewV7 tr1, SessionID := sm.session.ID, Content := result,
                           StopReason := stopReason, Node := lastNode.ID }]) := by
  unfold SessionManager.continueTurnToolResult
  cases hinfo : sm.lastHistoryInfo with
  | error e => left; simp
  | ok p =>
    obtain ⟨lastNode, last⟩ := p
    simp only []
    by_cases hta : lastNode.Typ = NodeTypeAgent
    · have hna : (lastNode.Typ != NodeTypeAgent) = false := by simp [hta]
      simp only [hna]
      cases hname : lastNode.AgentName with
      | none => left; simp
      | some agentName =>
        simp only []
        cases hagent : sm.agents.lookup agentName with
        | none => left; simp
        | some agent =>
          simp only []
          rcases hc : agent.Completion env tr (sm.history.map fun h => h.Content)
              sm.chatCallback with ⟨⟨result, stopReason, _ | err⟩, tr1⟩
          · simp only [hc]
            rcases storeResult_cases env sm tr1 result stopReason lastNode.ID with
              ⟨h1, h2, h3⟩ | ⟨h1, h2⟩
            · right
              exact ⟨h1, h3, lastNode, last, agentName, agent, result, stopReason, tr1, rfl, hta,
                hname, hagent, hc, h2⟩
            · left; exact ⟨h1, h2⟩
          · left; simp [hc]
    · have hna : (lastNode.Typ != NodeTypeAgent) = true := by simp [hta]
      left; simp [hna]

theorem continueTurnHumanInput_cases (env : Collaborators) (sm : SessionManager)
    (tr : List Call) :
    ((sm.continueTurnHumanInput env tr).status ≠ .ok ∧
      (sm.continueTurnHumanInput env tr).sm = sm) ∨
    ((sm.continueTurnHumanInput env tr).status = .ok ∧
      (sm.continueTurnHumanInput env tr).sm.session = sm.session ∧
      ∃ lastNode last next nextNode agentName agent result stopReason tr1,
        sm.lastHistoryInfo = .ok (lastNode, last) ∧ lastNode.Next = some next ∧
        sm.nodes.lookup next = some nextNode ∧ nextNode.Typ = NodeTypeAgent ∧
        nextNode.AgentName = some agentName ∧ sm.agents.lookup agentName = some agent ∧
        agent.Completion env tr (sm.history.map fun h => h.Content) sm.chatCallback =
          ((result, stopReason, none), tr1) ∧
        (sm.continueTurnHumanInput env tr).sm.history =
          sm.history ++ [{ ID := env.NewV7 tr1, SessionID := sm.session.ID, Content := result,
                           StopReason := stopReason, Node := nextNode.ID }]) := by
  unfold SessionManager.continueTurnHumanInput
  cases hinfo : sm.lastHistoryInfo with
  | error e => left; simp
  | ok p =>
    obtain ⟨lastNode, last⟩ := p
    simp only []
    cases hnext : lastNode.Next with
    | none => left; simp
    | some next =>
      simp only []
      cases hlook : sm.nodes.lookup next with
      | none =>
        have hz : (Node.zero.Typ != NodeTypeAgent) = true := by decide
        left; simp [hz]
      | some nextNode =>
        simp only [Option.getD_some]
        by_cases hta : nextNode.Typ = NodeTypeAgent
        · have hna : (nextNode.Typ != NodeTypeAgent) = false := by simp [hta]
          simp only [hna]
          cases hname : nextNode.AgentName with
          | none => left; simp
          | some agentName =>
            simp only []
            cases hagent : sm.agents.lookup agentName with
            | none => left; simp
            | some agent =>
              simp only []
              rcases hc : agent.Completion env tr (sm.history.map fun h => h.Content)
                  sm.chatCallback with ⟨⟨result, stopReason, _ | err⟩, tr1⟩
              · simp only [hc]
                rcases storeResult_cases env sm tr1 result stopReason nextNode.ID with
                  ⟨h1, h2, h3⟩ | ⟨h1, h2⟩
                · right
                  exact ⟨h1, h3, lastNode, last, next, nextNode, agentName, agent, result,
                    stopReason, tr1, rfl, hnext, hlook, hta, hname, hagent, hc, h2⟩
                · left; exact ⟨h1, h2⟩
              · left; simp [hc]
        · have hna : (nextNode.Typ != NodeTypeAgent) = true := by simp [hta]
          left; simp [hna]

theorem finishTurn_history (env : Collaborators) (step : Outcome) :
    (SessionManager.finishTurn env step).sm.history = step.sm.history := by
  unfold SessionManager.finishTurn
  cases hs : step.status with
  | ok =>
    simp only []
    cases env.UpdateSessionTurnCount step.trace
      { ID := step.sm.session.ID, TurnCount := step.sm.session.TurnCount + 1 } <;> rfl
  | error e => rfl
  | panic e => rfl

theorem finishTurn_ok (env : Collaborators) (step : Outcome)
    (h : (SessionManager.finishTurn env step).status = .ok) : step.status = .ok := by
  unfold SessionManager.finishTurn at h
  cases hs : step.status with
  | ok => rfl
  | error e => simp [hs] at h
  | panic e => simp [hs] at h

/-! ## The node map of `Initialize` -/

theorem mem_of_lookup {V : Type} (m : List (String × V)) (k : String) (v : V)
    (h : m.lookup k = some v) : (k, v) ∈ m := by
  induction m with
  | nil => simp at h
  | cons kv rest ih =>
    obtain ⟨k1, v1⟩ := kv
    rw [List.lookup_cons] at h
    by_cases hk : k = k1
    · subst hk
      simp at h
      subst h
      exact List.mem_cons_self _ _
    · have hb : (k == k1) = false := by simpa using hk
      rw [hb] at h
      exact List.mem_cons_of_mem _ (ih h)

theorem foldl_mapSet_keyed (nodes : List Node) (m : List (String × Node))
    (hm : ∀ kv ∈ m, kv.2.ID = kv.1) :
    ∀ kv ∈ nodes.foldl (fun m node => mapSet m node.ID node) m, kv.2.ID = kv.1 := by
  induction nodes generalizing m with
  | nil => simpa using hm
  | cons node rest ih =>
    rw [List.foldl_cons]
    apply ih
    intro kv hkv
    unfold mapSet at hkv
    rcases List.mem_cons.mp hkv with h | h
    · subst h; rfl
    · exact hm kv (List.mem_filter.mp h).1

theorem buildNodes_lookup_id (nodes : List Node) (k : String) (n : Node)
    (h : (buildNodes nodes).lookup k = some n) : n.ID = k :=
  foldl_mapSet_keyed nodes [] (by simp) (k, n) (mem_of_lookup _ k n h)

/-! ## Dispatch of `ContinueTurn` on the last stop reason -/

theorem continueTurn_of_user_input (env : Collaborators) (sm : SessionManager) (tr : List Call)
    (lastNode : Node) (last : SessionHistory) (hinfo : sm.lastHistoryInfo = .ok (lastNode, last))
    (hsr : last.StopReason = StopReasonUserInput) :
    sm.ContinueTurn env tr = SessionManager.finishTurn env (sm.continueTurnHumanInput env tr) := by
  unfold SessionManager.ContinueTurn
  simp [hinfo, hsr]

theorem continueTurn_of_tool_call (env : Collaborators) (sm : SessionManager) (tr : List Call)
    (lastNode : Node) (last : SessionHistory) (hinfo : sm.lastHistoryInfo = .ok (lastNode, last))
    (hsr : last.StopReason = StopReasonToolCall) :
    sm.ContinueTurn env tr = SessionManager.finishTurn env (sm.continueTurnToolCall env tr) := by
  have h1 : ¬ StopReasonToolCall = StopReasonUserInput := by decide
  unfold SessionManager.ContinueTurn
  simp [hinfo, hsr, h1]

theorem continueTurn_of_tool_result (env : Collaborators) (sm : SessionManager) (tr : List Call)
    (lastNode : Node) (last : SessionHistory) (hinfo : sm.lastHistoryInfo = .ok (lastNode, last))
    (hsr : last.StopReason = StopReasonToolResult) :
    sm.ContinueTurn env tr = SessionManager.finishTurn env (sm.continueTurnToolResult env tr) := by
  have h1 : ¬ StopReasonToolResult = StopReasonUserInput := by decide
  have h2 : ¬ StopReasonToolResult = StopReasonToolCall := by decide
  unfold SessionManager.ContinueTurn
  simp [hinfo, hsr, h1, h2]

theorem continueTurn_of_agent_done (env : Collaborators) (sm : SessionManager) (tr : List Call)
    (lastNode : Node) (last : SessionHistory) (hinfo : sm.lastHistoryInfo = .ok (lastNode, last))
    (hsr : last.StopReason = StopReasonAgentDone) :
    sm.ContinueTurn env tr =
      match lastNode.Next with
      | none => ⟨.ok, sm, tr⟩
      | some next =>
        if ((sm.nodes.lookup next).getD Node.zero).Typ != NodeTypeAgent then
          ⟨.error ("next node " ++ ((sm.nodes.lookup next).getD Node.zero).ID ++
              " is not an agent node, cannot continue turn"), sm, tr⟩
        else SessionManager.finishTurn env ⟨.ok, sm, tr⟩ := by
  have h1 : ¬ StopReasonAgentDone = StopReasonUserInput := by decide
  have h2 : ¬ StopReasonAgentDone = StopReasonToolCall := by decide
  have h3 : ¬ StopReasonAgentDone = StopReasonToolResult := by decide
  unfold SessionManager.ContinueTurn
  simp [hinfo, hsr, h1, h2, h3]

theorem continueTurn_of_other (env : Collaborators) (sm : SessionManager) (tr : List Call)
    (lastNode : Node) (last : SessionHistory) (hinfo : sm.lastHistoryInfo = .ok (lastNode, last))
    (h1 : last.StopReason ≠ StopReasonUserInput) (h2 : last.StopReason ≠ StopReasonToolCall)
    (h3 : last.StopReason ≠ StopReasonToolResult) (h4 : last.StopReason ≠ StopReasonAgentDone) :
    sm.ContinueTurn env tr =
      ⟨.error ("cannot continue turn, last history stop reason is " ++ last.StopReason),
        sm, tr⟩ := by
  unfold SessionManager.ContinueTurn
  simp [hinfo, h1, h2, h3, h4]

theorem continueTurn_of_info_error (env : Collaborators) (sm : SessionManager) (tr : List Call)
    (err : String) (hinfo : sm.lastHistoryInfo = .error err) :
    sm.ContinueTurn env tr = ⟨.error err, sm, tr⟩ := by
  unfold SessionManager.ContinueTurn
  simp [hinfo]

theorem ne_append_singleton {α : Type} (l : List α) (e : α) : l ≠ l ++ [e] := by
  intro h
  have := congrArg List.length h
  simp at this

/-! ## Claims on `ContinueTurn` -/

/-- C5, counterexample: after an `agent_done` entry on a node without
successor `ContinueTurn` returns without error and the history keeps its
length. -/
theorem continueTurn_agent_done_appends_nothing :
    ((sampleManager sampleFlow doneHistory).ContinueTurn sampleEnv []).status = .ok ∧
    ((sampleManager sampleFlow doneHistory).ContinueTurn sampleEnv []).sm.history.length =
      doneHistory.length := by
  decide

/-- C5, amended: a `ContinueTurn` call that returns without error leaves the
history exactly one entry longer when the last stop reason is `user_input`,
`tool_call` or `tool_result`, and leaves it as it was when the last stop
reason is `agent_done`; no other last stop reason lets the call succeed. -/
theorem continueTurn_ok_history (env : Collaborators) (sm : SessionManager) (tr : List Call)
    (hok : (sm.ContinueTurn env tr).status = .ok) :
    ∃ last, sm.history.getLast? = some last ∧
      (((last.StopReason = StopReasonUserInput ∨ last.StopReason = StopReasonToolCall ∨
            last.StopReason = StopReasonToolResult) ∧
          (∃ e, (sm.ContinueTurn env tr).sm.history = sm.history ++ [e]) ∧
          (sm.ContinueTurn env tr).sm.history.length = sm.history.length + 1) ∨
        (last.StopReason = StopReasonAgentDone ∧
          (sm.ContinueTurn env tr).sm.history = sm.history)) := by
  cases hinfo : sm.lastHistoryInfo with
  | error err => rw [continueTurn_of_info_error env sm tr err hinfo] at hok; simp at hok
  | ok p =>
    obtain ⟨lastNode, last⟩ := p
    refine ⟨last, (lastHistoryInfo_ok sm lastNode last hinfo).1, ?_⟩
    by_cases h1 : last.StopReason = StopReasonUserInput
    · left
      rw [continueTurn_of_user_input env sm tr lastNode last hinfo h1] at hok ⊢
      rw [finishTurn_history]
      rcases continueTurnHumanInput_cases env sm tr with ⟨hne, _⟩ | ⟨_, _, hex⟩
      · exact absurd (finishTurn_ok env _ hok) hne
      · obtain ⟨_, _, _, _, _, _, _, _, _, _, _, _, _, _, _, _, happ⟩ := hex
        exact ⟨Or.inl h1, ⟨_, happ⟩, by rw [happ]; simp⟩
    by_cases h2 : last.StopReason = StopReasonToolCall
    · left
      rw [continueTurn_of_tool_call env sm tr lastNode last hinfo h2] at hok ⊢
      rw [finishTurn_history]
      rcases continueTurnToolCall_cases env sm tr with ⟨hne, _⟩ | ⟨_, _, hex⟩
      · exact absurd (finishTurn_ok env _ hok) hne
      · obtain ⟨_, _, _, _, _, _, _, _, _, _, _, happ⟩ := hex
        exact ⟨Or.inr (Or.inl h2), ⟨_, happ⟩, by rw [happ]; simp⟩
    by_cases h3 : last.StopReason = StopReasonToolResult
    · left
      rw [continueTurn_of_tool_result env sm tr lastNode last hinfo h3] at hok ⊢
      rw [finishTurn_history]
      rcases continueTurnToolResult_cases env sm tr with ⟨hne, _⟩ | ⟨_, _, hex⟩
      · exact absurd (finishTurn_ok env _ hok) hne
      · obtain ⟨_, _, _, _, _, _, _, _, _, _, _, _, happ⟩ := hex
        exact ⟨Or.inr (Or.inr h3), ⟨_, happ⟩, by rw [happ]; simp⟩
    by_cases h4 : last.StopReason = StopReasonAgentDone
    · right
      refine ⟨h4, ?_⟩
      rw [continueTurn_of_agent_done env sm tr lastNode last hinfo h4]
      cases lastNode.Next with
      | none => rfl
      | some next =>
        simp only []
        split
        · rfl
        · rw [finishTurn_history]
    · rw [continueTurn_of_other env sm tr lastNode last hinfo h1 h2 h3 h4] at hok
      simp at hok

/-- Witness of the amended C5: the step after the first human message. -/
theorem continueTurn_ok_history_witness :
    ∃ last, (sampleManager sampleFlow
        [entry 1 "start" StopReasonUserInput (userMessage "hi")]).history.getLast? = some last ∧
      (((last.StopReason = StopReasonUserInput ∨ last.StopReason = StopReasonToolCall ∨
            last.StopReason = StopReasonToolResult) ∧
          (∃ e, ((sampleManager sampleFlow
              [entry 1 "start" StopReasonUserInput (userMessage "hi")]).ContinueTurn
                sampleEnv []).sm.history =
            (sampleManager sampleFlow
              [entry 1 "start" StopReasonUserInput (userMessage "hi")]).history ++ [e]) ∧
          ((sampleManager sampleFlow
              [entry 1 "start" StopReasonUserInput (userMessage "hi")]).ContinueTurn
                sampleEnv []).sm.history.length =
            (sampleManager sampleFlow
              [entry 1 "start" StopReasonUserInput (userMessage "hi")]).history.length + 1) ∨
        (last.StopReason = StopReasonAgentDone ∧
          ((sampleManager sampleFlow
              [entry 1 "start" StopReasonUserInput (userMessage "hi")]).ContinueTurn
                sampleEnv []).sm.history =
            (sampleManager sampleFlow
              [entry 1 "start" StopReasonUserInput (userMessage "hi")]).history)) :=
  continueTurn_ok_history sampleEnv
    (sampleManager sampleFlow [entry 1 "start" StopReasonUserInput (userMessage "hi")]) []
    (by decide)

/-- C6: when a `ContinueTurn` step appends an entry `e` to a session whose
node map is the one `Initialize` builds, `e` is bound to the node the
transition table selects: after `user_input` the successor of the last
entry's node, an agent node; after `tool_call` or `tool_result` the node of
the last entry. -/
theorem continueTurn_new_entry_node (env : Collaborators) (sm : SessionManager) (tr : List Call)
    (last e : SessionHistory)
    (hinit : sm.nodes = buildNodes sm.agentFlowCfg.Nodes)
    (hlast : sm.history.getLast? = some last)
    (happ : (sm.ContinueTurn env tr).sm.history = sm.history ++ [e]) :
    (last.StopReason = StopReasonUserInput →
      ∃ lastNode nextNode, sm.nodes.lookup last.Node = some lastNode ∧
        lastNode.Next = some e.Node ∧ sm.nodes.lookup e.Node = some nextNode ∧
        nextNode.Typ = NodeTypeAgent) ∧
    ((last.StopReason = StopReasonToolCall ∨ last.StopReason = StopReasonToolResult) →
      e.Node = last.Node) := by
  cases hinfo : sm.lastHistoryInfo with
  | error err =>
    rw [continueTurn_of_info_error env sm tr err hinfo] at happ
    exact absurd happ (ne_append_singleton _ _)
  | ok p =>
    obtain ⟨lastNode, last1⟩ := p
    obtain ⟨hl, hnode⟩ := lastHistoryInfo_ok sm lastNode last1 hinfo
    have hEq : last1 = last := by rw [hl] at hlast; exact Option.some.inj hlast
    subst hEq
    have hid : lastNode.ID = last1.Node := by
      rw [hinit] at hnode
      exact buildNodes_lookup_id _ _ _ hnode
    refine ⟨?_, ?_⟩
    · intro h1
      rw [continueTurn_of_user_input env sm tr lastNode last1 hinfo h1, finishTurn_history] at happ
      rcases continueTurnHumanInput_cases env sm tr with ⟨_, hsame⟩ | ⟨_, _, hex⟩
      · rw [hsame] at happ
        exact absurd happ (ne_append_singleton _ _)
      · obtain ⟨lastNode1, last2, next, nextNode, _, _, _, _, _, hinfo1, hnext, hlook, hta, _, _,
          _, happ1⟩ := hex
        rw [hinfo] at hinfo1
        injection hinfo1 with hpair
        injection hpair with hn _
        subst hn
        rw [happ1] at happ
        have he := List.append_cancel_left happ
        simp at he
        have hnid : nextNode.ID = next := by
          rw [hinit] at hlook
          exact buildNodes_lookup_id _ _ _ hlook
        refine ⟨lastNode, nextNode, hnode, ?_, ?_, hta⟩
        · rw [← he]; simpa [hnid] using hnext
        · rw [← he]; simpa [hnid] using hlook
    · intro h23
      rcases h23 with h2 | h3
      · rw [continueTurn_of_tool_call env sm tr lastNode last1 hinfo h2, finishTurn_history]
          at happ
        rcases continueTurnToolCall_cases env sm tr with ⟨_, hsame⟩ | ⟨_, _, hex⟩
        · rw [hsame] at happ
          exact absurd happ (ne_append_singleton _ _)
        · obtain ⟨lastNode1, _, _, _, _, _, hinfo1, _, _, _, _, happ1⟩ := hex
          rw [hinfo] at hinfo1
          injection hinfo1 with hpair
          injection hpair with hn _
          subst hn
          rw [happ1] at happ
          have he := List.append_cancel_left happ
          simp at he
          rw [← he]
          exact hid
      · rw [continueTurn_of_tool_result env sm tr lastNode last1 hinfo h3, finishTurn_history]
          at happ
        rcases continueTurnToolResult_cases env sm tr with ⟨_, hsame⟩ | ⟨_, _, hex⟩
        · rw [hsame] at happ
          exact absurd happ (ne_append_singleton _ _)
        · obtain ⟨lastNode1, _, _, _, _, _, _, hinfo1, _, _, _, _, happ1⟩ := hex
          rw [hinfo] at hinfo1
          injection hinfo1 with hpair
          injection hpair with hn _
          subst hn
          rw [happ1] at happ
          have he := List.append_cancel_left happ
          simp at he
          rw [← he]
          exact hid

/-- Witness of C6: the step after the first human message of the sample flow
appends an entry on `agent1`, the successor of `start`. -/
theorem continueTurn_new_entry_node_witness :
    ∃ lastNode nextNode,
      (sampleManager sampleFlow firstHistory).nodes.lookup "start" = some lastNode ∧
      lastNode.Next = some "agent1" ∧
      (sampleManager sampleFlow firstHistory).nodes.lookup "agent1" = some nextNode ∧
      nextNode.Typ = NodeTypeAgent :=
  (continueTurn_new_entry_node sampleEnv (sampleManager sampleFlow firstHistory) []
    (entry 1 "start" StopReasonUserInput (userMessage "hi"))
    (entry 2 "agent1" StopReasonNil (assistantMessage []))
    rfl (by decide) (by decide)).1 rfl

/-- C7: when the last entry has stop reason `tool_call` and `ContinueTurn`
succeeds, the history grows by one entry with stop reason `tool_result` whose
message is the one `ToolUse` returns for the last entry's message on the agent
bound to the last entry's node. -/
theorem continueTurn_after_tool_call (env : Collaborators) (sm : SessionManager)
    (tr : List Call) (last : SessionHistory)
    (hlast : sm.history.getLast? = some last)
    (hsr : last.StopReason = StopReasonToolCall)
    (hok : (sm.ContinueTurn env tr).status = .ok) :
    ∃ lastNode agentName agent message tr1 e,
      sm.nodes.lookup last.Node = some lastNode ∧ lastNode.AgentName = some agentName ∧
      sm.agents.lookup agentName = some agent ∧
      agent.ToolUse env tr last.Content = ((message, none), tr1) ∧
      (sm.ContinueTurn env tr).sm.history = sm.history ++ [e] ∧
      e.StopReason = StopReasonToolResult ∧ e.Content = message := by
  cases hinfo : sm.lastHistoryInfo with
  | error err => rw [continueTurn_of_info_error env sm tr err hinfo] at hok; simp at hok
  | ok p =>
    obtain ⟨lastNode, last1⟩ := p
    obtain ⟨hl, hnode⟩ := lastHistoryInfo_ok sm lastNode last1 hinfo
    have hEq : last1 = last := by rw [hl] at hlast; exact Option.some.inj hlast
    subst hEq
    rw [continueTurn_of_tool_call env sm tr lastNode last1 hinfo hsr] at hok ⊢
    rw [finishTurn_history]
    rcases continueTurnToolCall_cases env sm tr with ⟨hne, _⟩ | ⟨_, _, hex⟩
    · exact absurd (finishTurn_ok env _ hok) hne
    · obtain ⟨lastNode1, last2, agentName, agent, message, tr1, hinfo1, _, hname, hagent, htu,
        happ⟩ := hex
      rw [hinfo] at hinfo1
      injection hinfo1 with hpair
      injection hpair with hn hl2
      subst hn hl2
      exact ⟨lastNode, agentName, agent, message, tr1, _, hnode, hname, hagent, htu, happ, rfl,
        rfl⟩

/-- Witness of C7: the sample agent executes the pending `search--lookup`
call. -/
theorem continueTurn_after_tool_call_witness :
    ∃ lastNode agentName agent message tr1 e,
      (sampleManager sampleFlow toolCallHistory).nodes.lookup "agent1" = some lastNode ∧
      lastNode.AgentName = some agentName ∧
      (sampleManager sampleFlow toolCallHistory).agents.lookup agentName = some agent ∧
      agent.ToolUse sampleEnv [] (assistantMessage [sampleToolCall]) = ((message, none), tr1) ∧
      ((sampleManager sampleFlow toolCallHistory).ContinueTurn sampleEnv []).sm.history =
        toolCallHistory ++ [e] ∧
      e.StopReason = StopReasonToolResult ∧ e.Content = message :=
  continueTurn_after_tool_call sampleEnv (sampleManager sampleFlow toolCallHistory) []
    (entry 2 "agent1" StopReasonToolCall (assistantMessage [sampleToolCall]))
    (by decide) rfl (by decide)

/-- C8: when the last stop reason is none of `user_input`, `tool_call`,
`tool_result`, `agent_done` (so for `max_tokens` and `unknown`),
`ContinueTurn` returns an error, makes no call to a collaborator, and leaves
the session manager, with its history and turn counter, as it was. -/
theorem continueTurn_invalid_continuation (env : Collaborators) (sm : SessionManager)
    (tr : List Call) (last : SessionHistory)
    (hlast : sm.history.getLast? = some last)
    (h1 : last.StopReason ≠ StopReasonUserInput) (h2 : last.StopReason ≠ StopReasonToolCall)
    (h3 : last.StopReason ≠ StopReasonToolResult) (h4 : last.StopReason ≠ StopReasonAgentDone) :
    (∃ msg, (sm.ContinueTurn env tr).status = .error msg) ∧
    (sm.ContinueTurn env tr).trace = tr ∧
    (sm.ContinueTurn env tr).sm.history = sm.history ∧
    (sm.ContinueTurn env tr).sm.session.TurnCount = sm.session.TurnCount := by
  cases hinfo : sm.lastHistoryInfo with
  | error err =>
    rw [continueTurn_of_info_error env sm tr err hinfo]
    exact ⟨⟨_, rfl⟩, rfl, rfl, rfl⟩
  | ok p =>
    obtain ⟨lastNode, last1⟩ := p
    obtain ⟨hl, _⟩ := lastHistoryInfo_ok sm lastNode last1 hinfo
    have hEq : last1 = last := by rw [hl] at hlast; exact Option.some.inj hlast
    subst hEq
    rw [continueTurn_of_other env sm tr lastNode last1 hinfo h1 h2 h3 h4]
    exact ⟨⟨_, rfl⟩, rfl, rfl, rfl⟩

/-- Witness of C8: a history ending with `max_tokens`. -/
theorem continueTurn_invalid_continuation_witness :
    (∃ msg, ((sampleManager sampleFlow maxTokensHistory).ContinueTurn sampleEnv []).status =
      .error msg) ∧
    ((sampleManager sampleFlow maxTokensHistory).ContinueTurn sampleEnv []).trace = [] ∧
    ((sampleManager sampleFlow maxTokensHistory).ContinueTurn sampleEnv []).sm.history =
      maxTokensHistory ∧
    ((sampleManager sampleFlow maxTokensHistory).ContinueTurn sampleEnv []).sm.session.TurnCount
      = sampleSession.TurnCount :=
  continueTurn_invalid_continuation sampleEnv (sampleManager sampleFlow maxTokensHistory) []
    (entry 2 "agent1" StopReasonMaxTokens (assistantMessage []))
    (by decide) (by decide) (by decide) (by decide) (by decide)

/-- C9, counterexample: on the empty history of the sample flow `ContinueTurn`
returns the error `no history found`, makes no call and appends nothing, while
after a `user_input` entry it runs the completion and appends its result. -/
theorem continueTurn_empty_history_fails :
    ((sampleManager sampleFlow []).ContinueTurn sampleEnv []).status =
      .error "no history found" ∧
    ((sampleManager sampleFlow []).ContinueTurn sampleEnv []).trace = [] ∧
    ((sampleManager sampleFlow []).ContinueTurn sampleEnv []).sm.history = [] ∧
    ((sampleManager sampleFlow firstHistory).ContinueTurn sampleEnv []).status = .ok ∧
    ((sampleManager sampleFlow firstHistory).ContinueTurn sampleEnv []).sm.history =
      firstHistory ++ [entry 2 "agent1" StopReasonNil (assistantMessage [])] := by
  decide

/-- C9, amended: on an empty history `ContinueTurn` returns the error
`no history found`; it makes no call to a collaborator and leaves the history
empty and the turn counter as it was. -/
theorem continueTurn_empty_history (env : Collaborators) (sm : SessionManager) (tr : List Call)
    (h : sm.history = []) :
    (sm.ContinueTurn env tr).status = .error "no history found" ∧
    (sm.ContinueTurn env tr).trace = tr ∧
    (sm.ContinueTurn env tr).sm.history = [] ∧
    (sm.ContinueTurn env tr).sm.session.TurnCount = sm.session.TurnCount := by
  have hinfo : sm.lastHistoryInfo = .error "no history found" := by
    simp [SessionManager.lastHistoryInfo, h]
  rw [continueTurn_of_info_error env sm tr _ hinfo]
  exact ⟨rfl, rfl, h, rfl⟩

/-- Witness of the amended C9, on the sample flow. -/
theorem continueTurn_empty_history_witness :
    ((sampleManager sampleFlow []).ContinueTurn sampleEnv [Call.Recv]).status =
      .error "no history found" ∧
    ((sampleManager sampleFlow []).ContinueTurn sampleEnv [Call.Recv]).trace = [Call.Recv] ∧
    ((sampleManager sampleFlow []).ContinueTurn sampleEnv [Call.Recv]).sm.history = [] ∧
    ((sampleManager sampleFlow []).ContinueTurn sampleEnv [Call.Recv]).sm.session.TurnCount =
      (sampleManager sampleFlow []).session.TurnCount :=
  continueTurn_empty_history sampleEnv (sampleManager sampleFlow []) [Call.Recv] rfl

/-- C10, counterexample: in the flow `start → agent1 → start` the successor of
`agent1` is not an agent node, and after an `agent_done` entry on `agent1`
`ContinueTurn` reports an error. -/
theorem continueTurn_agent_done_successor_not_agent :
    doneHistory.getLast? = some (entry 2 "agent1" StopReasonAgentDone (assistantMessage [])) ∧
    (buildNodes loopFlow.Nodes).lookup "agent1" =
      some { ID := "agent1", Typ := NodeTypeAgent, AgentName := some "assistant",
             Next := some "start" } ∧
    (buildNodes loopFlow.Nodes).lookup "start" =
      some { ID := "start", Typ := NodeTypeStart, AgentName := none, Next := some "agent1" } ∧
    ((sampleManager loopFlow doneHistory).ContinueTurn sampleEnv []).status =
      .error "next node start is not an agent node, cannot continue turn" := by
  decide

/-- C10, amended: after an `agent_done` entry on a node of the node map that
has no successor, `ContinueTurn` reports no error, makes no call to a
collaborator and appends no entry; when the node has a successor that is not
an agent node of the node map, `ContinueTurn` returns an error, again without
a call and without an appended entry. -/
theorem continueTurn_agent_done (env : Collaborators) (sm : SessionManager) (tr : List Call)
    (last : SessionHistory) (lastNode : Node)
    (hlast : sm.history.getLast? = some last)
    (hnode : sm.nodes.lookup last.Node = some lastNode)
    (hsr : last.StopReason = StopReasonAgentDone) :
    (lastNode.Next = none →
      (sm.ContinueTurn env tr).status = .ok ∧ (sm.ContinueTurn env tr).trace = tr ∧
      (sm.ContinueTurn env tr).sm.history = sm.history ∧
      (sm.ContinueTurn env tr).sm.session.TurnCount = sm.session.TurnCount) ∧
    (∀ next, lastNode.Next = some next →
      (∀ n, sm.nodes.lookup next = some n → n.Typ ≠ NodeTypeAgent) →
      (∃ msg, (sm.ContinueTurn env tr).status = .error msg) ∧
      (sm.ContinueTurn env tr).trace = tr ∧
      (sm.ContinueTurn env tr).sm.history = sm.history ∧
      (sm.ContinueTurn env tr).sm.session.TurnCount = sm.session.TurnCount) := by
  have hinfo := lastHistoryInfo_of_lookup sm last lastNode hlast hnode
  rw [continueTurn_of_agent_done env sm tr lastNode last hinfo hsr]
  refine ⟨?_, ?_⟩
  · intro hnone
    rw [hnone]
    exact ⟨rfl, rfl, rfl, rfl⟩
  · intro next hnext hnot
    rw [hnext]
    have hty : (((sm.nodes.lookup next).getD Node.zero).Typ != NodeTypeAgent) = true := by
      cases hl : sm.nodes.lookup next with
      | none => decide
      | some n => simpa using hnot n hl
    simp only []
    rw [if_pos hty]
    exact ⟨⟨_, rfl⟩, rfl, rfl, rfl⟩

/-- Witness of the amended C10: the completed turn of the sample flow. -/
theorem continueTurn_agent_done_witness :
    ((sampleManager sampleFlow doneHistory).ContinueTurn sampleEnv []).status = .ok ∧
    ((sampleManager sampleFlow doneHistory).ContinueTurn sampleEnv []).trace = [] ∧
    ((sampleManager sampleFlow doneHistory).ContinueTurn sampleEnv []).sm.history = doneHistory ∧
    ((sampleManager sampleFlow doneHistory).ContinueTurn sampleEnv []).sm.session.TurnCount =
      sampleSession.TurnCount :=
  (continueTurn_agent_done sampleEnv (sampleManager sampleFlow doneHistory) []
    (entry 2 "agent1" StopReasonAgentDone (assistantMessage []))
    { ID := "agent1", Typ := NodeTypeAgent, AgentName := some "assistant", Next := none }
    (by decide) (by decide) rfl).1 rfl

/-! ## Failure of a `ContinueTurn` call -/

theorem finishTurn_error (env : Collaborators) (step : Outcome) (msg : String)
    (h : (SessionManager.finishTurn env step).status = .error msg) :
    step.status = .error msg ∨
    (step.status = .ok ∧ ∃ err,
      env.UpdateSessionTurnCount step.trace
        { ID := step.sm.session.ID, TurnCount := step.sm.session.TurnCount + 1 } = some err ∧
      msg = "failed to update session turn count: " ++ err) := by
  unfold SessionManager.finishTurn at h
  cases hs : step.status with
  | ok =>
    right
    refine ⟨rfl, ?_⟩
    simp only [hs] at h
    cases hu : env.UpdateSessionTurnCount step.trace
        { ID := step.sm.session.ID, TurnCount := step.sm.session.TurnCount + 1 } with
    | none => simp [hu] at h
    | some err =>
      simp only [hu] at h
      injection h with h
      exact ⟨err, rfl, h.symm⟩
  | error e =>
    left
    simp only [hs] at h
    exact h
  | panic e =>
    simp only [hs] at h
    simp at h

/-- Every `ContinueTurn` call either leaves the history as it was, or is the
end of `ContinueTurn` applied to a step that succeeded and appended one
entry. -/
theorem continueTurn_step (env : Collaborators) (sm : SessionManager) (tr : List Call) :
    (sm.ContinueTurn env tr).sm.history = sm.history ∨
    ∃ step : Outcome, step.status = .ok ∧ (∃ e, step.sm.history = sm.history ++ [e]) ∧
      sm.ContinueTurn env tr = SessionManager.finishTurn env step := by
  cases hinfo : sm.lastHistoryInfo with
  | error err => left; rw [continueTurn_of_info_error env sm tr err hinfo]
  | ok p =>
    obtain ⟨lastNode, last⟩ := p
    by_cases h1 : last.StopReason = StopReasonUserInput
    · rw [continueTurn_of_user_input env sm tr lastNode last hinfo h1]
      rcases continueTurnHumanInput_cases env sm tr with ⟨_, hsame⟩ | ⟨hok, _, hex⟩
      · left; rw [finishTurn_history, hsame]
      · obtain ⟨_, _, _, _, _, _, _, _, _, _, _, _, _, _, _, _, happ⟩ := hex
        exact Or.inr ⟨_, hok, ⟨_, happ⟩, rfl⟩
    by_cases h2 : last.StopReason = StopReasonToolCall
    · rw [continueTurn_of_tool_call env sm tr lastNode last hinfo h2]
      rcases continueTurnToolCall_cases env sm tr with ⟨_, hsame⟩ | ⟨hok, _, hex⟩
      · left; rw [finishTurn_history, hsame]
      · obtain ⟨_, _, _, _, _, _, _, _, _, _, _, happ⟩ := hex
        exact Or.inr ⟨_, hok, ⟨_, happ⟩, rfl⟩
    by_cases h3 : last.StopReason = StopReasonToolResult
    · rw [continueTurn_of_tool_result env sm tr lastNode last hinfo h3]
      rcases continueTurnToolResult_cases env sm tr with ⟨_, hsame⟩ | ⟨hok, _, hex⟩
      · left; rw [finishTurn_history, hsame]
      · obtain ⟨_, _, _, _, _, _, _, _, _, _, _, _, happ⟩ := hex
        exact Or.inr ⟨_, hok, ⟨_, happ⟩, rfl⟩
    by_cases h4 : last.StopReason = StopReasonAgentDone
    · left
      rw [continueTurn_of_agent_done env sm tr lastNode last hinfo h4]
      cases lastNode.Next with
      | none => rfl
      | some next =>
        simp only []
        split
        · rfl
        · rw [finishTurn_history]
    · left; rw [continueTurn_of_other env sm tr lastNode last hinfo h1 h2 h3 h4]

/-- C11, counterexample: when the update of the turn counter fails after the
completion was stored, `ContinueTurn` returns an error and the history holds
one entry more than before the call. -/
theorem continueTurn_update_failure_keeps_entry :
    ((sampleManager sampleFlow firstHistory).ContinueTurn updateFailEnv []).status =
      .error "failed to update session turn count: connection lost" ∧
    ((sampleManager sampleFlow firstHistory).ContinueTurn updateFailEnv []).sm.history =
      firstHistory ++ [entry 2 "agent1" StopReasonNil (assistantMessage [])] := by
  decide

/-- When `finishTurn` returns an error on a step that either failed and left
the session manager as it was, or succeeded and appended one entry: after a
failed step the history is as before the step, after a successful one the
update of the turn counter has failed and the history holds the entry. -/
theorem finishTurn_step_history (env : Collaborators) (step : Outcome) (sm : SessionManager)
    (msg : String)
    (hcases : (step.status ≠ .ok ∧ step.sm = sm) ∨
      (step.status = .ok ∧ ∃ e, step.sm.history = sm.history ++ [e]))
    (herr : (SessionManager.finishTurn env step).status = .error msg) :
    (step.status ≠ .ok → (SessionManager.finishTurn env step).sm.history = sm.history) ∧
    (step.status = .ok →
      ∃ e err, step.sm.history = sm.history ++ [e] ∧
        (SessionManager.finishTurn env step).sm.history = sm.history ++ [e] ∧
        env.UpdateSessionTurnCount step.trace
          { ID := step.sm.session.ID, TurnCount := step.sm.session.TurnCount + 1 } = some err ∧
        msg = "failed to update session turn count: " ++ err) := by
  refine ⟨?_, ?_⟩
  · intro hne
    rcases hcases with ⟨_, hsame⟩ | ⟨hok, _⟩
    · rw [finishTurn_history, hsame]
    · exact absurd hok hne
  · intro hok
    rcases hcases with ⟨hne, _⟩ | ⟨_, e, happ⟩
    · exact absurd hok hne
    · rcases finishTurn_error env step msg herr with hstep | ⟨_, err, hupd, hmsg⟩
      · rw [hok] at hstep; simp at hstep
      · exact ⟨e, err, happ, by rw [finishTurn_history, happ], hupd, hmsg⟩

/-- C11, amended: a `ContinueTurn` call that returns an error leaves the
history as it was before the call whenever the update of the turn counter
does not fail, whenever the history is empty, whenever the last stop reason is
none of `user_input`, `tool_call`, `tool_result` (the hand-over after
`agent_done` included, also when the update fails there), and whenever the
helper of the step (`continueTurnHumanInput`, `continueTurnToolCall`,
`continueTurnToolResult`) itself returned an error. In the one remaining case,
the helper returned without error after one of these three stop reasons, the
update of the turn counter has failed, the error is that failure, and the
history is the history before the call followed by the one entry the helper
appended. -/
theorem continueTurn_error_history (env : Collaborators) (sm : SessionManager) (tr : List Call)
    (msg : String) (herr : (sm.ContinueTurn env tr).status = .error msg) :
    ((∀ t arg, env.UpdateSessionTurnCount t arg = none) →
      (sm.ContinueTurn env tr).sm.history = sm.history) ∧
    (sm.history = [] → (sm.ContinueTurn env tr).sm.history = sm.history) ∧
    (∀ last, sm.history.getLast? = some last →
      (last.StopReason = StopReasonUserInput →
        ((sm.continueTurnHumanInput env tr).status ≠ .ok →
          (sm.ContinueTurn env tr).sm.history = sm.history) ∧
        ((sm.continueTurnHumanInput env tr).status = .ok →
          ∃ e err, (sm.continueTurnHumanInput env tr).sm.history = sm.history ++ [e] ∧
            (sm.ContinueTurn env tr).sm.history = sm.history ++ [e] ∧
            env.UpdateSessionTurnCount (sm.continueTurnHumanInput env tr).trace
              { ID := (sm.continueTurnHumanInput env tr).sm.session.ID,
                TurnCount := (sm.continueTurnHumanInput env tr).sm.session.TurnCount + 1 } =
              some err ∧
            msg = "failed to update session turn count: " ++ err)) ∧
      (last.StopReason = StopReasonToolCall →
        ((sm.continueTurnToolCall env tr).status ≠ .ok →
          (sm.ContinueTurn env tr).sm.history = sm.history) ∧
        ((sm.continueTurnToolCall env tr).status = .ok →
          ∃ e err, (sm.continueTurnToolCall env tr).sm.history = sm.history ++ [e] ∧
            (sm.ContinueTurn env tr).sm.history = sm.history ++ [e] ∧
            env.UpdateSessionTurnCount (sm.continueTurnToolCall env tr).trace
              { ID := (sm.continueTurnToolCall env tr).sm.session.ID,
                TurnCount := (sm.continueTurnToolCall env tr).sm.session.TurnCount + 1 } =
              some err ∧
            msg = "failed to update session turn count: " ++ err)) ∧
      (last.StopReason = StopReasonToolResult →
        ((sm.continueTurnToolResult env tr).status ≠ .ok →
          (sm.ContinueTurn env tr).sm.history = sm.history) ∧
        ((sm.continueTurnToolResult env tr).status = .ok →
          ∃ e err, (sm.continueTurnToolResult env tr).sm.history = sm.history ++ [e] ∧
            (sm.ContinueTurn env tr).sm.history = sm.history ++ [e] ∧
            env.UpdateSessionTurnCount (sm.continueTurnToolResult env tr).trace
              { ID := (sm.continueTurnToolResult env tr).sm.session.ID,
                TurnCount := (sm.continueTurnToolResult env tr).sm.session.TurnCount + 1 } =
              some err ∧
            msg = "failed to update session turn count: " ++ err)) ∧
      (last.StopReason ≠ StopReasonUserInput → last.StopReason ≠ StopReasonToolCall →
        last.StopReason ≠ StopReasonToolResult →
        (sm.ContinueTurn env tr).sm.history = sm.history)) := by
  have hA : (sm.continueTurnHumanInput env tr).status ≠ .ok ∧
        (sm.continueTurnHumanInput env tr).sm = sm ∨
      (sm.continueTurnHumanInput env tr).status = .ok ∧
        ∃ e, (sm.continueTurnHumanInput env tr).sm.history = sm.history ++ [e] := by
    rcases continueTurnHumanInput_cases env sm tr with h | ⟨hok, _, hex⟩
    · exact Or.inl h
    · obtain ⟨_, _, _, _, _, _, _, _, _, _, _, _, _, _, _, _, happ⟩ := hex
      exact Or.inr ⟨hok, _, happ⟩
  have hB : (sm.continueTurnToolCall env tr).status ≠ .ok ∧
        (sm.continueTurnToolCall env tr).sm = sm ∨
      (sm.continueTurnToolCall env tr).status = .ok ∧
        ∃ e, (sm.continueTurnToolCall env tr).sm.history = sm.history ++ [e] := by
    rcases continueTurnToolCall_cases env sm tr with h | ⟨hok, _, hex⟩
    · exact Or.inl h
    · obtain ⟨_, _, _, _, _, _, _, _, _, _, _, happ⟩ := hex
      exact Or.inr ⟨hok, _, happ⟩
  have hC : (sm.continueTurnToolResult env tr).status ≠ .ok ∧
        (sm.continueTurnToolResult env tr).sm = sm ∨
      (sm.continueTurnToolResult env tr).status = .ok ∧
        ∃ e, (sm.continueTurnToolResult env tr).sm.history = sm.history ++ [e] := by
    rcases continueTurnToolResult_cases env sm tr with h | ⟨hok, _, hex⟩
    · exact Or.inl h
    · obtain ⟨_, _, _, _, _, _, _, _, _, _, _, _, happ⟩ := hex
      exact Or.inr ⟨hok, _, happ⟩
  refine ⟨?_, ?_, ?_⟩
  · intro hnone
    rcases continueTurn_step env sm tr with hsame | ⟨step, hok, _, heq⟩
    · exact hsame
    · rw [heq] at herr
      rcases finishTurn_error env step msg herr with hstep | ⟨_, err, hupd, _⟩
      · rw [hok] at hstep; simp at hstep
      · rw [hnone] at hupd
        simp at hupd
  · intro hnil
    have hinfo : sm.lastHistoryInfo = .error "no history found" := by
      simp [SessionManager.lastHistoryInfo, hnil]
    rw [continueTurn_of_info_error env sm tr _ hinfo]
  · intro last hlast
    cases hinfo : sm.lastHistoryInfo with
    | error err =>
      have hsame : (sm.ContinueTurn env tr).sm.history = sm.history := by
        rw [continueTurn_of_info_error env sm tr err hinfo]
      refine ⟨fun _ => ⟨fun _ => hsame, fun hok => ?_⟩, fun _ => ⟨fun _ => hsame, fun hok => ?_⟩,
        fun _ => ⟨fun _ => hsame, fun hok => ?_⟩, fun _ _ _ => hsame⟩
      · rcases continueTurnHumanInput_cases env sm tr with ⟨hne, _⟩ | ⟨_, _, hex⟩
        · exact absurd hok hne
        · obtain ⟨_, _, _, _, _, _, _, _, _, h, _⟩ := hex
          rw [hinfo] at h
          simp at h
      · rcases continueTurnToolCall_cases env sm tr with ⟨hne, _⟩ | ⟨_, _, hex⟩
        · exact absurd hok hne
        · obtain ⟨_, _, _, _, _, _, h, _⟩ := hex
          rw [hinfo] at h
          simp at h
      · rcases continueTurnToolResult_cases env sm tr with ⟨hne, _⟩ | ⟨_, _, hex⟩
        · exact absurd hok hne
        · obtain ⟨_, _, _, _, _, _, _, h, _⟩ := hex
          rw [hinfo] at h
          simp at h
    | ok p =>
      obtain ⟨lastNode, last1⟩ := p
      have hl1 := (lastHistoryInfo_ok sm lastNode last1 hinfo).1
      rw [hlast] at hl1
      simp only [Option.some.injEq] at hl1
      subst hl1
      refine ⟨?_, ?_, ?_, ?_⟩
      · intro hsr
        rw [continueTurn_of_user_input env sm tr lastNode last hinfo hsr] at herr ⊢
        exact finishTurn_step_history env _ sm msg hA herr
      · intro hsr
        rw [continueTurn_of_tool_call env sm tr lastNode last hinfo hsr] at herr ⊢
        exact finishTurn_step_history env _ sm msg hB herr
      · intro hsr
        rw [continueTurn_of_tool_result env sm tr lastNode last hinfo hsr] at herr ⊢
        exact finishTurn_step_history env _ sm msg hC herr
      · intro h1 h2 h3
        by_cases h4 : last.StopReason = StopReasonAgentDone
        · rw [continueTurn_of_agent_done env sm tr lastNode last hinfo h4]
          cases lastNode.Next with
          | none => rfl
          | some next =>
            simp only []
            split
            · rfl
            · rw [finishTurn_history]
        · rw [continueTurn_of_other env sm tr lastNode last hinfo h1 h2 h3 h4]

/-- Witness of the amended C11, with the update of the turn counter failing:
on the hand-over after `agent_done` the error leaves the history as it was;
after `user_input` the completion was stored and the error leaves its entry in
the history. -/
theorem continueTurn_error_history_witness :
    ((sampleManager handOffFlow doneHistory).ContinueTurn updateFailEnv []).sm.history =
      doneHistory ∧
    ∃ e err,
      ((sampleManager sampleFlow firstHistory).continueTurnHumanInput updateFailEnv []).sm.history =
        firstHistory ++ [e] ∧
      ((sampleManager sampleFlow firstHistory).ContinueTurn updateFailEnv []).sm.history =
        firstHistory ++ [e] ∧
      updateFailEnv.UpdateSessionTurnCount
        ((sampleManager sampleFlow firstHistory).continueTurnHumanInput updateFailEnv []).trace
        { ID := ((sampleManager sampleFlow firstHistory).continueTurnHumanInput
                  updateFailEnv []).sm.session.ID,
          TurnCount := ((sampleManager sampleFlow firstHistory).continueTurnHumanInput
                  updateFailEnv []).sm.session.TurnCount + 1 } = some err ∧
      "failed to update session turn count: connection lost" =
        "failed to update session turn count: " ++ err :=
  ⟨((continueTurn_error_history updateFailEnv (sampleManager handOffFlow doneHistory) []
      "failed to update session turn count: connection lost" (by decide)).2.2
      (entry 2 "agent1" StopReasonAgentDone (assistantMessage [])) (by decide)).2.2.2
      (by decide) (by decide) (by decide),
   (((continueTurn_error_history updateFailEnv (sampleManager sampleFlow firstHistory) []
      "failed to update session turn count: connection lost" (by decide)).2.2
      (entry 1 "start" StopReasonUserInput (userMessage "hi")) (by decide)).1 rfl).2
      (by decide)⟩

/-! ## Claims on the completion -/

/-- A completion that returns no error returns the empty assistant message
and the stop reason `""`, after one `CreateChatCompletionStream` and one
`Recv`. -/
theorem completion_ok (env : Collaborators) (a : Agent) (tr tr1 : List Call)
    (messages : List MessageUnion) (callback : Option ChatCallBack) (result : MessageUnion)
    (stopReason : StopReason)
    (h : a.Completion env tr messages callback = ((result, stopReason, none), tr1)) :
    stopReason = StopReasonNil ∧
    result = { OfOpenAI := some { ChatCompletionMessage.zero with
                                  Role := ChatMessageRoleAssistant } } ∧
    ∃ client body, tr1 = tr ++ [Call.CreateChatCompletionStream client body, Call.Recv] := by
  unfold Agent.Completion at h
  split at h
  · unfold Agent.completionOpenAI at h
    simp only [] at h
    split at h
    · simp at h
    · split at h
      · simp at h
      · split at h
        · simp at h
        · simp at h
        · simp only [Prod.mk.injEq] at h
          obtain ⟨⟨h1, h2, _⟩, h3⟩ := h
          refine ⟨h2.symm, h1.symm, ?_⟩
          rw [← h3, List.append_assoc]
          exact ⟨_, _, rfl⟩
  · simp at h

/-- A completion never passes a text to the streaming callback. -/
theorem completion_callbackTexts (env : Collaborators) (a : Agent) (tr : List Call)
    (messages : List MessageUnion) (callback : Option ChatCallBack) :
    callbackTexts (a.Completion env tr messages callback).2 = callbackTexts tr := by
  unfold Agent.Completion
  split
  · unfold Agent.completionOpenAI
    simp only []
    split
    · rfl
    · split
      · simp [callbackTexts]
      · split <;> simp [callbackTexts]
  · rfl

/-- C12, at the failing input: on the sample flow, with a stream that ends
with the finish reason `stop`, `HumanInput("hello")` and one `ContinueTurn`
both succeed and leave two entries, `start`/`user_input` and an entry on
`agent1` whose stop reason is the empty string, none of `agent_done`,
`tool_call`, `max_tokens`. -/
theorem humanInput_continueTurn_stop_reason :
    (afterHello (streamEnv helloStream)).status = .ok ∧
    (afterHelloStep (streamEnv helloStream)).status = .ok ∧
    (afterHelloStep (streamEnv helloStream)).sm.history =
      [entry 0 "start" StopReasonUserInput (userMessage "hello"),
       entry 3 "agent1" "" (assistantMessage [])] ∧
    ("" : StopReason) ≠ StopReasonAgentDone ∧ ("" : StopReason) ≠ StopReasonToolCall ∧
    ("" : StopReason) ≠ StopReasonMaxTokens := by
  decide

/-- C17: `openaiToDbStopReason` maps `length` to `max_tokens`, `tool_calls` to
`tool_call`, `stop` to `agent_done`, and every other finish reason, the empty
one included, to `unknown`. -/
theorem openaiToDbStopReason_mapping :
    openaiToDbStopReason FinishReasonLength = StopReasonMaxTokens ∧
    openaiToDbStopReason FinishReasonToolCalls = StopReasonToolCall ∧
    openaiToDbStopReason FinishReasonStop = StopReasonAgentDone ∧
    openaiToDbStopReason "" = StopReasonUnknown ∧
    ∀ reason, reason ≠ FinishReasonLength → reason ≠ FinishReasonToolCalls →
      reason ≠ FinishReasonStop → openaiToDbStopReason reason = StopReasonUnknown := by
  refine ⟨by decide, by decide, by decide, by decide, ?_⟩
  intro reason h1 h2 h3
  simp [openaiToDbStopReason, h1, h2, h3]

/-- Witness of C17: the finish reason `content_filter`. -/
theorem openaiToDbStopReason_mapping_witness :
    openaiToDbStopReason "content_filter" = StopReasonUnknown :=
  openaiToDbStopReason_mapping.2.2.2.2 "content_filter" (by decide) (by decide) (by decide)

/-- C18, at the failing input: for the stream `Hel`, `lo` (finish reason
`stop`), end-of-data, the completion returns without error after one `Recv`,
with an assistant message that holds no text and the stop reason `""` instead
of `agent_done`; for the stream that is at end-of-data at once it returns the
error `EOF`. -/
theorem completion_drops_stream :
    (sampleAgent.Completion (streamEnv helloStream) [] [userMessage "hi"] none).1 =
      ({ OfOpenAI := some { ChatCompletionMessage.zero with
                            Role := ChatMessageRoleAssistant, MultiContent := [] } },
        "", none) ∧
    recvCount (sampleAgent.Completion (streamEnv helloStream) [] [userMessage "hi"] none).2 = 1 ∧
    openaiToDbStopReason FinishReasonStop = StopReasonAgentDone ∧
    (sampleAgent.Completion (streamEnv []) [] [userMessage "hi"] none).1 =
      ({ OfOpenAI := some { ChatCompletionMessage.zero with
                            Role := ChatMessageRoleAssistant, MultiContent := [] } },
        "", some "EOF") := by
  decide

/-- C20, at the failing input: for the stream `Hel`, `lo`, end-of-data and a
non-nil callback the completion returns its message without having passed any
text to the callback. -/
theorem completion_never_calls_callback :
    (sampleAgent.Completion (streamEnv helloStream) [] [userMessage "hi"]
      (some sampleCallback)).1.2.2 = none ∧
    callbackTexts (sampleAgent.Completion (streamEnv helloStream) [] [userMessage "hi"]
      (some sampleCallback)).2 = [] := by
  decide

/-! ## Claims on the construction of an agent -/

/-- C19, at the failing input: the agent built for a configuration with the
server `search` and an empty `Tools` list has the registry tool list
`search--lookup`, and its completion request carries no tool. -/
theorem newOpenAIMessage_ignores_registry_tools :
    (NewAgent sampleEnv [] sampleSession "assistant" searchAgentConfig
      (some { OfOpenAI := some 0 })).1 = .ok searchAgent ∧
    searchAgent.tools = [{ Name := "search--lookup", Description := "", InputSchema := "" }] ∧
    searchAgent.newOpenAIMessage.Tools = [] :=
  ⟨rfl, rfl, rfl⟩

/-! ## The split of a qualified tool name -/

theorem dashDash_prefix_cons (c : Char) (rest : List Char) :
    dashDash <+: c :: rest ↔ c = '-' ∧ rest.head? = some '-' := by
  cases rest with
  | nil => simp [dashDash]
  | cons d rest =>
    simp only [dashDash, List.cons_prefix_cons, List.nil_prefix, and_true, List.head?_cons,
      Option.some.injEq]
    constructor
    · rintro ⟨h1, h2⟩; exact ⟨h1.symm, h2.symm⟩
    · rintro ⟨h1, h2⟩; exact ⟨h1.symm, h2.symm⟩

theorem dashDash_infix_cons (c : Char) (rest : List Char) :
    dashDash <:+: c :: rest ↔ (c = '-' ∧ rest.head? = some '-') ∨ dashDash <:+: rest := by
  rw [List.infix_cons_iff, dashDash_prefix_cons]

theorem head?_append_dash (before rest : List Char) :
    (before ++ '-' :: rest).head? = (before ++ ['-']).head? := by
  cases before <;> rfl

/-- `cutDashDash` finds nothing exactly when the text holds no `--`. -/
theorem cutDashDash_eq_none (l : List Char) : cutDashDash l = none ↔ ¬ dashDash <:+: l := by
  induction l with
  | nil => simp [cutDashDash, dashDash]
  | cons c rest ih =>
    rw [dashDash_infix_cons]
    unfold cutDashDash
    by_cases hc : c = '-' ∧ rest.head? = some '-'
    · simp [hc]
    · rw [if_neg hc]
      cases h : cutDashDash rest with
      | none =>
        have := ih.mp h
        simp [hc, this]
      | some p =>
        have hne : ¬ ¬ dashDash <:+: rest := by
          intro hn
          rw [ih.mpr hn] at h
          simp at h
        simp only [reduceCtorEq, false_iff, not_not]
        exact Or.inr (not_not.mp hne)

/-- What `cutDashDash` returns are the two sides of the first `--`. -/
theorem cutDashDash_eq_some (l before after : List Char)
    (h : cutDashDash l = some (before, after)) :
    l = before ++ dashDash ++ after ∧ ¬ dashDash <:+: before ++ ['-'] := by
  induction l generalizing before with
  | nil => simp [cutDashDash] at h
  | cons c rest ih =>
    unfold cutDashDash at h
    by_cases hc : c = '-' ∧ rest.head? = some '-'
    · rw [if_pos hc] at h
      simp only [Option.some.injEq, Prod.mk.injEq] at h
      obtain ⟨hb, ha⟩ := h
      subst hb ha
      obtain ⟨hc1, hc2⟩ := hc
      subst hc1
      cases rest with
      | nil => simp at hc2
      | cons d rest =>
        simp only [List.head?_cons, Option.some.injEq] at hc2
        subst hc2
        exact ⟨rfl, by decide⟩
    · rw [if_neg hc] at h
      cases hr : cutDashDash rest with
      | none => simp [hr] at h
      | some p =>
        obtain ⟨b1, a1⟩ := p
        simp only [hr, Option.some.injEq, Prod.mk.injEq] at h
        obtain ⟨hb, ha⟩ := h
        subst hb ha
        obtain ⟨hrest, hfirst⟩ := ih b1 hr
        refine ⟨by rw [hrest]; rfl, ?_⟩
        rw [List.cons_append, dashDash_infix_cons]
        rintro (⟨hc1, hc2⟩ | hin)
        · apply hc
          refine ⟨hc1, ?_⟩
          have hassoc : b1 ++ dashDash ++ a1 = b1 ++ '-' :: '-' :: a1 := by simp [dashDash]
          rw [hrest, hassoc, head?_append_dash]
          exact hc2
        · exact hfirst hin

/-- The two sides of the first `--` are what `cutDashDash` returns. -/
theorem cutDashDash_of_first (before after : List Char)
    (hfirst : ¬ dashDash <:+: before ++ ['-']) :
    cutDashDash (before ++ dashDash ++ after) = some (before, after) := by
  induction before with
  | nil => simp [cutDashDash, dashDash]
  | cons c rest ih =>
    rw [List.cons_append, dashDash_infix_cons] at hfirst
    push_neg at hfirst
    obtain ⟨hc, hrest⟩ := hfirst
    have hcond : ¬ (c = '-' ∧ (rest ++ dashDash ++ after).head? = some '-') := by
      rintro ⟨h1, h2⟩
      have h3 : (rest ++ '-' :: '-' :: after).head? = some '-' := by
        simpa [dashDash] using h2
      rw [head?_append_dash] at h3
      exact hc h1 h3
    show cutDashDash (c :: (rest ++ dashDash ++ after)) = some (c :: rest, after)
    unfold cutDashDash
    rw [if_neg hcond, ih hrest]

theorem splitN2_of_none (s : String) (h : cutDashDash s.data = none) : splitN2 s = [s] := by
  simp [splitN2, h]

theorem splitN2_of_some (s : String) (before after : List Char)
    (h : cutDashDash s.data = some (before, after)) :
    splitN2 s = [String.mk before, String.mk after] := by
  simp [splitN2, h]

/-! ## The tool-execution loop -/

theorem toolUseLoop_cons_of_none (env : Collaborators) (a : Agent) (toolUse : ToolCall)
    (rest : List ToolCall) (msg : ChatCompletionMessage) (tr : List Call)
    (h : cutDashDash toolUse.Function.Name.data = none) :
    a.toolUseLoop env (toolUse :: rest) msg tr =
      (.error "invalid tool name format, expected <mcp>--<tool_name>", tr) := by
  rw [Agent.toolUseLoop, splitN2_of_none _ h]

theorem toolUseLoop_cons_of_some (env : Collaborators) (a : Agent) (toolUse : ToolCall)
    (rest : List ToolCall) (msg : ChatCompletionMessage) (tr : List Call)
    (before after : List Char)
    (h : cutDashDash toolUse.Function.Name.data = some (before, after)) :
    a.toolUseLoop env (toolUse :: rest) msg tr =
      match a.mcpClients.lookup (String.mk before) with
      | none => (.error ("MCP client not found: " ++ String.mk before), tr)
      | some mcpClient =>
        match env.CallTool tr mcpClient (String.mk after) toolUse.Function.Arguments with
        | .error err =>
          (.error ("failed to call tool " ++ toolUse.Function.Name ++ ": " ++ err),
            tr ++ [Call.CallTool mcpClient (String.mk after) toolUse.Function.Arguments
                    a.session.CreatedBy a.session.ID])
        | .ok content =>
          a.toolUseLoop env rest
            { msg with MultiContent := msg.MultiContent ++ textParts content }
            (tr ++ [Call.CallTool mcpClient (String.mk after) toolUse.Function.Arguments
                     a.session.CreatedBy a.session.ID]) := by
  rw [Agent.toolUseLoop, splitN2_of_some _ _ _ h]

/-- The loop only adds calls to the trace. -/
theorem toolUseLoop_trace (env : Collaborators) (a : Agent) (calls : List ToolCall)
    (msg : ChatCompletionMessage) (tr : List Call) :
    ∃ added, (a.toolUseLoop env calls msg tr).2 = tr ++ added := by
  induction calls generalizing msg tr with
  | nil => exact ⟨[], by simp [Agent.toolUseLoop]⟩
  | cons toolUse rest ih =>
    cases hcut : cutDashDash toolUse.Function.Name.data with
    | none => rw [toolUseLoop_cons_of_none env a toolUse rest msg tr hcut]; exact ⟨[], by simp⟩
    | some p =>
      obtain ⟨before, after⟩ := p
      rw [toolUseLoop_cons_of_some env a toolUse rest msg tr before after hcut]
      cases a.mcpClients.lookup (String.mk before) with
      | none => exact ⟨[], by simp⟩
      | some mcpClient =>
        simp only []
        cases env.CallTool tr mcpClient (String.mk after) toolUse.Function.Arguments with
        | error err => exact ⟨_, rfl⟩
        | ok content =>
          simp only []
          obtain ⟨added, hadded⟩ := ih
            { msg with MultiContent := msg.MultiContent ++ textParts content }
            (tr ++ [Call.CallTool mcpClient (String.mk after) toolUse.Function.Arguments
                     a.session.CreatedBy a.session.ID])
          exact ⟨Call.CallTool mcpClient (String.mk after) toolUse.Function.Arguments
              a.session.CreatedBy a.session.ID :: added, by rw [hadded]; simp⟩

/-- The loop over `pre ++ post` is the loop over `pre`, followed when that
succeeds by the loop over `post`. -/
theorem toolUseLoop_append (env : Collaborators) (a : Agent) (pre post : List ToolCall)
    (msg : ChatCompletionMessage) (tr : List Call) :
    a.toolUseLoop env (pre ++ post) msg tr =
      match a.toolUseLoop env pre msg tr with
      | (.ok msg1, tr1) => a.toolUseLoop env post msg1 tr1
      | (.error err, tr1) => (.error err, tr1) := by
  induction pre generalizing msg tr with
  | nil => simp [Agent.toolUseLoop]
  | cons toolUse rest ih =>
    rw [List.cons_append]
    cases hcut : cutDashDash toolUse.Function.Name.data with
    | none =>
      rw [toolUseLoop_cons_of_none env a toolUse _ msg tr hcut,
        toolUseLoop_cons_of_none env a toolUse _ msg tr hcut]
    | some p =>
      obtain ⟨before, after⟩ := p
      rw [toolUseLoop_cons_of_some env a toolUse _ msg tr before after hcut,
        toolUseLoop_cons_of_some env a toolUse _ msg tr before after hcut]
      cases a.mcpClients.lookup (String.mk before) with
      | none => rfl
      | some mcpClient =>
        simp only []
        cases env.CallTool tr mcpClient (String.mk after) toolUse.Function.Arguments with
        | error err => rfl
        | ok content => exact ih _ _

/-- A pending call whose name has no `--`, or whose text before the first
`--` names no connected client, makes the loop return an error. -/
theorem toolUseLoop_error_of_mem (env : Collaborators) (a : Agent) (calls : List ToolCall)
    (msg : ChatCompletionMessage) (tr : List Call) (tc : ToolCall) (htc : tc ∈ calls)
    (hbad : cutDashDash tc.Function.Name.data = none ∨
      ∃ before after, cutDashDash tc.Function.Name.data = some (before, after) ∧
        a.mcpClients.lookup (String.mk before) = none) :
    ∃ err, (a.toolUseLoop env calls msg tr).1 = .error err := by
  induction calls generalizing msg tr with
  | nil => simp at htc
  | cons toolUse rest ih =>
    cases hcut : cutDashDash toolUse.Function.Name.data with
    | none => rw [toolUseLoop_cons_of_none env a toolUse rest msg tr hcut]; exact ⟨_, rfl⟩
    | some p =>
      obtain ⟨before, after⟩ := p
      rw [toolUseLoop_cons_of_some env a toolUse rest msg tr before after hcut]
      cases hlook : a.mcpClients.lookup (String.mk before) with
      | none => exact ⟨_, rfl⟩
      | some mcpClient =>
        simp only []
        cases env.CallTool tr mcpClient (String.mk after) toolUse.Function.Arguments with
        | error err => exact ⟨_, rfl⟩
        | ok content =>
          simp only []
          rcases List.mem_cons.mp htc with heq | hmem
          · subst heq
            rcases hbad with hnone | ⟨b, a1, hsome, hnot⟩
            · rw [hnone] at hcut; simp at hcut
            · rw [hsome] at hcut
              simp only [Option.some.injEq, Prod.mk.injEq] at hcut
              rw [hcut.1, hlook] at hnot
              simp at hnot
          · exact ih _ _ hmem

/-- A successful loop changes the running message in its text parts only. -/
theorem toolUseLoop_ok_fields (env : Collaborators) (a : Agent) (calls : List ToolCall)
    (msg msg1 : ChatCompletionMessage) (tr tr1 : List Call)
    (h : a.toolUseLoop env calls msg tr = (.ok msg1, tr1)) :
    msg1.Role = msg.Role ∧ msg1.ToolCallID = msg.ToolCallID ∧ msg1.Name = msg.Name := by
  induction calls generalizing msg tr with
  | nil =>
    simp only [Agent.toolUseLoop, Prod.mk.injEq, Except.ok.injEq] at h
    rw [← h.1]
    exact ⟨rfl, rfl, rfl⟩
  | cons toolUse rest ih =>
    cases hcut : cutDashDash toolUse.Function.Name.data with
    | none => rw [toolUseLoop_cons_of_none env a toolUse rest msg tr hcut] at h; simp at h
    | some p =>
      obtain ⟨before, after⟩ := p
      rw [toolUseLoop_cons_of_some env a toolUse rest msg tr before after hcut] at h
      cases hlook : a.mcpClients.lookup (String.mk before) with
      | none => simp [hlook] at h
      | some mcpClient =>
        simp only [hlook] at h
        cases hcall : env.CallTool tr mcpClient (String.mk after) toolUse.Function.Arguments with
        | error err => simp [hcall] at h
        | ok content =>
          simp only [hcall] at h
          exact ih { msg with MultiContent := msg.MultiContent ++ textParts content } _ h

/-! ## Claims on the tool execution -/

/-- When tool execution returns an error it returns the empty message. -/
theorem toolUse_error_zero (env : Collaborators) (a : Agent) (tr : List Call)
    (message result : MessageUnion) (err : String)
    (h : (a.ToolUse env tr message).1 = (result, some err)) : result = MessageUnion.zero := by
  unfold Agent.ToolUse at h
  split at h
  · unfold Agent.toolUseOpenAI at h
    simp only [] at h
    split at h
    · simp only [Prod.mk.injEq] at h; exact h.1.symm
    · split at h
      · simp only [Prod.mk.injEq] at h; exact h.1.symm
      · split at h
        · simp only [Prod.mk.injEq] at h; exact h.1.symm
        · simp at h
  · simp only [Prod.mk.injEq] at h; exact h.1.symm

/-- Tool execution on a message with a pending call that cannot be
dispatched returns an error and the empty message. -/
theorem toolUse_undispatchable (env : Collaborators) (a : Agent) (tr : List Call)
    (message : MessageUnion) (m : ChatCompletionMessage) (tc : ToolCall)
    (hm : message.OfOpenAI = some m) (htc : tc ∈ m.ToolCalls)
    (hbad : ¬ dashDash <:+: tc.Function.Name.data ∨
      ∃ before after, tc.Function.Name.data = before ++ dashDash ++ after ∧
        ¬ dashDash <:+: before ++ ['-'] ∧ a.mcpClients.lookup (String.mk before) = none) :
    ∃ err, (a.ToolUse env tr message).1 = (MessageUnion.zero, some err) := by
  have hbad1 : cutDashDash tc.Function.Name.data = none ∨
      ∃ before after, cutDashDash tc.Function.Name.data = some (before, after) ∧
        a.mcpClients.lookup (String.mk before) = none := by
    rcases hbad with h | ⟨before, after, hname, hfirst, hlook⟩
    · exact Or.inl ((cutDashDash_eq_none _).mpr h)
    · exact Or.inr ⟨before, after, by rw [hname]; exact cutDashDash_of_first _ _ hfirst, hlook⟩
  have hne : (m.ToolCalls.length == 0) = false := by
    cases hl : m.ToolCalls with
    | nil => rw [hl] at htc; simp at htc
    | cons x xs => simp
  obtain ⟨err, herr⟩ := toolUseLoop_error_of_mem env a m.ToolCalls
    { ChatCompletionMessage.zero with Role := ChatMessageRoleUser, MultiContent := [] } tr tc htc
    hbad1
  unfold Agent.ToolUse
  split
  · unfold Agent.toolUseOpenAI
    simp only [hm, hne]
    rcases hloop : a.toolUseLoop env m.ToolCalls
      { ChatCompletionMessage.zero with Role := ChatMessageRoleUser, MultiContent := [] } tr with
      ⟨r, tr1⟩
    rw [hloop] at herr
    simp only [] at herr
    subst herr
    exact ⟨err, rfl⟩
  · exact ⟨_, rfl⟩

/-- C13: when the last entry has stop reason `tool_call` and one of its
pending tool calls has a name without `--`, or a text before the first `--`
that names no client of the agent bound to the last entry's node, tool
execution returns an error and the empty message, and `ContinueTurn` returns
an error and leaves the history as it was. -/
theorem continueTurn_dispatch_error (env : Collaborators) (sm : SessionManager)
    (tr : List Call) (last : SessionHistory) (lastNode : Node) (agentName : String)
    (agent : Agent) (m : ChatCompletionMessage) (tc : ToolCall)
    (hlast : sm.history.getLast? = some last)
    (hsr : last.StopReason = StopReasonToolCall)
    (hnode : sm.nodes.lookup last.Node = some lastNode)
    (hname : lastNode.AgentName = some agentName)
    (hagent : sm.agents.lookup agentName = some agent)
    (hm : last.Content.OfOpenAI = some m) (htc : tc ∈ m.ToolCalls)
    (hbad : ¬ dashDash <:+: tc.Function.Name.data ∨
      ∃ before after, tc.Function.Name.data = before ++ dashDash ++ after ∧
        ¬ dashDash <:+: before ++ ['-'] ∧ agent.mcpClients.lookup (String.mk before) = none) :
    (∃ err, (agent.ToolUse env tr last.Content).1 = (MessageUnion.zero, some err)) ∧
    (∃ msg, (sm.ContinueTurn env tr).status = .error msg) ∧
    (sm.ContinueTurn env tr).sm.history = sm.history ∧
    (sm.ContinueTurn env tr).sm.history.length = sm.history.length := by
  have hinfo := lastHistoryInfo_of_lookup sm last lastNode hlast hnode
  obtain ⟨err, herr⟩ := toolUse_undispatchable env agent tr last.Content m tc hm htc hbad
  have hstep : (∃ msg, (sm.continueTurnToolCall env tr).status = .error msg) ∧
      (sm.continueTurnToolCall env tr).sm = sm := by
    unfold SessionManager.continueTurnToolCall
    simp only [hinfo]
    split
    · exact ⟨⟨_, rfl⟩, rfl⟩
    · simp only [hname, hagent]
      rcases htu : agent.ToolUse env tr last.Content with ⟨⟨message, e⟩, tr1⟩
      rw [htu] at herr
      simp only [Prod.mk.injEq] at herr
      obtain ⟨_, he⟩ := herr
      subst he
      exact ⟨⟨_, rfl⟩, rfl⟩
  obtain ⟨⟨msg, hmsg⟩, hsame⟩ := hstep
  rw [continueTurn_of_tool_call env sm tr lastNode last hinfo hsr]
  have hfin : SessionManager.finishTurn env (sm.continueTurnToolCall env tr) =
      sm.continueTurnToolCall env tr := by
    unfold SessionManager.finishTurn
    rw [hmsg]
  rw [hfin, hsame]
  exact ⟨⟨err, herr⟩, ⟨msg, hmsg⟩, rfl, rfl⟩

/-- Witness of C13: two pending calls, the second on the server `unknownsrv`
that the sample agent is not connected to. -/
theorem continueTurn_dispatch_error_witness :
    (∃ err, (sampleAgent.ToolUse sampleEnv []
      (entry 2 "agent1" StopReasonToolCall
        (assistantMessage
          [sampleToolCall,
           { ID := "call_2", Typ := "function",
             Function := { Name := "unknownsrv--lookup", Arguments := "\x7b\x7d" } }])).Content).1
        = (MessageUnion.zero, some err)) ∧
    (∃ msg, ((sampleManager sampleFlow unknownServerHistory).ContinueTurn sampleEnv []).status =
      .error msg) ∧
    ((sampleManager sampleFlow unknownServerHistory).ContinueTurn sampleEnv []).sm.history =
      unknownServerHistory ∧
    ((sampleManager sampleFlow unknownServerHistory).ContinueTurn sampleEnv []).sm.history.length
      = unknownServerHistory.length :=
  continueTurn_dispatch_error sampleEnv (sampleManager sampleFlow unknownServerHistory) []
    (entry 2 "agent1" StopReasonToolCall
      (assistantMessage
        [sampleToolCall,
         { ID := "call_2", Typ := "function",
           Function := { Name := "unknownsrv--lookup", Arguments := "\x7b\x7d" } }]))
    { ID := "agent1", Typ := NodeTypeAgent, AgentName := some "assistant", Next := none }
    "assistant" sampleAgent
    { ChatCompletionMessage.zero with
      Role := ChatMessageRoleAssistant
      ToolCalls :=
        [sampleToolCall,
         { ID := "call_2", Typ := "function",
           Function := { Name := "unknownsrv--lookup", Arguments := "\x7b\x7d" } }] }
    { ID := "call_2", Typ := "function",
      Function := { Name := "unknownsrv--lookup", Arguments := "\x7b\x7d" } }
    (by decide) rfl (by decide) rfl (by decide) rfl (by decide)
    (Or.inr ⟨"unknownsrv".data, "lookup".data, by decide, by decide, by decide⟩)

/-- C14: when the loop reaches a pending tool call whose name holds `--`
(the calls `pre` before it having succeeded), the name is cut at the first
`--`: it is `before ++ "--" ++ after` with no `--` starting inside `before`,
and if `before` names a connected client the next call of the trace is
`CallTool` on that client with `after`, whole, as the tool name. -/
theorem toolUse_routes_at_first_separator (env : Collaborators) (a : Agent)
    (pre post : List ToolCall) (tc : ToolCall) (msg msg1 : ChatCompletionMessage)
    (tr tr1 : List Call)
    (hpre : a.toolUseLoop env pre msg tr = (.ok msg1, tr1))
    (hsep : dashDash <:+: tc.Function.Name.data) :
    ∃ before after, tc.Function.Name.data = before ++ dashDash ++ after ∧
      ¬ dashDash <:+: before ++ ['-'] ∧
      ∀ client, a.mcpClients.lookup (String.mk before) = some client →
        ∃ later, (a.toolUseLoop env (pre ++ tc :: post) msg tr).2 =
          tr1 ++ Call.CallTool client (String.mk after) tc.Function.Arguments
            a.session.CreatedBy a.session.ID :: later := by
  cases hcut : cutDashDash tc.Function.Name.data with
  | none => exact absurd hsep ((cutDashDash_eq_none _).mp hcut)
  | some p =>
    obtain ⟨before, after⟩ := p
    obtain ⟨hname, hfirst⟩ := cutDashDash_eq_some _ _ _ hcut
    refine ⟨before, after, hname, hfirst, ?_⟩
    intro client hclient
    rw [toolUseLoop_append, hpre]
    simp only []
    rw [toolUseLoop_cons_of_some env a tc post msg1 tr1 before after hcut, hclient]
    simp only []
    cases env.CallTool tr1 client (String.mk after) tc.Function.Arguments with
    | error err => exact ⟨[], by simp⟩
    | ok content =>
      simp only []
      obtain ⟨added, hadded⟩ := toolUseLoop_trace env a post
        { msg1 with MultiContent := msg1.MultiContent ++ textParts content }
        (tr1 ++ [Call.CallTool client (String.mk after) tc.Function.Arguments
                  a.session.CreatedBy a.session.ID])
      exact ⟨added, by rw [hadded]; simp⟩

/-- Witness of C14: `search--lookup` is sent to the client `search` as the
tool `lookup`. -/
theorem toolUse_routes_at_first_separator_witness :
    ∃ later, (sampleAgent.toolUseLoop sampleEnv [sampleToolCall]
        ChatCompletionMessage.zero []).2 =
      Call.CallTool sampleMCPClient "lookup" sampleToolCall.Function.Arguments
        sampleSession.CreatedBy sampleSession.ID :: later := by
  obtain ⟨before, after, hname, hfirst, hroute⟩ :=
    toolUse_routes_at_first_separator sampleEnv sampleAgent [] [] sampleToolCall
      ChatCompletionMessage.zero ChatCompletionMessage.zero [] [] rfl (by decide)
  have hcut := cutDashDash_of_first before after hfirst
  rw [← hname] at hcut
  have hcut1 : cutDashDash sampleToolCall.Function.Name.data =
      some ("search".data, "lookup".data) := by decide
  rw [hcut1] at hcut
  simp only [Option.some.injEq, Prod.mk.injEq] at hcut
  obtain ⟨hb, ha⟩ := hcut
  subst hb ha
  exact hroute sampleMCPClient (by decide)

/-- C15: on a message without provider message, or whose provider message
holds no tool call, tool execution returns an error and the empty message and
makes no call. -/
theorem toolUse_no_tool_calls (env : Collaborators) (a : Agent) (tr : List Call)
    (message : MessageUnion)
    (h : message.OfOpenAI = none ∨ ∃ m, message.OfOpenAI = some m ∧ m.ToolCalls = []) :
    ∃ err, a.ToolUse env tr message = ((MessageUnion.zero, some err), tr) := by
  unfold Agent.ToolUse
  split
  · unfold Agent.toolUseOpenAI
    rcases h with h | ⟨m, hm, hcalls⟩
    · simp [h]
    · simp [hm, hcalls]
  · exact ⟨_, rfl⟩

/-- Witness of C15: a user message, which holds no tool call. -/
theorem toolUse_no_tool_calls_witness :
    ∃ err, sampleAgent.ToolUse sampleEnv [] (userMessage "hi") =
      ((MessageUnion.zero, some err), []) :=
  toolUse_no_tool_calls sampleEnv sampleAgent [] (userMessage "hi")
    (Or.inr ⟨_, rfl, rfl⟩)

/-- Every message a successful tool execution returns has the role `user` and
neither a tool-call identifier nor a name. -/
theorem toolUse_ok_untagged (env : Collaborators) (a : Agent) (tr tr1 : List Call)
    (message result : MessageUnion)
    (h : a.ToolUse env tr message = ((result, none), tr1)) :
    ∃ m, result.OfOpenAI = some m ∧ m.Role = ChatMessageRoleUser ∧ m.ToolCallID = "" ∧
      m.Name = "" := by
  unfold Agent.ToolUse at h
  split at h
  · unfold Agent.toolUseOpenAI at h
    simp only [] at h
    split at h
    · simp at h
    · split at h
      · simp at h
      · split at h
        · simp at h
        · rename_i msg1 tr2 hloop
          simp only [Prod.mk.injEq, and_true] at h
          obtain ⟨h1, _⟩ := h
          obtain ⟨hr, hid, hn⟩ := toolUseLoop_ok_fields env a _ _ _ _ _ hloop
          exact ⟨msg1, by rw [← h1], hr, hid, hn⟩
  · simp at h

/-- C16, at the failing input: the result of executing the call `call_1` to
`search--lookup` is a message of role `user` that holds the text of the
result with an empty tool-call identifier and an empty name. -/
theorem toolUse_result_untagged :
    (sampleAgent.ToolUse sampleEnv [] (assistantMessage [sampleToolCall])).1 =
      ({ OfOpenAI := some { Role := "user", Content := "",
                            MultiContent := [{ Typ := "text", Text := "42" }],
                            Name := "", ToolCalls := [], ToolCallID := "" } }, none) ∧
    sampleToolCall.ID = "call_1" ∧ sampleToolCall.Function.Name = "search--lookup" := by
  decide

/-! ## Claims on the qualified tool names -/

theorem qualifiedName_data (mcpName name : String) :
    (qualifiedName mcpName name).data = mcpName.data ++ dashDash ++ name.data := by
  simp [qualifiedName, dashDash]

theorem renameTools_name (mcpName : String) (tools : List Tool) :
    (renameTools mcpName tools).map (fun tool => tool.Name) =
      tools.map fun tool => qualifiedName mcpName tool.Name := by
  simp [renameTools, qualifiedName, Function.comp_def]

/-- The text `before` ends before the first `--` of `before ++ "--" ++ …`
exactly when it holds no `--` and does not end with `-`. -/
theorem first_separator_iff (before : List Char) :
    ¬ dashDash <:+: before ++ ['-'] ↔ ¬ dashDash <:+: before ∧ ¬ ['-'] <:+ before := by
  rw [List.infix_concat_iff, List.suffix_concat_iff]
  have hsuf : (dashDash = [] ∨ ∃ t, dashDash = t ++ ['-'] ∧ t <:+ before) ↔
      ['-'] <:+ before := by
    constructor
    · rintro (h | ⟨t, ht, hs⟩)
      · simp [dashDash] at h
      · have : t = ['-'] := by
          have h2 : ['-'] ++ ['-'] = t ++ ['-'] := by simpa [dashDash] using ht
          exact (List.append_cancel_right h2).symm
        rw [this] at hs
        exact hs
    · intro h
      exact Or.inr ⟨['-'], by simp [dashDash], h⟩
  rw [hsuf]
  tauto

theorem string_ext_data (s t : String) (h : s.data = t.data) : s = t := by
  cases s; cases t; simp at h; simp [h]

/-- The split of a qualified name gives back the server name and the tool
name when the server name holds no `--` and does not end with `-`. -/
theorem splitN2_qualifiedName_of_first (s t : String)
    (h : ¬ dashDash <:+: s.data ++ ['-']) : splitN2 (qualifiedName s t) = [s, t] := by
  have hcut := cutDashDash_of_first s.data t.data h
  rw [← qualifiedName_data] at hcut
  rw [splitN2_of_some _ _ _ hcut]

/-- C29: the split of the renamed tool name `s ++ "--" ++ t` at the first `--`
gives back `s` and `t` if and only if `s` holds no `--` and does not end with
`-`; it does so for every `s` without the character `-`. -/
theorem splitN2_qualifiedName (s t : String) :
    (splitN2 (qualifiedName s t) = [s, t] ↔
      ¬ dashDash <:+: s.data ∧ ¬ ['-'] <:+ s.data) ∧
    ('-' ∉ s.data → splitN2 (qualifiedName s t) = [s, t]) := by
  refine ⟨⟨?_, ?_⟩, ?_⟩
  · intro h
    rw [← first_separator_iff]
    cases hcut : cutDashDash (qualifiedName s t).data with
    | none => rw [splitN2_of_none _ hcut] at h; simp at h
    | some p =>
      obtain ⟨before, after⟩ := p
      rw [splitN2_of_some _ _ _ hcut] at h
      simp only [List.cons.injEq, and_true] at h
      have hb : before = s.data := by rw [← h.1]
      rw [← hb]
      exact (cutDashDash_eq_some _ _ _ hcut).2
  · intro h
    exact splitN2_qualifiedName_of_first s t ((first_separator_iff _).mpr h)
  · intro h
    apply splitN2_qualifiedName_of_first
    rw [first_separator_iff]
    constructor
    · intro hin
      exact h (hin.subset (by simp [dashDash]))
    · intro hsuf
      exact h (hsuf.subset (by simp))

/-- Witness of C29: the server name `search` and the tool name `lookup`. -/
theorem splitN2_qualifiedName_witness :
    splitN2 (qualifiedName "search" "lookup") = ["search", "lookup"] :=
  (splitN2_qualifiedName "search" "lookup").2 (by decide)

/-- C21, counterexample: the server `a-` with the tool `b` and the server `a`
with the tool `-b` are different pairs with the same qualified name. -/
theorem qualifiedName_collision :
    (("a-", "b") : String × String) ≠ ("a", "-b") ∧
    qualifiedName "a-" "b" = qualifiedName "a" "-b" := by
  decide

/-- C21, amended: two different pairs of a server name and a tool name have
different qualified names when the server names are equal, or the tool names
are equal, or neither server name holds `--` or ends with `-`. -/
theorem qualifiedName_injective (s1 s2 t1 t2 : String)
    (hne : (s1, t1) ≠ (s2, t2))
    (h : s1 = s2 ∨ t1 = t2 ∨
      ((¬ dashDash <:+: s1.data ∧ ¬ ['-'] <:+ s1.data) ∧
        (¬ dashDash <:+: s2.data ∧ ¬ ['-'] <:+ s2.data))) :
    qualifiedName s1 t1 ≠ qualifiedName s2 t2 := by
  intro heq
  apply hne
  have hdata := congrArg String.data heq
  rw [qualifiedName_data, qualifiedName_data] at hdata
  rcases h with h | h | ⟨h1, h2⟩
  · subst h
    rw [List.append_assoc, List.append_assoc] at hdata
    have := List.append_cancel_left (List.append_cancel_left hdata)
    rw [string_ext_data _ _ this]
  · subst h
    have := List.append_cancel_right (List.append_cancel_right hdata)
    rw [string_ext_data _ _ this]
  · have e1 := splitN2_qualifiedName_of_first s1 t1 ((first_separator_iff _).mpr h1)
    have e2 := splitN2_qualifiedName_of_first s2 t2 ((first_separator_iff _).mpr h2)
    rw [heq, e2] at e1
    simp only [List.cons.injEq, and_true] at e1
    rw [e1.1, e1.2]

/-- Witness of the amended C21: the servers `a` and `b` with the tool `run`. -/
theorem qualifiedName_injective_witness :
    qualifiedName "a" "run" ≠ qualifiedName "b" "run" :=
  qualifiedName_injective "a" "b" "run" "run" (by decide) (Or.inr (Or.inl rfl))

/-! ## The client map and the tool list of `NewAgent` -/

theorem lookup_filter_ne {V : Type} (m : List (String × V)) (k k1 : String) (h : k1 ≠ k) :
    (m.filter fun kv => kv.1 != k).lookup k1 = m.lookup k1 := by
  induction m with
  | nil => rfl
  | cons kv rest ih =>
    obtain ⟨k2, v2⟩ := kv
    by_cases h2 : k2 = k
    · subst h2
      have hb : (k1 == k2) = false := by simpa using h
      simp [List.filter_cons, List.lookup_cons, hb, ih]
    · have hf : (k2 != k) = true := by simpa using h2
      simp only [List.filter_cons, hf, if_true, List.lookup_cons, ih]

theorem lookup_mapSet_self {V : Type} (m : List (String × V)) (k : String) (v : V) :
    (mapSet m k v).lookup k = some v := by
  simp [mapSet, List.lookup_cons]

theorem lookup_mapSet_ne {V : Type} (m : List (String × V)) (k k1 : String) (v : V)
    (h : k1 ≠ k) : (mapSet m k v).lookup k1 = m.lookup k1 := by
  have hb : (k1 == k) = false := by simpa using h
  simp only [mapSet, List.lookup_cons, hb]
  exact lookup_filter_ne m k k1 h

theorem keys_mapSet_nodup {V : Type} (m : List (String × V)) (k : String) (v : V)
    (h : (m.map Prod.fst).Nodup) : ((mapSet m k v).map Prod.fst).Nodup := by
  simp only [mapSet, List.map_cons, List.nodup_cons]
  constructor
  · intro hmem
    obtain ⟨kv, hkv, hk⟩ := List.mem_map.mp hmem
    have := (List.mem_filter.mp hkv).2
    simp [hk] at this
  · exact (List.filter_sublist m).map Prod.fst |>.nodup h

theorem startAndInitialize_ok (env : Collaborators) (tr tr1 : List Call) (cfg : MCPConfig)
    (client : MCPClient) (h : startAndInitialize env tr cfg = (.ok client, tr1)) :
    client = { cfg := cfg } := by
  unfold startAndInitialize at h
  simp only [] at h
  split at h
  · simp at h
  · split at h
    · simp at h
    · simp only [Prod.mk.injEq, Except.ok.injEq] at h
      exact h.1.symm

theorem createMCPClient_ok (env : Collaborators) (tr tr1 : List Call) (cfg : MCPConfig)
    (client : MCPClient) (h : createMCPClient env tr cfg = (.ok client, tr1)) :
    client = { cfg := cfg } := by
  unfold createMCPClient at h
  split at h
  · split at h
    · simp at h
    · exact startAndInitialize_ok env _ _ _ _ h
  · split at h
    · split at h
      · simp at h
      · simp only [] at h
        split at h
        · simp at h
        · exact startAndInitialize_ok env _ _ _ _ h
    · simp at h

theorem connectLoop_cons_skip (env : Collaborators) (mcpCfg : MCPConfig)
    (rest : List MCPConfig) (m : List (String × MCPClient)) (tr : List Call)
    (h : (m.lookup mcpCfg.Name).isSome = true) :
    connectLoop env (mcpCfg :: rest) m tr = connectLoop env rest m tr := by
  rw [connectLoop, if_pos h]

/-- A successful first loop leaves, for every name, the client it had at the
start or else the client of the first configuration with that name; the keys
stay without repetition. -/
theorem connectLoop_ok (env : Collaborators) (cfgs : List MCPConfig)
    (m m1 : List (String × MCPClient)) (tr tr1 : List Call)
    (h : connectLoop env cfgs m tr = (.ok m1, tr1)) :
    (∀ k, m1.lookup k =
      (m.lookup k).orElse fun _ =>
        (cfgs.find? fun c => c.Name == k).map fun c => { cfg := c }) ∧
    ((m.map Prod.fst).Nodup → (m1.map Prod.fst).Nodup) := by
  induction cfgs generalizing m tr with
  | nil =>
    simp only [connectLoop, Prod.mk.injEq, Except.ok.injEq] at h
    rw [← h.1]
    refine ⟨fun k => ?_, id⟩
    cases m.lookup k <;> rfl
  | cons mcpCfg rest ih =>
    by_cases hsome : (m.lookup mcpCfg.Name).isSome = true
    · rw [connectLoop_cons_skip env mcpCfg rest m tr hsome] at h
      obtain ⟨hl, hn⟩ := ih m tr h
      refine ⟨fun k => ?_, hn⟩
      rw [hl k]
      cases hk : m.lookup k with
      | some c => rfl
      | none =>
        have hne : ¬ mcpCfg.Name = k := by
          intro he
          rw [he, hk] at hsome
          simp at hsome
        have hb : (mcpCfg.Name == k) = false := by simpa using hne
        simp [List.find?_cons, hb]
    · rw [connectLoop, if_neg hsome] at h
      rcases hc : createMCPClient env tr mcpCfg with ⟨r, tr2⟩
      rw [hc] at h
      cases r with
      | error fault => cases fault <;> simp at h
      | ok client =>
        simp only [] at h
        have hclient := createMCPClient_ok env tr tr2 mcpCfg client hc
        obtain ⟨hl, hn⟩ := ih (mapSet m mcpCfg.Name client) tr2 h
        refine ⟨fun k => ?_, fun hnd => hn (keys_mapSet_nodup m _ _ hnd)⟩
        rw [hl k]
        by_cases hk : k = mcpCfg.Name
        · subst hk
          have hnone : m.lookup mcpCfg.Name = none := by
            cases hx : m.lookup mcpCfg.Name with
            | none => rfl
            | some c => rw [hx] at hsome; simp at hsome
          rw [lookup_mapSet_self, hnone, hclient]
          simp [List.find?_cons]
        · rw [lookup_mapSet_ne m _ _ _ hk]
          have hb : (mcpCfg.Name == k) = false := by
            simpa using fun he : mcpCfg.Name = k => hk he.symm
          simp [List.find?_cons, hb]

/-- An entry whose name is already in the map, or is the name of an earlier
entry, changes neither the result nor the trace of the first loop. -/
theorem connectLoop_skip_repeated (env : Collaborators) (pre post : List MCPConfig)
    (dup : MCPConfig) (m : List (String × MCPClient)) (tr : List Call)
    (h : (m.lookup dup.Name).isSome = true ∨ ∃ cfg ∈ pre, cfg.Name = dup.Name) :
    connectLoop env (pre ++ dup :: post) m tr = connectLoop env (pre ++ post) m tr := by
  induction pre generalizing m tr with
  | nil =>
    rcases h with h | ⟨cfg, hmem, _⟩
    · exact connectLoop_cons_skip env dup post m tr h
    · simp at hmem
  | cons mcpCfg rest ih =>
    simp only [List.cons_append]
    by_cases hsome : (m.lookup mcpCfg.Name).isSome = true
    · rw [connectLoop_cons_skip env mcpCfg _ m tr hsome,
        connectLoop_cons_skip env mcpCfg _ m tr hsome]
      apply ih
      rcases h with h | ⟨cfg, hmem, hname⟩
      · exact Or.inl h
      · rcases List.mem_cons.mp hmem with he | hr
        · subst he
          rw [hname] at hsome
          exact Or.inl hsome
        · exact Or.inr ⟨cfg, hr, hname⟩
    · rw [connectLoop, if_neg hsome, connectLoop, if_neg hsome]
      rcases createMCPClient env tr mcpCfg with ⟨r, tr2⟩
      cases r with
      | error fault => cases fault <;> rfl
      | ok client =>
        simp only []
        apply ih
        rcases h with h | ⟨cfg, hmem, hname⟩
        · left
          by_cases hk : dup.Name = mcpCfg.Name
          · rw [hk, lookup_mapSet_self]; rfl
          · rw [lookup_mapSet_ne m _ _ _ hk]; exact h
        · rcases List.mem_cons.mp hmem with he | hr
          · subst he
            left
            rw [← hname, lookup_mapSet_self]; rfl
          · exact Or.inr ⟨cfg, hr, hname⟩

/-- A successful second loop keeps the tools it started with and adds, for
every visited entry, the renamed tools of a list the client returned. -/
theorem listToolsLoop_ok (env : Collaborators) (entries : List (String × MCPClient))
    (tools0 tools : List Tool) (tr tr1 : List Call)
    (h : listToolsLoop env entries tools0 tr = (.ok tools, tr1)) :
    (∀ tool ∈ tools0, tool ∈ tools) ∧
    ∀ mcpName mcpClient, (mcpName, mcpClient) ∈ entries →
      ∃ tr0 resTools, env.ListTools tr0 mcpClient = .ok resTools ∧
        ∀ tool ∈ renameTools mcpName resTools, tool ∈ tools := by
  induction entries generalizing tools0 tr with
  | nil =>
    simp only [listToolsLoop, Prod.mk.injEq, Except.ok.injEq] at h
    rw [← h.1]
    exact ⟨fun _ ht => ht, fun _ _ hmem => by simp at hmem⟩
  | cons e rest ih =>
    obtain ⟨n, c⟩ := e
    rw [listToolsLoop] at h
    cases hl : env.ListTools tr c with
    | error err => simp [hl] at h
    | ok resTools =>
      simp only [hl] at h
      obtain ⟨hkeep, hall⟩ := ih _ _ h
      refine ⟨fun tool ht => hkeep tool (List.mem_append_left _ ht), ?_⟩
      intro mcpName mcpClient hmem
      rcases List.mem_cons.mp hmem with he | hr
      · simp only [Prod.mk.injEq] at he
        obtain ⟨h1, h2⟩ := he
        subst h1 h2
        exact ⟨tr, resTools, hl, fun tool ht => hkeep tool (List.mem_append_right _ ht)⟩
      · exact hall mcpName mcpClient hr

theorem newAgent_ok (env : Collaborators) (tr tr2 : List Call) (session : Session)
    (name : String) (config : AgentConfig) (provider : Option LLMClientWrapper) (a : Agent)
    (h : NewAgent env tr session name config provider = (.ok a, tr2)) :
    ∃ tr1, connectLoop env config.McpServers [] tr = (.ok a.mcpClients, tr1) ∧
      listToolsLoop env (env.MapRange tr1 a.mcpClients) [] tr1 = (.ok a.tools, tr2) ∧
      a.config = config := by
  unfold NewAgent at h
  rcases hc : connectLoop env config.McpServers [] tr with ⟨r, tr1⟩
  rw [hc] at h
  cases r with
  | error fault => simp at h
  | ok mcpClients =>
    simp only [] at h
    rcases hl : listToolsLoop env (env.MapRange tr1 mcpClients) [] tr1 with ⟨r2, tr3⟩
    rw [hl] at h
    cases r2 with
    | error fault => simp at h
    | ok tools =>
      simp only [Prod.mk.injEq, Except.ok.injEq] at h
      obtain ⟨ha, htr⟩ := h
      subst ha htr
      exact ⟨tr1, rfl, hl, rfl⟩

/-- Two different server names give different qualified names to the same
tool name. -/
theorem qualifiedName_injective_of_tool (s1 s2 t : String) (hne : s1 ≠ s2) :
    qualifiedName s1 t ≠ qualifiedName s2 t := by
  intro heq
  apply hne
  have hdata := congrArg String.data heq
  rw [qualifiedName_data, qualifiedName_data] at hdata
  exact string_ext_data _ _ (List.append_cancel_right (List.append_cancel_right hdata))

/-! ## Claims on the construction of an agent, continued -/

/-- C22: when `NewAgent` succeeds, the `range` over the client map visits
every entry, and two connected servers with different names `s1` and `s2`
each list a tool named `t`, the tool list of the agent holds a tool named
`s1--t` and a tool named `s2--t`, and the two names differ. -/
theorem newAgent_tools_of_two_servers (env : Collaborators) (tr tr2 : List Call)
    (session : Session) (name : String) (config : AgentConfig)
    (provider : Option LLMClientWrapper) (a : Agent) (s1 s2 t : String) (c1 c2 : MCPClient)
    (h : NewAgent env tr session name config provider = (.ok a, tr2))
    (hrange : ∀ tr0 m, (env.MapRange tr0 m).Perm m)
    (h1 : a.mcpClients.lookup s1 = some c1) (h2 : a.mcpClients.lookup s2 = some c2)
    (hne : s1 ≠ s2)
    (ht1 : ∀ tr0 tools, env.ListTools tr0 c1 = .ok tools → ∃ tool ∈ tools, tool.Name = t)
    (ht2 : ∀ tr0 tools, env.ListTools tr0 c2 = .ok tools → ∃ tool ∈ tools, tool.Name = t) :
    (∃ tool ∈ a.tools, tool.Name = qualifiedName s1 t) ∧
    (∃ tool ∈ a.tools, tool.Name = qualifiedName s2 t) ∧
    qualifiedName s1 t ≠ qualifiedName s2 t := by
  obtain ⟨tr1, _, hl, _⟩ := newAgent_ok env tr tr2 session name config provider a h
  obtain ⟨_, hall⟩ := listToolsLoop_ok env _ _ _ _ _ hl
  have key : ∀ s c, a.mcpClients.lookup s = some c →
      (∀ tr0 tools, env.ListTools tr0 c = .ok tools → ∃ tool ∈ tools, tool.Name = t) →
      ∃ tool ∈ a.tools, tool.Name = qualifiedName s t := by
    intro s c hs ht
    have hmem : (s, c) ∈ env.MapRange tr1 a.mcpClients :=
      (hrange tr1 a.mcpClients).mem_iff.mpr (mem_of_lookup _ _ _ hs)
    obtain ⟨tr0, resTools, hres, hin⟩ := hall s c hmem
    obtain ⟨tool, htool, hname⟩ := ht tr0 resTools hres
    refine ⟨{ tool with Name := s ++ "--" ++ tool.Name }, hin _ ?_, ?_⟩
    · exact List.mem_map.mpr ⟨tool, htool, rfl⟩
    · simp [qualifiedName, hname]
  refine ⟨key s1 c1 h1 ht1, key s2 c2 h2 ht2, ?_⟩
  exact qualifiedName_injective_of_tool s1 s2 t hne

/-- Witness of C22: the servers `a` and `b`, each listing the tool `run`,
give the tools `a--run` and `b--run`. -/
theorem newAgent_tools_of_two_servers_witness :
    (∃ tool ∈ twoServerAgent.tools, tool.Name = qualifiedName "a" "run") ∧
    (∃ tool ∈ twoServerAgent.tools, tool.Name = qualifiedName "b" "run") ∧
    qualifiedName "a" "run" ≠ qualifiedName "b" "run" :=
  newAgent_tools_of_two_servers runEnv []
    (NewAgent runEnv [] sampleSession "assistant" twoServerConfig
      (some { OfOpenAI := some 0 })).2
    sampleSession "assistant" twoServerConfig (some { OfOpenAI := some 0 }) twoServerAgent
    "a" "b" "run" { cfg := stdioServer "a" "server-a" } { cfg := stdioServer "b" "server-b" }
    rfl (fun _ _ => List.Perm.refl _) (by decide) (by decide) (by decide)
    (fun _ tools htools => by
      have : tools = [{ Name := "run", Description := "", InputSchema := "" }] := by
        simpa [runEnv] using htools.symm
      exact ⟨_, by rw [this]; exact List.mem_singleton.mpr rfl, rfl⟩)
    (fun _ tools htools => by
      have : tools = [{ Name := "run", Description := "", InputSchema := "" }] := by
        simpa [runEnv] using htools.symm
      exact ⟨_, by rw [this]; exact List.mem_singleton.mpr rfl, rfl⟩)

/-- C23: when `NewAgent` succeeds, the client map has for every name the
client of the first configuration entry with that name and no other key, each
key once; and an entry that repeats the name of an earlier entry changes
neither the result nor the trace of the connection loop, so it is neither
connected nor a cause of error. -/
theorem newAgent_one_client_per_name (env : Collaborators) (tr tr2 : List Call)
    (session : Session) (name : String) (config : AgentConfig)
    (provider : Option LLMClientWrapper) (a : Agent)
    (h : NewAgent env tr session name config provider = (.ok a, tr2)) :
    (∀ k, a.mcpClients.lookup k =
      (config.McpServers.find? fun c => c.Name == k).map fun c => { cfg := c }) ∧
    (a.mcpClients.map Prod.fst).Nodup ∧
    (∀ pre dup post, config.McpServers = pre ++ dup :: post →
      (∃ cfg ∈ pre, cfg.Name = dup.Name) →
      connectLoop env (pre ++ post) [] tr = connectLoop env config.McpServers [] tr) := by
  obtain ⟨tr1, hc, _, _⟩ := newAgent_ok env tr tr2 session name config provider a h
  obtain ⟨hl, hn⟩ := connectLoop_ok env _ _ _ _ _ hc
  refine ⟨fun k => ?_, hn (by simp), ?_⟩
  · rw [hl k]; rfl
  · intro pre dup post hcfg hdup
    rw [hcfg]
    exact (connectLoop_skip_repeated env pre post dup [] tr (Or.inr hdup)).symm

/-- Witness of C23: of the entries `a`, `b`, `a` the third is skipped; the
client `a` is the one of the first entry. -/
theorem newAgent_one_client_per_name_witness :
    (∀ k, twoServerAgent.mcpClients.lookup k =
      (twoServerConfig.McpServers.find? fun c => c.Name == k).map fun c => { cfg := c }) ∧
    (twoServerAgent.mcpClients.map Prod.fst).Nodup ∧
    (∀ pre dup post, twoServerConfig.McpServers = pre ++ dup :: post →
      (∃ cfg ∈ pre, cfg.Name = dup.Name) →
      connectLoop runEnv (pre ++ post) [] [] =
        connectLoop runEnv twoServerConfig.McpServers [] []) :=
  newAgent_one_client_per_name runEnv []
    (NewAgent runEnv [] sampleSession "assistant" twoServerConfig
      (some { OfOpenAI := some 0 })).2
    sampleSession "assistant" twoServerConfig (some { OfOpenAI := some 0 }) twoServerAgent rfl

/-! ## The history under `HumanInput` and `ContinueTurn` -/

theorem addChatHistory_ok (env : Collaborators) (tr : List Call)
    (arg : SessionAddChatHistoryParams) (row : SessionHistory)
    (h : env.addChatHistory tr arg = .ok row) :
    row = { ID := arg.ID, SessionID := arg.SessionID, Content := arg.Content,
            StopReason := arg.StopReason, Node := arg.Node } := by
  unfold Collaborators.addChatHistory at h
  split at h
  · simp at h
  · simp only [Except.ok.injEq] at h
    exact h.symm

/-- `HumanInput` either fails and leaves the session manager as it was, or
succeeds and appends one `start`/`user_input` entry. -/
theorem humanInput_cases (env : Collaborators) (sm : SessionManager) (tr : List Call)
    (message : String) :
    ((sm.HumanInput env tr message).status ≠ .ok ∧ (sm.HumanInput env tr message).sm = sm) ∨
    ((sm.HumanInput env tr message).status = .ok ∧
      ∃ e, (sm.HumanInput env tr message).sm.history = sm.history ++ [e] ∧
        e.StopReason = StopReasonUserInput ∧ e.Node = "start") := by
  unfold SessionManager.HumanInput
  simp only []
  split
  · exact Or.inl ⟨by simp, rfl⟩
  · split
    · exact Or.inl ⟨by simp, rfl⟩
    · split
      · exact Or.inl ⟨by simp, rfl⟩
      · split
        · exact Or.inl ⟨by simp, rfl⟩
        · split
          · exact Or.inl ⟨by simp, rfl⟩
          · split
            · exact Or.inl ⟨by simp, rfl⟩
            · split
              · exact Or.inl ⟨by simp, rfl⟩
              · rename_i row hrow
                have := addChatHistory_ok env _ _ _ hrow
                refine Or.inr ⟨rfl, row, rfl, ?_, ?_⟩
                · rw [this]
                · rw [this]

/-- A successful `ContinueTurn` after a `user_input` entry appends an entry
whose stop reason is the empty string. -/
theorem continueTurn_user_input_ok (env : Collaborators) (sm : SessionManager)
    (tr : List Call) (last : SessionHistory)
    (hlast : sm.history.getLast? = some last)
    (hsr : last.StopReason = StopReasonUserInput)
    (hok : (sm.ContinueTurn env tr).status = .ok) :
    ∃ e, (sm.ContinueTurn env tr).sm.history = sm.history ++ [e] ∧
      e.StopReason = StopReasonNil := by
  cases hinfo : sm.lastHistoryInfo with
  | error err => rw [continueTurn_of_info_error env sm tr err hinfo] at hok; simp at hok
  | ok p =>
    obtain ⟨lastNode, last1⟩ := p
    obtain ⟨hl, _⟩ := lastHistoryInfo_ok sm lastNode last1 hinfo
    have hEq : last1 = last := by rw [hl] at hlast; exact Option.some.inj hlast
    subst hEq
    rw [continueTurn_of_user_input env sm tr lastNode last1 hinfo hsr] at hok ⊢
    rw [finishTurn_history]
    rcases continueTurnHumanInput_cases env sm tr with ⟨hne, _⟩ | ⟨_, _, hex⟩
    · exact absurd (finishTurn_ok env _ hok) hne
    · obtain ⟨_, _, _, _, _, agent, result, stopReason, tr1, _, _, _, _, _, _, hc, happ⟩ := hex
      obtain ⟨hnil, _, _⟩ := completion_ok env agent tr tr1 _ _ result stopReason hc
      exact ⟨_, happ, hnil⟩

/-- `ContinueTurn` after an entry whose stop reason is the empty string does
not succeed. -/
theorem continueTurn_nil_not_ok (env : Collaborators) (sm : SessionManager) (tr : List Call)
    (last : SessionHistory) (hlast : sm.history.getLast? = some last)
    (hsr : last.StopReason = StopReasonNil) :
    (sm.ContinueTurn env tr).status ≠ .ok := by
  cases hinfo : sm.lastHistoryInfo with
  | error err => rw [continueTurn_of_info_error env sm tr err hinfo]; simp
  | ok p =>
    obtain ⟨lastNode, last1⟩ := p
    obtain ⟨hl, _⟩ := lastHistoryInfo_ok sm lastNode last1 hinfo
    have hEq : last1 = last := by rw [hl] at hlast; exact Option.some.inj hlast
    subst hEq
    rw [continueTurn_of_other env sm tr lastNode last1 hinfo (by rw [hsr]; decide)
      (by rw [hsr]; decide) (by rw [hsr]; decide) (by rw [hsr]; decide)]
    simp

/-- C26: the history before a `HumanInput` or a `ContinueTurn` call, whatever
its status, is a prefix of the history after the call. -/
theorem history_append_only (env : Collaborators) (sm : SessionManager) (tr : List Call)
    (message : String) :
    sm.history <+: (sm.HumanInput env tr message).sm.history ∧
    sm.history <+: (sm.ContinueTurn env tr).sm.history := by
  constructor
  · rcases humanInput_cases env sm tr message with ⟨_, hsame⟩ | ⟨_, e, happ, _⟩
    · rw [hsame]
    · rw [happ]; exact List.prefix_append _ _
  · rcases continueTurn_step env sm tr with hsame | ⟨step, _, ⟨e, happ⟩, heq⟩
    · rw [hsame]
    · rw [heq, finishTurn_history, happ]; exact List.prefix_append _ _

/-! ## The driving loop -/

theorem driveLoop_humanTurn {S : Type} (isHumanTurn : S → Bool)
    (continueTurn : S → Status × S) (fuel nLoop calls : Nat) (session : S)
    (h : isHumanTurn session = true) :
    driveLoop isHumanTurn continueTurn (fuel + 1) nLoop calls session =
      ⟨.humanTurn, calls, session⟩ := by
  simp [driveLoop, h]

theorem driveLoop_error {S : Type} (isHumanTurn : S → Bool)
    (continueTurn : S → Status × S) (fuel nLoop calls : Nat) (session session1 : S)
    (err : String) (h : isHumanTurn session = false)
    (hc : continueTurn session = (.error err, session1)) :
    driveLoop isHumanTurn continueTurn (fuel + 1) nLoop calls session =
      ⟨.failed err, calls + 1, session1⟩ := by
  simp [driveLoop, h, hc]

theorem driveLoop_panic {S : Type} (isHumanTurn : S → Bool)
    (continueTurn : S → Status × S) (fuel nLoop calls : Nat) (session session1 : S)
    (msg : String) (h : isHumanTurn session = false)
    (hc : continueTurn session = (.panic msg, session1)) :
    driveLoop isHumanTurn continueTurn (fuel + 1) nLoop calls session =
      ⟨.panicked msg, calls + 1, session1⟩ := by
  simp [driveLoop, h, hc]

theorem driveLoop_ok {S : Type} (isHumanTurn : S → Bool)
    (continueTurn : S → Status × S) (fuel nLoop calls : Nat) (session session1 : S)
    (h : isHumanTurn session = false) (hc : continueTurn session = (.ok, session1)) :
    driveLoop isHumanTurn continueTurn (fuel + 1) nLoop calls session =
      if nLoop + 1 > 10 then ⟨.tooManyLoops, calls + 1, session1⟩
      else driveLoop isHumanTurn continueTurn fuel (nLoop + 1) (calls + 1) session1 := by
  simp [driveLoop, h, hc]

/-- With eleven units of fuel counted from `nLoop = 0` the loop ends by
itself, after at most `11 - nLoop` further `ContinueTurn` calls. -/
theorem driveLoop_bound {S : Type} (isHumanTurn : S → Bool)
    (continueTurn : S → Status × S) (fuel nLoop calls : Nat) (session : S)
    (hfuel : 11 ≤ fuel + nLoop) (hn : nLoop ≤ 10) :
    (driveLoop isHumanTurn continueTurn fuel nLoop calls session).ending ≠ .outOfFuel ∧
    (driveLoop isHumanTurn continueTurn fuel nLoop calls session).calls + nLoop ≤
      calls + 11 := by
  induction fuel generalizing nLoop calls session with
  | zero => omega
  | succ fuel ih =>
    cases hh : isHumanTurn session with
    | true =>
      rw [driveLoop_humanTurn _ _ _ _ _ _ hh]
      exact ⟨by simp, by simp; omega⟩
    | false =>
      rcases hc : continueTurn session with ⟨status, session1⟩
      cases status with
      | error err =>
        rw [driveLoop_error _ _ _ _ _ _ _ _ hh hc]
        exact ⟨by simp, by simp; omega⟩
      | panic msg =>
        rw [driveLoop_panic _ _ _ _ _ _ _ _ hh hc]
        exact ⟨by simp, by simp; omega⟩
      | ok =>
        rw [driveLoop_ok _ _ _ _ _ _ _ hh hc]
        by_cases hgt : nLoop + 1 > 10
        · rw [if_pos hgt]
          exact ⟨by simp, by simp; omega⟩
        · rw [if_neg hgt]
          obtain ⟨h1, h2⟩ := ih (nLoop + 1) (calls + 1) session1 (by omega) (by omega)
          exact ⟨h1, by omega⟩

/-- When the session is never at a human turn and every `ContinueTurn`
succeeds, the loop ends with `tooManyLoops` after `11 - nLoop` calls. -/
theorem driveLoop_busy {S : Type} (isHumanTurn : S → Bool)
    (continueTurn : S → Status × S) (fuel nLoop calls : Nat) (session : S)
    (hfuel : 11 ≤ fuel + nLoop) (hn : nLoop ≤ 10)
    (hturn : ∀ x, isHumanTurn x = false) (hok : ∀ x, (continueTurn x).1 = .ok) :
    (driveLoop isHumanTurn continueTurn fuel nLoop calls session).ending = .tooManyLoops ∧
    (driveLoop isHumanTurn continueTurn fuel nLoop calls session).calls + nLoop =
      calls + 11 := by
  induction fuel generalizing nLoop calls session with
  | zero => omega
  | succ fuel ih =>
    rcases hc : continueTurn session with ⟨status, session1⟩
    have hst : status = .ok := by have := hok session; rw [hc] at this; exact this
    subst hst
    rw [driveLoop_ok _ _ _ _ _ _ _ (hturn session) hc]
    by_cases hgt : nLoop + 1 > 10
    · rw [if_pos hgt]
      exact ⟨rfl, by simp; omega⟩
    · rw [if_neg hgt]
      obtain ⟨h1, h2⟩ := ih (nLoop + 1) (calls + 1) session1 (by omega) (by omega)
      exact ⟨h1, by omega⟩

/-- C25: with fuel for eleven passes the driving loop ends by itself for every
session, after at most eleven `ContinueTurn` calls; when every `ContinueTurn`
succeeds and `IsHumanTurn` is never true it ends with `tooManyLoops`, after
eleven calls. -/
theorem driveLoop_terminates {S : Type} (isHumanTurn : S → Bool)
    (continueTurn : S → Status × S) (fuel : Nat) (session : S) (hfuel : 11 ≤ fuel) :
    (driveLoop isHumanTurn continueTurn fuel 0 0 session).ending ≠ .outOfFuel ∧
    (driveLoop isHumanTurn continueTurn fuel 0 0 session).calls ≤ 11 ∧
    ((∀ x, isHumanTurn x = false) → (∀ x, (continueTurn x).1 = .ok) →
      (driveLoop isHumanTurn continueTurn fuel 0 0 session).ending = .tooManyLoops ∧
      (driveLoop isHumanTurn continueTurn fuel 0 0 session).calls = 11) := by
  obtain ⟨h1, h2⟩ := driveLoop_bound isHumanTurn continueTurn fuel 0 0 session (by omega)
    (by omega)
  refine ⟨h1, by omega, ?_⟩
  intro hturn hok
  obtain ⟨h3, h4⟩ := driveLoop_busy isHumanTurn continueTurn fuel 0 0 session (by omega)
    (by omega) hturn hok
  exact ⟨h3, by omega⟩

/-- Witness of C25: the session that is never at a human turn. -/
theorem driveLoop_terminates_witness :
    (driveLoop busySession.1 busySession.2 11 0 0 0).ending = .tooManyLoops ∧
    (driveLoop busySession.1 busySession.2 11 0 0 0).calls = 11 :=
  (driveLoop_terminates busySession.1 busySession.2 11 0 (by decide)).2.2
    (fun _ => rfl) (fun _ => rfl)

/-- When a second `ContinueTurn` cannot succeed after a successful first
one, the loop issues at most two calls. -/
theorem driveLoop_two_calls {S : Type} (isHumanTurn : S → Bool)
    (continueTurn : S → Status × S) (fuel : Nat) (session : S)
    (h : (continueTurn session).1 = .ok →
      (continueTurn (continueTurn session).2).1 ≠ .ok) :
    (driveLoop isHumanTurn continueTurn fuel 0 0 session).calls ≤ 2 := by
  cases fuel with
  | zero => simp [driveLoop]
  | succ fuel =>
    cases hh : isHumanTurn session with
    | true => rw [driveLoop_humanTurn _ _ _ _ _ _ hh]; simp
    | false =>
      rcases hc : continueTurn session with ⟨status, session1⟩
      cases status with
      | error err => rw [driveLoop_error _ _ _ _ _ _ _ _ hh hc]; simp
      | panic msg => rw [driveLoop_panic _ _ _ _ _ _ _ _ hh hc]; simp
      | ok =>
        rw [driveLoop_ok _ _ _ _ _ _ _ hh hc, if_neg (by omega)]
        have hnot : (continueTurn session1).1 ≠ .ok := by
          have := h (by rw [hc])
          rw [hc] at this
          exact this
        cases fuel with
        | zero => simp [driveLoop]
        | succ fuel =>
          cases hh1 : isHumanTurn session1 with
          | true => rw [driveLoop_humanTurn _ _ _ _ _ _ hh1]; simp
          | false =>
            rcases hc1 : continueTurn session1 with ⟨status1, session2⟩
            cases status1 with
            | ok => rw [hc1] at hnot; exact absurd rfl hnot
            | error err => rw [driveLoop_error _ _ _ _ _ _ _ _ hh1 hc1]
            | panic msg => rw [driveLoop_panic _ _ _ _ _ _ _ _ hh1 hc1]

/-- After a `user_input` entry the driving loop issues at most two
`ContinueTurn` calls: a successful first call stores the stop reason `""`,
after which either `IsHumanTurn` is true or the second call fails. -/
theorem chatLoop_calls (env : Collaborators) (fuel : Nat) (sm : SessionManager)
    (tr : List Call) (last : SessionHistory)
    (hlast : sm.history.getLast? = some last)
    (hsr : last.StopReason = StopReasonUserInput) :
    (chatLoop env fuel sm tr).calls ≤ 2 := by
  unfold chatLoop
  apply driveLoop_two_calls
  intro hst
  simp only [] at hst ⊢
  obtain ⟨e, happ, henil⟩ := continueTurn_user_input_ok env sm tr last hlast hsr hst
  have hlast1 : (sm.ContinueTurn env tr).sm.history.getLast? = some e := by
    rw [happ]; simp
  exact continueTurn_nil_not_ok env (sm.ContinueTurn env tr).sm
    (sm.ContinueTurn env tr).trace e hlast1 henil

/-- The driving loop of the chat handler, run on the session manager as the
code builds it, issues at most two `ContinueTurn` calls for one human message,
whatever the collaborators do: after `HumanInput` the first call stores the
stop reason `""`, and the loop ends there or at the error of the second
call. The bound comes from the completion, not from the counter of the
loop. -/
theorem chatHandler_calls (env : Collaborators) (fuel : Nat) (sm : SessionManager)
    (tr : List Call) (content : String) :
    (chatHandler env fuel sm tr content).calls ≤ 2 := by
  unfold chatHandler
  rcases humanInput_cases env sm tr content with ⟨hne, _⟩ | ⟨hok, e, happ, hsr, _⟩
  · cases hst : (sm.HumanInput env tr content).status with
    | ok => exact absurd hst hne
    | error err => simp
    | panic msg => simp
  · rw [hok]
    simp only []
    exact chatLoop_calls env fuel _ _ e (by rw [happ]; simp) hsr

/-- C24, the loop at the input that shows the defect: on a session that is
never at a human turn and whose every `ContinueTurn` succeeds, the driving
loop of the chat handler issues eleven `ContinueTurn` calls before it aborts
with the too-many-loops error, one more than the ceiling of ten: the counter
is compared with `nLoop > 10` after the call and the increment. After ten
calls the loop has not ended: with fuel for ten passes only, the eleventh
pass is still due. -/
theorem driveLoop_eleventh_call :
    (driveLoop busySession.1 busySession.2 20 0 0 0).ending = .tooManyLoops ∧
    (driveLoop busySession.1 busySession.2 20 0 0 0).calls = 11 ∧
    (driveLoop busySession.1 busySession.2 20 0 0 0).state = 11 ∧
    (driveLoop busySession.1 busySession.2 10 0 0 0).ending = .outOfFuel ∧
    (driveLoop busySession.1 busySession.2 10 0 0 0).calls = 10 := by
  decide

/-! ## Claims on the chunking -/

/-- C28: `NewChunking` returns the `Chunking` holding its two arguments if and
only if `chunkSize > 0` and `0 ≤ overlap < chunkSize`; otherwise it returns an
error; it returns no other `Chunking`. -/
theorem newChunking_validates (chunkSize overlap : Int) :
    (NewChunking chunkSize overlap = .ok { chunkSize := chunkSize, overlap := overlap } ↔
      0 < chunkSize ∧ 0 ≤ overlap ∧ overlap < chunkSize) ∧
    (¬ (0 < chunkSize ∧ 0 ≤ overlap ∧ overlap < chunkSize) →
      ∃ err, NewChunking chunkSize overlap = .error err) ∧
    (∀ c, NewChunking chunkSize overlap = .ok c →
      c = { chunkSize := chunkSize, overlap := overlap }) := by
  unfold NewChunking
  by_cases h1 : chunkSize ≤ 0
  · simp only [h1, if_true]
    refine ⟨⟨fun h => by simp at h, fun h => by omega⟩, fun _ => ⟨_, rfl⟩, fun c h => by simp at h⟩
  · by_cases h2 : overlap < 0
    · simp only [h1, h2, if_true, if_false]
      refine ⟨⟨fun h => by simp at h, fun h => by omega⟩, fun _ => ⟨_, rfl⟩,
        fun c h => by simp at h⟩
    · by_cases h3 : overlap ≥ chunkSize
      · simp only [h1, h2, h3, if_true, if_false]
        refine ⟨⟨fun h => by simp at h, fun h => by omega⟩, fun _ => ⟨_, rfl⟩,
          fun c h => by simp at h⟩
      · simp only [h1, h2, h3, if_false]
        refine ⟨⟨fun _ => by omega, fun _ => trivial⟩, fun h => absurd (by omega) h, ?_⟩
        intro c h
        simp only [Except.ok.injEq] at h
        exact h.symm

/-- Witness of C28: a chunk size that is not positive is refused. -/
theorem newChunking_validates_witness : ∃ err, NewChunking 0 0 = .error err :=
  (newChunking_validates 0 0).2.1 (by decide)

theorem appendChunk_within (chunkSize : Int) (chunks : List (List Char)) (s : List Char)
    (h : ∀ chunk ∈ chunks, chunk ≠ [] ∧ (chunk.length : Int) ≤ chunkSize)
    (hs : (s.length : Int) ≤ chunkSize) :
    ∀ chunk ∈ appendChunk chunks s, chunk ≠ [] ∧ (chunk.length : Int) ≤ chunkSize := by
  unfold appendChunk
  split
  · exact h
  · rename_i hne
    intro chunk hmem
    rcases List.mem_append.mp hmem with hm | hm
    · exact h chunk hm
    · rw [List.mem_singleton.mp hm]
      exact ⟨hne, hs⟩

theorem slice_length (chunkSize : Int) (w : List Char) (start stop : Int)
    (hpos : 0 < chunkSize) (hstop : stop ≤ start + chunkSize) :
    ((slice w start stop).length : Int) ≤ chunkSize := by
  unfold slice
  have h := List.length_take_le (stop - start).toNat (w.drop start.toNat)
  omega

/-- With a positive chunk size and fuel for every byte that is left, the
slicing loop ends and adds only chunks within the size. -/
theorem sliceLoop_some (chunkSize : Int) (w : List Char) (hpos : 0 < chunkSize)
    (fuel : Nat) (start : Int) (chunks : List (List Char))
    (hfuel : (w.length : Int) ≤ start + fuel)
    (h : ∀ chunk ∈ chunks, chunk ≠ [] ∧ (chunk.length : Int) ≤ chunkSize) :
    ∃ r, sliceLoop chunkSize w fuel start chunks = some r ∧
      ∀ chunk ∈ r, chunk ≠ [] ∧ (chunk.length : Int) ≤ chunkSize := by
  induction fuel generalizing start chunks with
  | zero =>
    have hn : ¬ start < (w.length : Int) := by omega
    exact ⟨chunks, by simp [sliceLoop, hn], h⟩
  | succ fuel ih =>
    rw [sliceLoop]
    by_cases hlt : start < (w.length : Int)
    · rw [if_pos hlt]
      apply ih
      · push_cast at hfuel ⊢; omega
      · apply appendChunk_within _ _ _ h
        apply slice_length _ _ _ _ hpos
        exact min_le_left _ _
    · rw [if_neg hlt]
      exact ⟨chunks, rfl, h⟩

theorem sliceLoop_word (chunkSize : Int) (w : List Char) (hpos : 0 < chunkSize)
    (chunks : List (List Char))
    (h : ∀ chunk ∈ chunks, chunk ≠ [] ∧ (chunk.length : Int) ≤ chunkSize) :
    ∃ r, sliceLoop chunkSize w (w.length + 1) 0 chunks = some r ∧
      ∀ chunk ∈ r, chunk ≠ [] ∧ (chunk.length : Int) ≤ chunkSize :=
  sliceLoop_some chunkSize w hpos _ 0 chunks (by push_cast; omega) h

theorem packWordsLoop_some (chunkSize : Int) (hpos : 0 < chunkSize)
    (words : List (List Char)) (current : List Char) (chunks : List (List Char))
    (hc : (current.length : Int) ≤ chunkSize)
    (h : ∀ chunk ∈ chunks, chunk ≠ [] ∧ (chunk.length : Int) ≤ chunkSize) :
    ∃ cur r, packWordsLoop chunkSize words current chunks = some (cur, r) ∧
      (cur.length : Int) ≤ chunkSize ∧
      ∀ chunk ∈ r, chunk ≠ [] ∧ (chunk.length : Int) ≤ chunkSize := by
  induction words generalizing current chunks with
  | nil => exact ⟨current, chunks, rfl, hc, h⟩
  | cons w rest ih =>
    rw [packWordsLoop]
    have hzero : (([] : List Char).length : Int) ≤ chunkSize := by simp; omega
    split
    · split
      · rename_i hw
        exact ih w chunks hw h
      · obtain ⟨r, hr, hin⟩ := sliceLoop_word chunkSize w hpos chunks h
        rw [hr]
        exact ih [] r hzero hin
    · split
      · rename_i hfit
        apply ih _ chunks _ h
        simp only [List.length_append, List.length_cons]
        push_cast
        omega
      · split
        · rename_i hw
          exact ih w _ hw (appendChunk_within _ _ _ h hc)
        · obtain ⟨r, hr, hin⟩ := sliceLoop_word chunkSize w hpos _
            (appendChunk_within _ _ _ h hc)
          rw [hr]
          exact ih [] r hzero hin

theorem packWords_some (chunkSize : Int) (hpos : 0 < chunkSize)
    (words : List (List Char)) (chunks : List (List Char))
    (h : ∀ chunk ∈ chunks, chunk ≠ [] ∧ (chunk.length : Int) ≤ chunkSize) :
    ∃ r, packWords chunkSize words chunks = some r ∧
      ∀ chunk ∈ r, chunk ≠ [] ∧ (chunk.length : Int) ≤ chunkSize := by
  obtain ⟨cur, r, hr, hcur, hin⟩ := packWordsLoop_some chunkSize hpos words [] chunks
    (by simp; omega) h
  unfold packWords
  rw [hr]
  refine ⟨_, rfl, ?_⟩
  split
  · exact appendChunk_within _ _ _ hin hcur
  · exact hin

theorem sentencesLoop_some (fields : List Char → List (List Char)) (chunkSize : Int)
    (hpos : 0 < chunkSize) (sentences : List (List Char)) (chunks : List (List Char))
    (h : ∀ chunk ∈ chunks, chunk ≠ [] ∧ (chunk.length : Int) ≤ chunkSize) :
    ∃ r, sentencesLoop fields chunkSize sentences chunks = some r ∧
      ∀ chunk ∈ r, chunk ≠ [] ∧ (chunk.length : Int) ≤ chunkSize := by
  induction sentences generalizing chunks with
  | nil => exact ⟨chunks, rfl, h⟩
  | cons s rest ih =>
    rw [sentencesLoop]
    split
    · rename_i hs
      exact ih _ (appendChunk_within _ _ _ h hs)
    · split
      · obtain ⟨r, hr, hin⟩ := sliceLoop_word chunkSize s hpos chunks h
        rw [hr]
        exact ih r hin
      · obtain ⟨r, hr, hin⟩ := packWords_some chunkSize hpos (fields s) chunks h
        rw [hr]
        exact ih r hin

theorem linesLoop_some (fields : List Char → List (List Char)) (chunkSize : Int)
    (hpos : 0 < chunkSize) (lines : List (List Char)) (chunks : List (List Char))
    (h : ∀ chunk ∈ chunks, chunk ≠ [] ∧ (chunk.length : Int) ≤ chunkSize) :
    ∃ r, linesLoop fields chunkSize lines chunks = some r ∧
      ∀ chunk ∈ r, chunk ≠ [] ∧ (chunk.length : Int) ≤ chunkSize := by
  induction lines generalizing chunks with
  | nil => exact ⟨chunks, rfl, h⟩
  | cons line rest ih =>
    rw [linesLoop]
    split
    · exact ih chunks h
    · split
      · rename_i hs
        exact ih _ (appendChunk_within _ _ _ h hs)
      · obtain ⟨r, hr, hin⟩ := sentencesLoop_some fields chunkSize hpos (sentencesOf line)
          chunks h
        rw [hr]
        exact ih r hin

theorem paragraphsLoop_some (fields : List Char → List (List Char)) (chunkSize : Int)
    (hpos : 0 < chunkSize) (paragraphs : List (List Char)) (chunks : List (List Char))
    (h : ∀ chunk ∈ chunks, chunk ≠ [] ∧ (chunk.length : Int) ≤ chunkSize) :
    ∃ r, paragraphsLoop fields chunkSize paragraphs chunks = some r ∧
      ∀ chunk ∈ r, chunk ≠ [] ∧ (chunk.length : Int) ≤ chunkSize := by
  induction paragraphs generalizing chunks with
  | nil => exact ⟨chunks, rfl, h⟩
  | cons p rest ih =>
    rw [paragraphsLoop]
    split
    · exact ih chunks h
    · split
      · rename_i hs
        exact ih _ (appendChunk_within _ _ _ h hs)
      · obtain ⟨r, hr, hin⟩ := linesLoop_some fields chunkSize hpos (Split p ['\n']) chunks h
        rw [hr]
        exact ih r hin

/-- C30: for every `Chunking` that `NewChunking` returns for an overlap of 0,
every `strings.Fields` and every text, `RecursiveChunking` returns, and every
chunk it returns is not empty and at most `chunkSize` bytes long. -/
theorem recursiveChunking_within (fields : List Char → List (List Char))
    (chunkSize : Int) (c : Chunking) (text : List Char)
    (h : NewChunking chunkSize 0 = .ok c) :
    ∃ chunks, c.RecursiveChunking fields text = some chunks ∧
      ∀ chunk ∈ chunks, chunk ≠ [] ∧ (chunk.length : Int) ≤ chunkSize := by
  have hpos : 0 < chunkSize := by
    unfold NewChunking at h
    by_contra hn
    rw [if_pos (by omega)] at h
    simp at h
  have hc : c = { chunkSize := chunkSize, overlap := 0 } := by
    unfold NewChunking at h
    rw [if_neg (by omega), if_neg (by omega), if_neg (by omega)] at h
    simp only [Except.ok.injEq] at h
    exact h.symm
  subst hc
  obtain ⟨r, hr, hin⟩ := paragraphsLoop_some fields chunkSize hpos (Split text ['\n', '\n']) []
    (by simp)
  unfold Chunking.RecursiveChunking
  simp only [hr]
  exact ⟨_, rfl, by simpa [addOverlapToChunks] using hin⟩

/-- Witness of C30: a text cut into chunks of at most ten bytes. -/
theorem recursiveChunking_within_witness :
    ∃ chunks, Chunking.RecursiveChunking asciiFields { chunkSize := 10, overlap := 0 }
        "Hello brave new world.".data = some chunks ∧
      ∀ chunk ∈ chunks, chunk ≠ [] ∧ (chunk.length : Int) ≤ 10 :=
  recursiveChunking_within asciiFields 10 { chunkSize := 10, overlap := 0 }
    "Hello brave new world.".data rfl

/-! ## Claims on `Initialize` -/

theorem buildMaps_status (env : Collaborators) (llm : AgentService) (sm : SessionManager)
    (tr : List Call) :
    (SessionManager.buildMaps env llm sm tr).status =
      (agentsLoop env llm sm.session (env.RangeAgents tr sm.agentFlowCfg.Agents) [] tr).1 := by
  unfold SessionManager.buildMaps
  rfl

/-- The status `Initialize` returns is a function of the session manager
without its node list. -/
theorem initialize_status_nodes (env : Collaborators) (llm : AgentService)
    (sm : SessionManager) (tr : List Call) (nodes : List Node) :
    (SessionManager.Initialize env llm
      { sm with agentFlowCfg := { sm.agentFlowCfg with Nodes := nodes } } tr).status =
      (sm.Initialize env llm tr).status := by
  unfold SessionManager.Initialize
  simp only []
  split
  · cases env.GetSessionHistoryBySessionID tr sm.session.ID with
    | error err => rfl
    | ok msgs => simp only [buildMaps_status]
  · simp only [buildMaps_status]

/-- `HumanInput` returns an error when the `start` node has no successor in
the node map. -/
theorem humanInput_start_successor (env : Collaborators) (sm : SessionManager)
    (tr : List Call) (message : String)
    (h : ((sm.nodes.lookup "start").getD Node.zero).Next = none ∨
      ∃ next, ((sm.nodes.lookup "start").getD Node.zero).Next = some next ∧
        sm.nodes.lookup next = none) :
    ∃ err, (sm.HumanInput env tr message).status = .error err := by
  unfold SessionManager.HumanInput
  simp only []
  split
  · exact ⟨_, rfl⟩
  · split
    · exact ⟨_, rfl⟩
    · rcases h with h | ⟨next, h, hl⟩
      · simp only [h]
        exact ⟨_, rfl⟩
      · simp only [h, hl]
        exact ⟨_, rfl⟩

/-- `ContinueTurn` after a `user_input` entry returns an error when the last
node has no successor that is an agent-type node of the node map. -/
theorem continueTurn_successor_not_agent (env : Collaborators) (sm : SessionManager)
    (tr : List Call) (last : SessionHistory) (lastNode : Node)
    (hlast : sm.history.getLast? = some last)
    (hsr : last.StopReason = StopReasonUserInput)
    (hnode : sm.nodes.lookup last.Node = some lastNode)
    (h : ∀ next n, lastNode.Next = some next → sm.nodes.lookup next = some n →
      n.Typ ≠ NodeTypeAgent) :
    ∃ err, (sm.ContinueTurn env tr).status = .error err := by
  have hinfo := lastHistoryInfo_of_lookup sm last lastNode hlast hnode
  rw [continueTurn_of_user_input env sm tr lastNode last hinfo hsr]
  have hstep : ∃ err, (sm.continueTurnHumanInput env tr).status = .error err := by
    unfold SessionManager.continueTurnHumanInput
    simp only [hinfo]
    cases hnext : lastNode.Next with
    | none => exact ⟨_, rfl⟩
    | some next =>
      simp only []
      have hty : (((sm.nodes.lookup next).getD Node.zero).Typ != NodeTypeAgent) = true := by
        cases hl : sm.nodes.lookup next with
        | none => decide
        | some n => simpa using h next n hnext hl
      rw [if_pos hty]
      exact ⟨_, rfl⟩
  obtain ⟨err, herr⟩ := hstep
  refine ⟨err, ?_⟩
  unfold SessionManager.finishTurn
  rw [herr]
  exact herr

/-- C27, counterexample: for the flow whose agent node `agent1` has no bound
agent name `Initialize` returns no error, and the `HumanInput` that follows
reads the missing agent name and panics. -/
theorem initialize_accepts_nameless_agent_node :
    ((newManager sampleSession namelessFlow).Initialize sampleEnv sampleService []).status =
      .ok ∧
    (((newManager sampleSession namelessFlow).Initialize sampleEnv sampleService []).sm.HumanInput
      sampleEnv [] "hello").status = .panic nilDereference := by
  decide

/-- C27, amended: the status `Initialize` returns does not depend on the node
list of the flow configuration; the nodes are checked where they are used:
`HumanInput` returns an error when the `start` node has no successor or its
successor is not in the node map, and `ContinueTurn` after a `user_input`
entry returns an error when the successor of the last node is missing or is
not an agent-type node. -/
theorem initialize_ignores_nodes (env : Collaborators) (llm : AgentService)
    (sm : SessionManager) (tr : List Call) (nodes : List Node) :
    (SessionManager.Initialize env llm
      { sm with agentFlowCfg := { sm.agentFlowCfg with Nodes := nodes } } tr).status =
      (sm.Initialize env llm tr).status ∧
    (∀ message,
      (((sm.nodes.lookup "start").getD Node.zero).Next = none ∨
        ∃ next, ((sm.nodes.lookup "start").getD Node.zero).Next = some next ∧
          sm.nodes.lookup next = none) →
      ∃ err, (sm.HumanInput env tr message).status = .error err) ∧
    (∀ last lastNode, sm.history.getLast? = some last →
      last.StopReason = StopReasonUserInput → sm.nodes.lookup last.Node = some lastNode →
      (∀ next n, lastNode.Next = some next → sm.nodes.lookup next = some n →
        n.Typ ≠ NodeTypeAgent) →
      ∃ err, (sm.ContinueTurn env tr).status = .error err) :=
  ⟨initialize_status_nodes env llm sm tr nodes,
   fun message h => humanInput_start_successor env sm tr message h,
   fun last lastNode hlast hsr hnode h =>
     continueTurn_successor_not_agent env sm tr last lastNode hlast hsr hnode h⟩

/-- Witness of the amended C27: the flow whose `start` node has no successor
is accepted by `Initialize` and refused by `HumanInput`. -/
theorem initialize_ignores_nodes_witness :
    ∃ err, (((newManager sampleSession startOnlyFlow).Initialize sampleEnv sampleService
      []).sm.HumanInput sampleEnv [] "hello").status = .error err :=
  (initialize_ignores_nodes sampleEnv sampleService
    ((newManager sampleSession startOnlyFlow).Initialize sampleEnv sampleService []).sm []
    []).2.1 "hello" (Or.inl (by decide))

end Stockmind
